import Mathlib

/-!
# iMUSE sequence player (`engines/scumm/imuse/imuse_player.cpp`)

A shallow embedding of `Scumm::Player`: the loop controller, the parameter
faders, the timer tick, the conditional commands, the part list, the start of
a sound, the event handlers, scanning, and save and load.  Machine integers
are `Nat`/`Int` with explicit wrap-around.  The parser, the parts and the engine (`_se`) are collaborators
whose code lives in other files; their operations are fields of `Env`.

The usage bits of the screen strips (`engines/scumm/usage_bits.cpp`) are
embedded next to it as functions on the array of words.
-/

namespace Scumm

/-! ## Machine integers -/

/-- Conversion of a C `int` value to `uint32`. -/
def toUint32 (x : Int) : Nat := (x % 4294967296).toNat

/-- Conversion to `uint16`. -/
def toUint16 (x : Int) : Nat := (x % 65536).toNat

/-- Conversion to `byte`. -/
def toByte (x : Int) : Nat := (x % 256).toNat

/-- Conversion to `int16`. -/
def toInt16 (x : Int) : Int := (x + 32768) % 65536 - 32768

/-- Conversion to `int32`, the C `int`. -/
def toInt32 (x : Int) : Int := (x + 2147483648) % 4294967296 - 2147483648

/-- Conversion to `int8`. -/
def toInt8 (x : Int) : Int := (x + 128) % 256 - 128

/-- Modelled from the spec: `TICKS_PER_BEAT` is a macro of `imuse_internal.h`,
which is not among the sources; 480 ticks make a beat. -/
def TICKS_PER_BEAT : Nat := 480

/-! ## Data model -/

/-- One slot of `Player::_parameterFaders`.  The widths are the ones
`syncWithSerializer` stores: `param` and `state` are `int16`, `dir` is `int8`,
`incr` is `int16`, and `ifrac`, `irem`, `ttime`, `cntdwn` are `uint16`. -/
@[ext]
structure ParameterFader where
  param : Int
  dir : Int
  incr : Int
  ifrac : Nat
  irem : Nat
  ttime : Nat
  cntdwn : Nat
  state : Int
  deriving DecidableEq, Repr

namespace ParameterFader

/-- Modelled from the spec: the enum `ParameterFader::pfVolume` is declared in
`imuse_internal.h`, which is not among the sources; a non-zero parameter id. -/
def pfVolume : Int := 1

/-- Modelled from the spec: the enum `ParameterFader::pfTranspose` is declared
in `imuse_internal.h`; the comment in `addParameterFader`
(`parameterTransition(3)`) gives its value. -/
def pfTranspose : Int := 3

/-- Modelled from the spec: the enum `ParameterFader::pfSpeed` is declared in
`imuse_internal.h`; a non-zero parameter id distinct from the other two. -/
def pfSpeed : Int := 4

/-- The constructor `ParameterFader()` : every field zero. -/
def zero : ParameterFader :=
  { param := 0, dir := 0, incr := 0, ifrac := 0, irem := 0, ttime := 0, cntdwn := 0, state := 0 }

/-- `ParameterFader::init()` : the slot is freed. -/
def init (f : ParameterFader) : ParameterFader := { f with param := 0 }

end ParameterFader

/-- `HookDatas`: the armed hook values of a player. -/
structure HookDatas where
  _jump0 : Nat
  _jump1 : Nat
  _transpose : Nat
  _part_onoff : List Nat
  _part_volume : List Nat
  _part_program : List Nat
  _part_transpose : List Nat
  deriving DecidableEq, Repr

/-- `HookDatas::reset()` : nothing is armed. -/
def HookDatas.reset : HookDatas :=
  { _jump0 := 0, _jump1 := 0, _transpose := 0,
    _part_onoff := List.replicate 16 0, _part_volume := List.replicate 16 0,
    _part_program := List.replicate 16 0, _part_transpose := List.replicate 16 0 }

/-- The fields of a `Part` that `Player` reads or writes. -/
structure Part where
  _chan : Nat
  _on : Bool
  _vol : Nat
  _pan : Int
  _transpose : Int
  _detune : Int
  _pri : Int
  _pedal : Bool
  deriving DecidableEq, Repr

/-- The state of the `MidiParser` a player owns, as far as the player observes it. -/
structure Parser where
  tick : Nat
  track : Nat
  timerRate : Nat
  loaded : Bool
  deriving DecidableEq, Repr

/-- The parser kinds of `start_seq_sound`. -/
inductive ParserType where
  | kParserTypeNone
  | kParserTypeRO
  | kParserTypeXMI
  | kParserTypeSMF
  deriving DecidableEq, Repr

/-- The fields of `Scumm::Player`.  `_midi` records whether the pointer is set;
`_parts` is the linked list of owned parts, front first; `_parserPtr` is the
pointer `_parser` (`none` for a null pointer). -/
structure Player where
  _midi : Bool
  _parserPtr : Option Parser
  _parts : List Part
  _active : Bool
  _scanning : Bool
  _id : Int
  _priority : Nat
  _volume : Nat
  _pan : Int
  _transpose : Int
  _detune : Int
  _note_offset : Int
  _vol_eff : Nat
  _track_index : Nat
  _loop_to_beat : Nat
  _loop_from_beat : Nat
  _loop_counter : Nat
  _loop_to_tick : Nat
  _loop_from_tick : Nat
  _speed : Nat
  _isMT32 : Bool
  _isMIDI : Bool
  _supportsPercussion : Bool
  _vol_chan : Nat
  _abort : Bool
  _music_tick : Nat
  _parserType : ParserType
  _transitionTimer : Nat
  _hook : HookDatas
  _parameterFaders : List ParameterFader
  deriving DecidableEq, Repr

/-- The methods of `Part` that `send`, `sysEx`, `turn_off_parts` and
`play_active_notes` call and that act on the part and the output only; the
arguments are the values passed. -/
inductive PartCall where
  | noteOff (note : Nat)
  | noteOn (note velocity : Nat)
  | modulationWheel (value : Nat)
  | set_pan (pan : Int)
  | pitchBendFactor (value : Nat)
  | set_polyphony (value : Nat)
  | set_pri (pri : Nat)
  | effectLevel (value : Nat)
  | chorusLevel (value : Nat)
  | allNotesOff
  | off
  | load_global_instrument (slot : Nat)
  | pitchBend (value : Int)
  | roland (msg : List Nat)
  deriving DecidableEq, Repr

/-- The collaborators of a player: the engine `_se`, the output driver `_midi`,
and the operations of `Part` and `MidiParser`, none of which is defined in
`imuse_player.cpp`.  `loopFieldBits` is the width of the five loop fields and
of `_track_index`, declared in `imuse_internal.h`.  `isTentacle` is
`_se->_game_id == GID_TENTACLE`; `transpose_clamp` is the helper of that name;
`allocate_part` is the request to the shared pool, which hands out a part that
is not in this player's list (it may take one from another player);
`hookQueryParam` is `HookDatas::query_param`.

`findStartOfSound sound` is the byte sequence at the pointer that
`_se->findStartOfSound(sound)` returns and `findMDhd sound` the one at the
pointer of `_se->findStartOfSound(sound, IMuseInternal::kMDhd)` (`none` for a
null pointer); `createParser` stands for the three parser factories and
`parserLoadMusic` for the calls `setMidiDriver(this)`,
`property(mpSmartJump, 1)` and `loadMusic(ptr, 0)`.  `partCall` is a method of
`Part`; `sysex` is the handler `_se->_sysex` (`none` for a null pointer), which
receives the player, the message after its first byte and the length;
`soundTypeAmiga` is `_se->_soundType == MDT_AMIGA`.  `parserScanTo` is
`jumpToTick(tick, true)`: while it seeks, the parser fires the events on the way
at the player (its `MidiDriver`), so the player and the note bitmap
`_active_notes` come back changed.  `partUninit` is `_parts->uninit()` on the
head of the part list.  `poolIndex` is the index of a part in `_se->_parts` and
`partsFrom i` the part list that starts at `&_se->_parts[i]`. -/
structure Env where
  newSystem : Bool
  tempoFactor : Nat
  baseTempo : Nat
  loopFieldBits : Nat
  get_channel_volume : Nat → Nat
  partVolume : Player → Part → Nat → Part
  partSetDetune : Player → Part → Int → Part
  partSustain : Player → Part → Bool → Part
  parserSetTrack : Parser → Nat → Parser × Bool
  parserJumpToTick : Parser → Nat → Bool → Parser × Bool
  parserSetTimerRate : Parser → Nat → Parser
  parserUnloadMusic : Parser → Parser
  parserOnTimer : Player → Player
  isTentacle : Bool
  isNativeMT32 : Bool
  transpose_clamp : Int → Int → Int → Int
  allocate_part : Nat → Bool → Option Part
  partSetup : Player → Part → Part
  partSetOnOff : Player → Part → Bool → Part
  partProgramChange : Player → Part → Nat → Part
  partSetTranspose : Player → Part → Int → Int → Int → Part
  hookQueryParam : HookDatas → Int → Nat → Int
  findStartOfSound : Int → Option (List Nat)
  findMDhd : Int → Option (List Nat)
  isMT32 : Int → Bool
  isMIDI : Int → Bool
  supportsPercussion : Int → Bool
  createParser : ParserType → Parser
  parserLoadMusic : Parser → List Nat → Parser
  partCall : PartCall → Player → Part → Part
  sysex : Option (Player → List Nat → Nat → Player)
  soundTypeAmiga : Bool
  dynamicChanAllocation : Bool
  parserScanTo : Player → List Nat → Nat → (Player × List Nat) × Bool
  partUninit : Player → Player
  poolIndex : Part → Nat
  partsFrom : Nat → List Part

/-- The constructor `Player::Player()`, with the four fader slots of the class. -/
def Player.new : Player :=
  { _midi := false, _parserPtr := none, _parts := [], _active := false, _scanning := false,
    _id := 0, _priority := 0, _volume := 0, _pan := 0, _transpose := 0, _detune := 0,
    _note_offset := 0, _vol_eff := 0, _track_index := 0, _loop_to_beat := 0,
    _loop_from_beat := 0, _loop_counter := 0, _loop_to_tick := 0, _loop_from_tick := 0,
    _speed := 128, _isMT32 := false, _isMIDI := false, _supportsPercussion := false,
    _vol_chan := 0, _abort := false, _music_tick := 0,
    _parserType := ParserType.kParserTypeNone, _transitionTimer := 0,
    _hook := HookDatas.reset,
    _parameterFaders := List.replicate 4 ParameterFader.zero }

/-! ## Loop controller -/

/-- A value stored into one of the loop fields. -/
def toLoopField (env : Env) (x : Nat) : Nat := x % 2 ^ env.loopFieldBits

/-- `Player::setLoop`.  The arguments are `uint`; `tobeat + 1` is the 32-bit sum. -/
def Player.setLoop (env : Env) (p : Player) (count tobeat totick frombeat fromtick : Nat) :
    Player × Bool :=
  if (tobeat + 1) % 4294967296 ≥ frombeat then (p, false)
  else
    let tobeat := if tobeat = 0 then 1 else tobeat
    let p := { p with _loop_counter := 0 }
    let p := { p with _loop_to_beat := toLoopField env tobeat }
    let p := { p with _loop_to_tick := toLoopField env totick }
    let p := { p with _loop_from_beat := toLoopField env frombeat }
    let p := { p with _loop_from_tick := toLoopField env fromtick }
    let p := { p with _loop_counter := toLoopField env count }
    (p, true)

/-- `Player::clearLoop`. -/
def Player.clearLoop (p : Player) : Player := { p with _loop_counter := 0 }

/-! ## Player parameters -/

/-- `Player::setVolume(byte vol)`: the new player and the return code. -/
def Player.setVolume (env : Env) (p : Player) (vol : Nat) : Player × Int :=
  if vol > 127 then (p, -1)
  else
    let p := { p with _volume := vol }
    let p := { p with _vol_eff := (env.get_channel_volume p._vol_chan * (vol + 1) / 128) % 256 }
    ({ p with _parts := p._parts.map (fun part => env.partVolume p part part._vol) }, 0)

/-- `Player::setDetune(int detune)`; `_detune` is an `int16`. -/
def Player.setDetune (env : Env) (p : Player) (detune : Int) : Player :=
  let p := { p with _detune := toInt16 detune }
  { p with _parts := p._parts.map (fun part => env.partSetDetune p part part._detune) }

/-- `Player::setSpeed(byte speed)`. -/
def Player.setSpeed (env : Env) (p : Player) (speed : Nat) : Player :=
  let shift := if env.newSystem then 6 else 7
  if env.newSystem ∧ speed > 127 then p
  else
    let p := { p with _speed := speed }
    match p._parserPtr with
    | none => p
    | some ps =>
      let rate := ((env.baseTempo * speed) % 4294967296 / 2 ^ shift * env.tempoFactor)
        % 4294967296 / 100
      { p with _parserPtr := some (env.parserSetTimerRate ps rate) }

/-- `Player::clear()`.  `uninit_parts` empties the part list; the engine-wide
effects (`reallocateMidiChannels`, `ImFireAllTriggers`) are outside the player. -/
def Player.clear (env : Env) (p : Player) : Player :=
  if !p._active then p
  else
    let p := { p with _parserPtr := p._parserPtr.map env.parserUnloadMusic }
    let p := { p with _parts := [] }
    { p with _active := false, _midi := false, _id := 0, _note_offset := 0,
             _speed := if env.newSystem then 64 else 128 }

/-- `Player::turn_off_pedals()`. -/
def Player.turn_off_pedals (env : Env) (p : Player) : Player :=
  let off := fun (part : Part) => if part._pedal then env.partSustain p part false else part
  { p with _parts := p._parts.map off }

/-- The `uint` expression `(beat - 1) * TICKS_PER_BEAT + tick` of `jump` and `scan`. -/
def beatTickToTick (beat tick : Nat) : Nat :=
  ((beat + 4294967295) % 4294967296 * TICKS_PER_BEAT + tick) % 4294967296

/-- `Player::jump(track, beat, tick)`. -/
def Player.jump (env : Env) (p : Player) (track beat tick : Nat) : Player × Bool :=
  match p._parserPtr with
  | none => (p, false)
  | some ps =>
    let r := env.parserSetTrack ps track
    let p := { p with _parserPtr := some r.1 }
    let p := if r.2 then { p with _track_index := toLoopField env track } else p
    let s := env.parserJumpToTick r.1 (beatTickToTick beat tick) false
    let p := { p with _parserPtr := some s.1 }
    if !s.2 then (p, false)
    else (p.turn_off_pedals env, true)

/-! ## Parameter faders -/

/-- The slot search of `addParameterFader`: the first slot holding `param`,
otherwise the last free slot seen; `i` is the index of the head of the list. -/
def findFaderSlot (param : Int) : Nat → Option Nat → List ParameterFader → Option Nat
  | _, best, [] => best
  | i, best, f :: fs =>
    if f.param = param then some i
    else if f.param = 0 then findFaderSlot param (i + 1) (some i) fs
    else findFaderSlot param (i + 1) best fs

/-- The slot `addParameterFader` sets up for a fade from `start` to `target`
over `time` quanta (the assignments to `best->param` .. `best->irem`). -/
def newFader (param start target time : Int) : ParameterFader :=
  { param := param, state := toInt16 start, ttime := toUint16 time, cntdwn := toUint16 time,
    dir := if target - start ≥ 0 then 1 else -1,
    incr := toInt16 (Int.tdiv (target - start) time),
    ifrac := toUint16 (Int.tmod (Int.natAbs (target - start)) time), irem := 0 }

/-- The player with slot `j` of `_parameterFaders` overwritten (the writes
through `best`). -/
def Player.setFader (p : Player) (j : Nat) (f : ParameterFader) : Player :=
  { p with _parameterFaders := p._parameterFaders.set j f }

/-- `Player::addParameterFader(param, target, time)`: the new player and the
return code, or `none` where the C++ is undefined (the division `diff / time`
by zero, or an `int` overflow in `target - start` and `ABS(diff)`). -/
def Player.addParameterFader (env : Env) (p : Player) (param target time : Int) :
    Option (Player × Int) :=
  let alloc (start : Int) : Option (Player × Int) :=
    match findFaderSlot param 0 none p._parameterFaders with
    | some j =>
      let diff := target - start
      if time = 0 ∨ diff < -2147483647 ∨ diff > 2147483647 then none
      else
        some (p.setFader j (newFader param start target time), 0)
    | none => some (p, -1)
  if param = ParameterFader.pfVolume then
    if time = 0 then some ((p.setVolume env (toByte target)).1, 0)
    else alloc p._volume
  else if param = ParameterFader.pfTranspose then
    if time = 0 then some (p.setDetune env target, 0)
    else alloc p._detune
  else if param = ParameterFader.pfSpeed then
    alloc p._speed
  else if param = 127 then
    some ({ p with _parameterFaders := p._parameterFaders.map ParameterFader.init }, 0)
  else some (p, 0)

/-- Whether `irem += ifrac` reaches `ttime` (the test `ptr->irem >= ptr->ttime`);
the sum is stored in the `uint16` field first. -/
def ParameterFader.carry (f : ParameterFader) : Bool :=
  decide (toUint16 (f.irem + f.ifrac) ≥ f.ttime)

/-- The slot after `ptr->irem += ptr->ifrac` and the conditional
`ptr->irem -= ptr->ttime`. -/
def ParameterFader.accumulate (f : ParameterFader) : ParameterFader :=
  { f with irem := if f.carry then toUint16 ((toUint16 (f.irem + f.ifrac) : Int) - f.ttime)
                   else toUint16 (f.irem + f.ifrac) }

/-- The local `int32 mod`: `incr`, plus `dir` when the remainder carried. -/
def ParameterFader.mod (f : ParameterFader) : Int :=
  if f.carry then f.incr + f.dir else f.incr

/-- The statement `if (!ptr->cntdwn || !--ptr->cntdwn) ptr->param = 0;`. -/
def ParameterFader.countdown (g : ParameterFader) : ParameterFader :=
  if g.cntdwn = 0 then { g with param := 0 }
  else if g.cntdwn - 1 = 0 then { g with cntdwn := g.cntdwn - 1, param := 0 }
  else { g with cntdwn := g.cntdwn - 1 }

/-- The slot after the remainder is folded and `ptr->state += mod`. -/
def ParameterFader.advance (f : ParameterFader) : ParameterFader :=
  { f.accumulate with state := toInt16 (f.state + f.mod) }

/-- One slot of the `for` loop of `transitionParameters`: the player after the
side effects, the slot afterwards, and whether the function returned from
inside the loop (the volume reached 0). -/
def stepFader (env : Env) (p : Player) (f : ParameterFader) : Player × ParameterFader × Bool :=
  if f.param = 0 then (p, f, false)
  else if f.mod = 0 then (p, f.accumulate.countdown, false)
  else
    let g := f.advance
    if g.param = ParameterFader.pfVolume then
      if 0 ≤ g.state ∧ g.state ≤ 127 then
        if g.state = 0 then (((p.setVolume env (toByte g.state)).1).clear env, g, true)
        else ((p.setVolume env (toByte g.state)).1, g.countdown, false)
      else (p, g.countdown, false)
    else if g.param = ParameterFader.pfTranspose then
      if -9216 ≤ g.state ∧ g.state ≤ 9216 then (p.setDetune env g.state, g.countdown, false)
      else (p, g.countdown, false)
    else if g.param = ParameterFader.pfSpeed then
      if 0 ≤ g.state ∧ g.state ≤ 127 then (p.setSpeed env (toByte g.state), g.countdown, false)
      else (p, g.countdown, false)
    else (p, ({ g with param := 0 }).countdown, false)

/-- The `for` loop over the slots, from the slot at the head of the list on. -/
def stepFaders (env : Env) (p : Player) : List ParameterFader → Player × List ParameterFader × Bool
  | [] => (p, [], false)
  | f :: fs =>
    let r := stepFader env p f
    if r.2.2 then (r.1, r.2.1 :: fs, true)
    else
      let s := stepFaders env r.1 fs
      (s.1, r.2.1 :: s.2.1, s.2.2)

/-- One 16667-unit quantum: the body of the `while` loop of
`transitionParameters` after the timer is decremented.  The flag tells that
the function returned from inside the loop. -/
def fadeQuantum (env : Env) (p : Player) : Player × Bool :=
  let r := stepFaders env p p._parameterFaders
  ({ r.1 with _parameterFaders := r.2.1 }, r.2.2)

/-- The `while (_transitionTimer >= 16667)` loop, at most `fuel` iterations. -/
def transitionLoop (env : Env) : Nat → Player → Player
  | 0, p => p
  | fuel + 1, p =>
    if p._transitionTimer ≥ 16667 then
      let r := fadeQuantum env { p with _transitionTimer := p._transitionTimer - 16667 }
      if r.2 then r.1 else transitionLoop env fuel r.1
    else p

/-- `Player::transitionParameters()`.  The timer is a `uint32`; the loop runs
`_transitionTimer / 16667` times unless the volume case returns. -/
def Player.transitionParameters (env : Env) (p : Player) : Player :=
  let p := { p with _transitionTimer := (p._transitionTimer + env.baseTempo) % 4294967296 }
  transitionLoop env (p._transitionTimer / 16667) p

/-- The player after `n` fade quanta (an early return ends only its own quantum). -/
def runQuanta (env : Env) : Nat → Player → Player
  | 0, p => p
  | n + 1, p => runQuanta env n (fadeQuantum env p).1

/-! ## Timer tick -/

/-- The position test of `onTimer` at parser tick `tick`: the beat and tick
indices computed from the `uint32` tick are at or past the loop-from boundary. -/
def Player.pastLoopFrom (p : Player) (tick : Nat) : Bool :=
  let target_tick := tick % 4294967296
  let beat_index := (target_tick / TICKS_PER_BEAT + 1) % 4294967296
  let tick_index := target_tick % TICKS_PER_BEAT
  beat_index > p._loop_from_beat ∨
    (beat_index = p._loop_from_beat ∧ tick_index ≥ p._loop_from_tick)

/-- `Player::onTimer()`. -/
def Player.onTimer (env : Env) (p : Player) : Player :=
  let p := p.transitionParameters env
  if !p._active then p
  else
    match p._parserPtr with
    | none => p
    | some ps =>
      let p :=
        if p._loop_counter ≠ 0 ∧ p.pastLoopFrom ps.tick then
          (Player.jump env { p with _loop_counter := p._loop_counter - 1 }
            p._track_index p._loop_to_beat p._loop_to_tick).1
        else p
      env.parserOnTimer p

/-- The player after `n` calls of `onTimer`. -/
def runTimer (env : Env) : Nat → Player → Player
  | 0, p => p
  | n + 1, p => runTimer env n (p.onTimer env)

/-! ## Parts of a player -/

/-- The walk of `getActivePart` over the part list: the position of the first
part whose channel is `chan`. -/
def findPartIdx (chan : Nat) : List Part → Option Nat
  | [] => none
  | part :: rest => if part._chan = chan then some 0 else (findPartIdx chan rest).map Nat.succ

/-- `Player::getActivePart(chan)`: the part found, by its position in `_parts`. -/
def Player.getActivePart (p : Player) (chan : Nat) : Option Nat :=
  findPartIdx chan p._parts

/-- `Player::getPart(chan)`: the player afterwards and the part returned, by its
position in the part list of that player (`none` for a null pointer). -/
def Player.getPart (env : Env) (p : Player) (chan : Nat) : Player × Option Nat :=
  match p.getActivePart chan with
  | some i => (p, some i)
  | none =>
    match env.allocate_part p._priority p._midi with
    | none => (p, none)
    | some part =>
      let part := { part with _chan := chan }
      let q := { p with _parts := part :: p._parts }
      ({ p with _parts := env.partSetup q part :: p._parts }, some 0)

/-- A call `part->method(...)` on the part at position `i` of the list. -/
def Player.updatePart (p : Player) (i : Nat) (f : Player → Part → Part) : Player :=
  match p._parts[i]? with
  | some part => { p with _parts := p._parts.set i (f p part) }
  | none => p

/-- The tail `part = getPart(chan); if (part) part->method(...)` of the
per-channel commands. -/
def Player.withPart (env : Env) (p : Player) (chan : Nat) (f : Player → Part → Part) : Player :=
  match (p.getPart env chan).2 with
  | some i => (p.getPart env chan).1.updatePart i f
  | none => (p.getPart env chan).1

/-- The local `lim` of `setTranspose` and `part_set_transpose`. -/
def Env.transposeLimit (env : Env) : Int :=
  if env.isTentacle ∨ env.isNativeMT32 then 12 else 24

/-- `Player::setTranspose(byte relative, int b)`: the new player and the return code. -/
def Player.setTranspose (env : Env) (p : Player) (relative : Nat) (b : Int) : Player × Int :=
  if b > 24 ∨ b < -24 ∨ relative > 1 then (p, -1)
  else
    let b := if relative ≠ 0 then env.transpose_clamp (p._transpose + b) (-7) 7 else b
    let p := { p with _transpose := toInt8 b }
    let lim := env.transposeLimit
    let tr := fun (part : Part) => env.partSetTranspose p part part._transpose (-lim) lim
    ({ p with _parts := p._parts.map tr }, 0)

/-- `Player::part_set_transpose(uint8 chan, byte relative, int8 b)`. -/
def Player.part_set_transpose (env : Env) (p : Player) (chan relative : Nat) (b : Int) : Player :=
  if b > 24 ∨ b < -24 then p
  else
    p.withPart env chan (fun q part =>
      let b1 := if relative ≠ 0 then toInt8 (env.transpose_clamp (b + part._transpose) (-7) 7)
        else b
      env.partSetTranspose q part b1 (-env.transposeLimit) env.transposeLimit)

/-! ## Conditional commands

The argument `data` is the byte buffer of the command; `data.getD i 0` is
`data[i]`.  The per-channel commands index the 16-entry hook arrays with
`data[0]`: a channel of 16 or more is an access outside the array (`none`). -/

/-- `Player::maybe_jump(byte cmd, uint track, uint beat, uint tick)`. -/
def Player.maybe_jump (env : Env) (p : Player) (cmd track beat tick : Nat) : Player :=
  if cmd ≠ 0 ∧ p._hook._jump0 ≠ cmd then p
  else
    let p :=
      if cmd ≠ 0 ∧ cmd < 128 then
        { p with _hook := { p._hook with _jump0 := p._hook._jump1, _jump1 := 0 } }
      else p
    (p.jump env track beat tick).1

/-- `Player::maybe_set_transpose(byte *data)`. -/
def Player.maybe_set_transpose (env : Env) (p : Player) (data : List Nat) : Player :=
  let cmd := data.getD 0 0
  if cmd ≠ 0 ∧ p._hook._transpose ≠ cmd then p
  else
    let p := if cmd ≠ 0 ∧ cmd < 128 then { p with _hook := { p._hook with _transpose := 0 } } else p
    (p.setTranspose env (data.getD 1 0) (toInt8 (data.getD 2 0))).1

/-- `Player::maybe_part_onoff(byte *data)`. -/
def Player.maybe_part_onoff (env : Env) (p : Player) (data : List Nat) : Option Player :=
  let cmd := data.getD 1 0
  let chan := data.getD 0 0
  if chan ≥ 16 then none
  else if cmd ≠ 0 ∧ p._hook._part_onoff.getD chan 0 ≠ cmd then some p
  else
    let p :=
      if cmd ≠ 0 ∧ cmd < 128 then
        { p with _hook := { p._hook with _part_onoff := p._hook._part_onoff.set chan 0 } }
      else p
    some (p.withPart env chan (fun q part => env.partSetOnOff q part (data.getD 2 0 ≠ 0)))

/-- `Player::maybe_set_volume(byte *data)`. -/
def Player.maybe_set_volume (env : Env) (p : Player) (data : List Nat) : Option Player :=
  let cmd := data.getD 1 0
  let chan := data.getD 0 0
  if chan ≥ 16 then none
  else if cmd ≠ 0 ∧ p._hook._part_volume.getD chan 0 ≠ cmd then some p
  else
    let p :=
      if cmd ≠ 0 ∧ cmd < 128 then
        { p with _hook := { p._hook with _part_volume := p._hook._part_volume.set chan 0 } }
      else p
    some (p.withPart env chan (fun q part => env.partVolume q part (data.getD 2 0)))

/-- `Player::maybe_set_program(byte *data)`. -/
def Player.maybe_set_program (env : Env) (p : Player) (data : List Nat) : Option Player :=
  let cmd := data.getD 1 0
  let chan := data.getD 0 0
  if chan ≥ 16 then none
  else if cmd ≠ 0 ∧ p._hook._part_program.getD chan 0 ≠ cmd then some p
  else
    let p :=
      if cmd ≠ 0 ∧ cmd < 128 then
        { p with _hook := { p._hook with _part_program := p._hook._part_program.set chan 0 } }
      else p
    some (p.withPart env chan (fun q part => env.partProgramChange q part (data.getD 2 0)))

/-- `Player::maybe_set_transpose_part(byte *data)`. -/
def Player.maybe_set_transpose_part (env : Env) (p : Player) (data : List Nat) : Option Player :=
  let cmd := data.getD 1 0
  let chan := data.getD 0 0
  if chan ≥ 16 then none
  else if cmd ≠ 0 ∧ p._hook._part_transpose.getD chan 0 ≠ cmd then some p
  else
    let p :=
      if cmd ≠ 0 ∧ cmd < 128 then
        { p with _hook := { p._hook with _part_transpose := p._hook._part_transpose.set chan 0 } }
      else p
    some (p.part_set_transpose env chan (data.getD 2 0) (toInt8 (data.getD 3 0)))

/-! ## Queries -/

/-- `Player::getBeatIndex()`. -/
def Player.getBeatIndex (p : Player) : Nat :=
  match p._parserPtr with
  | some ps => (ps.tick % 4294967296 / TICKS_PER_BEAT + 1) % 4294967296
  | none => 0

/-- `Player::query_part_param(int param, byte chan)`; `none` is the call of
`error()` for code 16, which does not return. -/
def Player.query_part_param (p : Player) (param : Int) (chan : Nat) : Option Int :=
  match p._parts.find? (fun part => decide (part._chan = chan)) with
  | some part =>
    if param = 14 then some (if part._on then 1 else 0)
    else if param = 15 then some part._vol
    else if param = 16 then none
    else if param = 17 then some part._transpose
    else some (-1)
  | none => some 129

/-- `Player::getParam(int param, byte chan)`: the player afterwards (the body
only reads) and the value returned, `none` where `error()` is called.  The
unsigned fields and `getBeatIndex()` are converted to the `int` returned. -/
def Player.getParam (env : Env) (p : Player) (param : Int) (chan : Nat) : Player × Option Int :=
  match param with
  | Int.negSucc _ => (p, some (-1))
  | Int.ofNat n =>
    match n with
    | 0 => (p, some (toByte p._priority))
    | 1 => (p, some (toByte p._volume))
    | 2 => (p, some (toByte p._pan))
    | 3 => (p, some (toByte p._transpose))
    | 4 => (p, some (toByte p._detune))
    | 5 => (p, some p._speed)
    | 6 => (p, some (toInt32 p._track_index))
    | 7 => (p, some (toInt32 p.getBeatIndex))
    | 8 => (p, some (match p._parserPtr with
        | some ps => ps.tick % 4294967296 % TICKS_PER_BEAT
        | none => 0))
    | 9 => (p, some (toInt32 p._loop_counter))
    | 10 => (p, some (toInt32 p._loop_to_beat))
    | 11 => (p, some (toInt32 p._loop_to_tick))
    | 12 => (p, some (toInt32 p._loop_from_beat))
    | 13 => (p, some (toInt32 p._loop_from_tick))
    | 14 => (p, p.query_part_param param chan)
    | 15 => (p, p.query_part_param param chan)
    | 16 => (p, p.query_part_param param chan)
    | 17 => (p, p.query_part_param param chan)
    | 18 => (p, some (env.hookQueryParam p._hook param chan))
    | 19 => (p, some (env.hookQueryParam p._hook param chan))
    | 20 => (p, some (env.hookQueryParam p._hook param chan))
    | 21 => (p, some (env.hookQueryParam p._hook param chan))
    | 22 => (p, some (env.hookQueryParam p._hook param chan))
    | 23 => (p, some (env.hookQueryParam p._hook param chan))
    | _ => (p, some (-1))

/-! ## Starting a sound -/

/-- `READ_BE_UINT32(&ptr[i])`. -/
def readBE32 (ptr : List Nat) (i : Nat) : Nat :=
  ((ptr.getD i 0 * 256 + ptr.getD (i + 1) 0) * 256 + ptr.getD (i + 2) 0) * 256 +
    ptr.getD (i + 3) 0

/-- `Player::loadStartParameters(int sound)`.  The chunk `ptr` starts with its
tag and its size, so `ptr[2]` of the source (after `ptr += 8`) is the byte 10
of the chunk; `(ptr[2] | ptr[3] | ptr[7])` is non-zero when one of the three
bytes is.  `_pan` and `_transpose` are `int8`. -/
def Player.loadStartParameters (env : Env) (p : Player) (sound : Int) : Player :=
  let p := { p with _priority := if env.newSystem then 64 else 128 }
  let p := { p with _volume := 127 }
  let p := { p with _vol_chan := 65535 }
  let p := { p with _vol_eff := (env.get_channel_volume 65535 * 128 / 128) % 256 }
  let p := { p with _pan := 0, _transpose := 0, _detune := 0 }
  match env.findMDhd sound with
  | none => p
  | some ptr =>
    if readBE32 ptr 4 ≠ 0 ∧ ¬ (ptr.getD 10 0 = 0 ∧ ptr.getD 11 0 = 0 ∧ ptr.getD 15 0 = 0) then
      let p := { p with _priority := ptr.getD 10 0 }
      let p := { p with _volume := ptr.getD 11 0 }
      let p := { p with _pan := toInt8 (ptr.getD 12 0) }
      let p := { p with _transpose := toInt8 (ptr.getD 13 0) }
      let p := { p with _detune := ptr.getD 14 0 }
      p.setSpeed env (ptr.getD 15 0)
    else p

/-- The parser kind `start_seq_sound` selects from the magic of the resource:
`"RO"`, `"FORM"`, or anything else. -/
def parserTypeOf (ptr : List Nat) : ParserType :=
  if ptr.take 2 = [82, 79] then ParserType.kParserTypeRO
  else if ptr.take 4 = [70, 79, 82, 77] then ParserType.kParserTypeXMI
  else ParserType.kParserTypeSMF

/-- The argument of the `setSpeed` call that ends `start_seq_sound`. -/
def Player.startSpeed (env : Env) (p : Player) (sound : Int) (reset_vars : Bool) : Nat :=
  let defSpeed := if env.newSystem then 64 else 128
  if reset_vars then
    match env.findMDhd sound with
    | some ptr => if readBE32 ptr 4 ≠ 0 ∧ ptr.getD 15 0 ≠ 0 then ptr.getD 15 0 else defSpeed
    | none => defSpeed
  else p._speed

/-- `Player::start_seq_sound(int sound, bool reset_vars)`: the player and the
return code; `none` is the call through a null `_parser` (the parser kind is
already the wanted one, yet no parser is held). -/
def Player.start_seq_sound (env : Env) (p : Player) (sound : Int) (reset_vars : Bool) :
    Option (Player × Int) :=
  let p :=
    if reset_vars then
      { p with _loop_to_beat := 1, _loop_from_beat := 1, _track_index := 0, _loop_counter := 0,
               _loop_to_tick := 0, _loop_from_tick := 0 }
    else p
  match env.findStartOfSound sound with
  | none => some (p, -1)
  | some ptr =>
    let p :=
      if p._parserType ≠ parserTypeOf ptr then
        { p with _parserPtr := some (env.createParser (parserTypeOf ptr)),
                 _parserType := parserTypeOf ptr }
      else p
    match p._parserPtr with
    | none => none
    | some ps =>
      let ps := (env.parserSetTrack (env.parserLoadMusic ps ptr) p._track_index).1
      let p := { p with _parserPtr := some ps }
      some (p.setSpeed env (p.startSpeed env sound reset_vars % 256), 0)

/-- The statements of `Player::startSound` from `_isMT32 = ...` to `hook_clear()`. -/
def Player.startInit (env : Env) (p : Player) (sound : Int) (midi : Bool) : Player :=
  let p := { p with _isMT32 := env.isMT32 sound, _isMIDI := env.isMIDI sound,
                    _supportsPercussion := env.supportsPercussion sound }
  let p := { p with _parts := [], _active := true, _midi := midi, _id := sound }
  let p := p.loadStartParameters env sound
  let p := { p with _parameterFaders := p._parameterFaders.map ParameterFader.init }
  { p with _hook := HookDatas.reset }

/-- `Player::startSound(int sound, MidiDriver *midi)`: the player and the value
returned; `midi` tells whether the driver pointer is set.  `none` is a call
that does not return: `error()` for a sound that is not found, or the call
through a null `_parser` in `start_seq_sound`. -/
def Player.startSound (env : Env) (p : Player) (sound : Int) (midi : Bool) :
    Option (Player × Bool) :=
  match env.findStartOfSound sound with
  | none => none
  | some _ =>
    match (p.startInit env sound midi).start_seq_sound env sound true with
    | none => none
    | some r =>
      if r.2 ≠ 0 then some ({ r.1 with _active := false, _midi := false }, false)
      else some (r.1, true)

/-! ## Stopping -/

/-- The loop `while (_parts) _parts->uninit();` of `Player::uninit_parts`, at most
`fuel` iterations; `none` says the fuel did not suffice. -/
def uninitLoop (env : Env) : Nat → Player → Option Player
  | fuel, p =>
    if p._parts = [] then some p
    else
      match fuel with
      | 0 => none
      | fuel + 1 => uninitLoop env fuel (env.partUninit p)

/-- `Player::uninit_parts()`; `reallocateMidiChannels` is outside the player. -/
def Player.uninit_parts (env : Env) (p : Player) (fuel : Nat) : Option Player :=
  uninitLoop env fuel p

/-- `Player::metaEvent(byte type, byte *msg, uint16 len)`. -/
def Player.metaEvent (env : Env) (p : Player) (type : Nat) : Player :=
  if type = 47 then p.clear env else p

/-! ## Events

`Player::_active_notes` is a static array of 128 `uint16`, one bit per channel;
it is passed next to the player.  `error()` does not return: where it is
called the result is the state at the call with the flag `error` set, and no
statement after the call is run. -/

/-- What `Player::send` leaves behind: the player, the array `_active_notes`, and
whether `error()` was called (then `send` did not return and the two are the
state at the call). -/
structure SendResult where
  player : Player
  notes : List Nat
  error : Bool
  deriving DecidableEq, Repr

/-- The `case 0xB` of `Player::send`: the player afterwards and whether
`error()` was called (the player is then the one at the call). -/
def Player.controlChange (env : Env) (p : Player) (chan param1 param2 : Nat) : Player × Bool :=
  let r := if param1 = 123 then (p, p.getActivePart chan) else p.getPart env chan
  match r.2 with
  | none => (r.1, false)
  | some i =>
    if param1 = 0 then (r.1, false)
    else if param1 = 1 then (r.1.updatePart i (env.partCall (PartCall.modulationWheel param2)), false)
    else if param1 = 7 then (r.1.updatePart i (fun q part => env.partVolume q part param2), false)
    else if param1 = 10 then
      (r.1.updatePart i (env.partCall (PartCall.set_pan ((param2 : Int) - 64))), false)
    else if param1 = 16 then
      (r.1.updatePart i (env.partCall (PartCall.pitchBendFactor param2)), false)
    else if param1 = 17 then
      if env.newSystem then (r.1.updatePart i (env.partCall (PartCall.set_polyphony param2)), false)
      else (r.1.updatePart i (fun q part => env.partSetDetune q part ((param2 : Int) - 64)), false)
    else if param1 = 18 then
      let param2 := if !env.newSystem then (param2 + 192) % 256 else param2
      (r.1.updatePart i (env.partCall (PartCall.set_pri param2)), false)
    else if param1 = 64 then
      (r.1.updatePart i (fun q part => env.partSustain q part (decide (param2 ≠ 0))), false)
    else if param1 = 91 then (r.1.updatePart i (env.partCall (PartCall.effectLevel param2)), false)
    else if param1 = 93 then (r.1.updatePart i (env.partCall (PartCall.chorusLevel param2)), false)
    else if param1 = 116 then (r.1, false)
    else if param1 = 117 then (r.1, false)
    else if param1 = 123 then (r.1.updatePart i (env.partCall PartCall.allNotesOff), false)
    else (r.1, true)

/-- `Player::send(uint32 b)`.  `b / 16 % 16` is `cmd >> 4`, `b % 16` the channel,
`b / 256 % 256` and `b / 65536 % 256` the two parameter bytes.  `none` is an
index of 128 or more into `_active_notes`.  In the `default` case outside
scanning mode `error()` is called and does not return, so the `clear()` written
after it is not reached. -/
def Player.send (env : Env) (p : Player) (notes : List Nat) (b : Nat) : Option SendResult :=
  let top := b / 16 % 16
  let chan := b % 16
  let param1 := b / 256 % 256
  let param2 := b / 65536 % 256
  if top = 8 then
    if !p._scanning then
      some ⟨p.withPart env chan (env.partCall (PartCall.noteOff param1)), notes, false⟩
    else if param1 < 128 then
      some ⟨p, notes.set param1 (notes.getD param1 0 &&& (65535 ^^^ 2 ^ chan)), false⟩
    else none
  else if top = 9 then
    let param1 := toByte (param1 + p._note_offset)
    if !p._scanning then
      let param2 :=
        if p._isMT32 ∧ ¬ env.isNativeMT32 then (param2 * 3 / 4 + 32) % 128 else param2
      some ⟨p.withPart env chan (env.partCall (PartCall.noteOn param1 param2)), notes, false⟩
    else if param1 < 128 then
      some ⟨p, notes.set param1 (notes.getD param1 0 ||| 2 ^ chan), false⟩
    else none
  else if top = 11 then
    some ⟨(p.controlChange env chan param1 param2).1, notes,
      (p.controlChange env chan param1 param2).2⟩
  else if top = 12 then
    if p._isMIDI then
      if param1 < 128 then
        some ⟨p.withPart env chan (fun q part => env.partProgramChange q part param1), notes, false⟩
      else some ⟨(p.getPart env chan).1, notes, false⟩
    else
      if param1 < 32 then
        some ⟨p.withPart env chan (env.partCall (PartCall.load_global_instrument param1)), notes,
          false⟩
      else some ⟨(p.getPart env chan).1, notes, false⟩
  else if top = 14 then
    some ⟨p.withPart env chan
      (env.partCall (PartCall.pitchBend (((param2 * 128 ||| param1 : Nat) : Int) - 8192))),
      notes, false⟩
  else if top = 10 ∨ top = 13 ∨ top = 15 then some ⟨p, notes, false⟩
  else if !p._scanning then some ⟨p, notes, true⟩
  else some ⟨p, notes, false⟩

/-- `Player::sysEx(const byte *p, uint16 len)`; the formatting of the debug line
writes to a local buffer only. -/
def Player.sysEx (env : Env) (p : Player) (msg : List Nat) (len : Nat) : Player :=
  let a := msg.getD 0 0
  let len := (len + 65535) % 65536
  if a ≠ 125 then
    if a = 65 then
      if (p._isMIDI ∧ ¬ env.soundTypeAmiga) ∨ p._isMT32 then
        p.withPart env (msg.getD 1 0 % 16) (env.partCall (PartCall.roland msg))
      else p
    else p
  else
    let len := (len + 65535) % 65536
    if len ≥ 128 then p
    else
      match env.sysex with
      | some handler => handler p (msg.drop 1) len
      | none => p

/-- `Player::sysExNoDelay(const byte *msg, uint16 length)`: the player after the
call of `sysEx` and the delay returned. -/
def Player.sysExNoDelay (env : Env) (p : Player) (msg : List Nat) (length : Nat) : Player × Nat :=
  let p := p.sysEx env msg length
  if p._isMT32 ∧ ¬ p._scanning ∧ ((msg.getD 0 0 = 125 ∧ msg.getD 1 0 = 0) ∨ msg.getD 0 0 = 65) then
    (p, if length ≥ 25 then 70 else 20)
  else (p, 0)

/-! ## Scanning -/

/-- Modelled from the spec: a `Common::Serializer`, a versioned sequential byte
stream.  `bytes` holds what was written so far when saving, and what is still
to be read when loading. -/
structure Serializer where
  saving : Bool
  version : Nat
  bytes : List Nat
  deriving DecidableEq, Repr

/-- Modelled from the spec: `Common::Serializer::kLastVersion`, the upper
version bound of a field that is still in use. -/
def kLastVersion : Nat := 4294967295

/-- The `w` little-endian bytes of a number. -/
def leBytes : Nat → Nat → List Nat
  | 0, _ => []
  | w + 1, x => x % 256 :: leBytes w (x / 256)

/-- The number whose little-endian bytes are given. -/
def leValue : List Nat → Nat
  | [] => 0
  | b :: bs => b % 256 + 256 * leValue bs

/-- Modelled from the spec: the methods `syncAsByte`, `syncAsSByte`,
`syncAsUint16LE`, `syncAsSint16LE` and `syncAsUint32LE` of the serializer for a
field of `w` bytes.  Outside the versions `minVer..maxVer` nothing happens; a
saving serializer appends the `w` low bytes of the field (`enc` is its
conversion to an unsigned number) and leaves the field; a loading one takes
`w` bytes and converts them to the field (`dec`).  Returns the serializer and
the field. -/
def Serializer.syncAs {α : Type} (s : Serializer) (w : Nat) (enc : α → Nat) (dec : Nat → α)
    (x : α) (minVer maxVer : Nat) : Serializer × α :=
  if s.version < minVer ∨ maxVer < s.version then (s, x)
  else if s.saving then ({ s with bytes := s.bytes ++ leBytes w (enc x) }, x)
  else ({ s with bytes := s.bytes.drop w }, dec (leValue (s.bytes.take w)))

/-- Modelled from the spec: `Common::Serializer::skip(size, minVer, maxVer)`:
within the versions, a saving serializer writes `size` zero bytes and a loading
one passes over `size` bytes. -/
def Serializer.skip (s : Serializer) (size minVer maxVer : Nat) : Serializer :=
  if s.version < minVer ∨ maxVer < s.version then s
  else if s.saving then { s with bytes := s.bytes ++ List.replicate size 0 }
  else { s with bytes := s.bytes.drop size }

/-- Modelled from the spec: `Common::Serializer::syncBytes(buf, size, minVer)`. -/
def Serializer.syncBytes (s : Serializer) (buf : List Nat) (size minVer maxVer : Nat) :
    Serializer × List Nat :=
  if s.version < minVer ∨ maxVer < s.version then (s, buf)
  else if s.saving then
    ({ s with bytes := s.bytes ++ (List.range size).map (fun i => buf.getD i 0 % 256) }, buf)
  else ({ s with bytes := s.bytes.drop size }, (s.bytes.take size).map (fun b => b % 256))

/-- Modelled from the spec: `Common::Serializer::syncArray(arr, n, serializer)`:
the element serializer is run on the elements in order. -/
def Serializer.syncArray {α : Type} (f : Serializer → α → Serializer × α) (s : Serializer) :
    List α → Serializer × List α
  | [] => (s, [])
  | x :: xs => ((Serializer.syncArray f (f s x).1 xs).1,
      (f s x).2 :: (Serializer.syncArray f (f s x).1 xs).2)

/-- The conversion of a slot of a save older than version 116
(the branch `s.isLoading() && s.getVersion() < 116` of `syncWithSerializer`)
from the values read: `start`, `end` (`int16`), `tt`, `ct` (`uint32`).  The
products and quotients are taken in 32 bits with wrap-around. -/
def legacyFader (pf : ParameterFader) (start end_ : Int) (tt ct : Nat) : ParameterFader :=
  let diff : Int := end_ - start
  let pf :=
    if pf.param ≠ 0 ∧ diff ≠ 0 ∧ tt ≠ 0 then
      let tt1 := if tt < 10000 then 10000 else tt
      let ct1 := if tt < 10000 then toUint32 (10000 - diff) else ct
      { pf with dir := toInt8 (Int.tdiv diff (Int.natAbs diff)),
                incr := toInt16 (toUint32 diff / (tt1 / 10000) : Nat),
                ifrac := toUint16 (diff.natAbs % (tt1 / 10000) : Nat),
                state := toInt16 (toInt32 (start +
                  Int.tdiv (toInt32 (diff * toInt32 ct1)) (toInt32 tt1))) }
    else { pf with param := 0 }
  { pf with irem := 0, cntdwn := 0 }

/-- `syncWithSerializer(Common::Serializer &s, ParameterFader &pf)`. -/
def syncWithSerializer (s : Serializer) (pf : ParameterFader) : Serializer × ParameterFader :=
  let r := s.syncAs 2 toUint16 (fun v => toInt16 v) pf.param 17 kLastVersion
  let pf := { pf with param := r.2 }
  let s := r.1
  if !s.saving ∧ s.version < 116 then
    let r1 := s.syncAs 2 toUint16 (fun v => toInt16 v) (0 : Int) 17 kLastVersion
    let r2 := r1.1.syncAs 2 toUint16 (fun v => toInt16 v) (0 : Int) 17 kLastVersion
    let r3 := r2.1.syncAs 4 id id (0 : Nat) 17 kLastVersion
    let r4 := r3.1.syncAs 4 id id (0 : Nat) 17 kLastVersion
    (r4.1, legacyFader pf r1.2 r2.2 r3.2 r4.2)
  else
    let r1 := s.syncAs 1 toByte (fun v => toInt8 v) pf.dir 116 kLastVersion
    let r2 := r1.1.syncAs 2 toUint16 (fun v => toInt16 v) pf.incr 116 kLastVersion
    let r3 := r2.1.syncAs 2 id id pf.ifrac 116 kLastVersion
    let r4 := r3.1.syncAs 2 id id pf.irem 116 kLastVersion
    let r5 := r4.1.syncAs 2 id id pf.ttime 116 kLastVersion
    let r6 := r5.1.syncAs 2 id id pf.cntdwn 116 kLastVersion
    let r7 := r6.1.syncAs 2 toUint16 (fun v => toInt16 v) pf.state 116 kLastVersion
    (r7.1, { pf with dir := r1.2, incr := r2.2, ifrac := r3.2, irem := r4.2, ttime := r5.2,
                     cntdwn := r6.2, state := r7.2 })

/-- The number `num` that stands for the part list in a save: 0 for the empty
list, otherwise the index of the head in the pool plus one. -/
def Player.headNum (env : Env) (p : Player) : Nat :=
  match p._parts with
  | [] => 0
  | part :: _ => env.poolIndex part + 1

/-- The first statements of `Player::saveLoadWithSerializer`: a loading player
drops its parser, `_music_tick` is read off the parser, and the head of the
part list goes through the stream as its index in the pool plus one. -/
def Player.syncHead (env : Env) (s : Serializer) (p : Player) : Serializer × Player :=
  let p :=
    if !s.saving ∧ p._parserPtr ≠ none then
      { p with _parserPtr := none, _parserType := ParserType.kParserTypeNone }
    else p
  let tick := match p._parserPtr with
    | some ps => ps.tick % 4294967296
    | none => 0
  let p := { p with _music_tick := tick }
  let r := s.syncAs 2 id id (p.headNum env) 0 kLastVersion
  if s.saving then (r.1, p)
  else (r.1, { p with _parts := if r.2 ≠ 0 then env.partsFrom (r.2 - 1) else [] })

/-- The fields `_active` .. `_speed` of `Player::saveLoadWithSerializer`. -/
def Player.syncParams (s : Serializer) (p : Player) : Serializer × Player :=
  let r1 := s.syncAs 1 (fun b => if b then 1 else 0) (fun v => decide (v ≠ 0)) p._active 8
    kLastVersion
  let r2 := r1.1.syncAs 2 toUint16 (fun v => (v : Int)) p._id 8 kLastVersion
  let r3 := r2.1.syncAs 1 id id p._priority 8 kLastVersion
  let r4 := r3.1.syncAs 1 id id p._volume 8 kLastVersion
  let r5 := r4.1.syncAs 1 toByte (fun v => toInt8 v) p._pan 8 kLastVersion
  let r6 := r5.1.syncAs 1 toByte (fun v => toInt8 v) p._transpose 8 kLastVersion
  let r7 := r6.1.syncAs 1 toByte (fun v => toInt8 v) p._detune 8 115
  let r8 := r7.1.syncAs 2 toUint16 (fun v => toInt16 v) r7.2 116 kLastVersion
  let r9 := r8.1.syncAs 2 id id p._vol_chan 8 kLastVersion
  let r10 := r9.1.syncAs 1 id id p._vol_eff 8 kLastVersion
  let r11 := r10.1.syncAs 1 id id p._speed 8 kLastVersion
  (r11.1, { p with _active := r1.2, _id := r2.2, _priority := r3.2, _volume := r4.2,
                   _pan := r5.2, _transpose := r6.2, _detune := r8.2, _vol_chan := r9.2,
                   _vol_eff := r10.2, _speed := r11.2 })

/-- The fields `_track_index` .. `_music_tick` of `Player::saveLoadWithSerializer`,
with the skipped fields of old versions between them. -/
def Player.syncPosition (env : Env) (s : Serializer) (p : Player) : Serializer × Player :=
  let s := s.skip 2 8 19
  let r1 := s.syncAs 2 id (toLoopField env) p._track_index 8 kLastVersion
  let s := r1.1.skip 2 8 17
  let r2 := s.syncAs 2 id (toLoopField env) p._loop_to_beat 8 kLastVersion
  let r3 := r2.1.syncAs 2 id (toLoopField env) p._loop_from_beat 8 kLastVersion
  let r4 := r3.1.syncAs 2 id (toLoopField env) p._loop_counter 8 kLastVersion
  let r5 := r4.1.syncAs 2 id (toLoopField env) p._loop_to_tick 8 kLastVersion
  let r6 := r5.1.syncAs 2 id (toLoopField env) p._loop_from_tick 8 kLastVersion
  let s := r6.1.skip 4 8 19
  let s := s.skip 4 8 17
  let s := s.skip 4 8 17
  let s := s.skip 4 8 17
  let s := s.skip 2 8 17
  let s := s.skip 2 8 17
  let s := s.skip 2 8 17
  let r7 := s.syncAs 4 id id p._music_tick 19 kLastVersion
  (r7.1, { p with _track_index := r1.2, _loop_to_beat := r2.2, _loop_from_beat := r3.2,
                  _loop_counter := r4.2, _loop_to_tick := r5.2, _loop_from_tick := r6.2,
                  _music_tick := r7.2 })

/-- The hook values of `Player::saveLoadWithSerializer`: `_hook._jump[0]`,
`_hook._transpose` and the four arrays of 16 bytes. -/
def Player.syncHook (s : Serializer) (p : Player) : Serializer × Player :=
  let r1 := s.syncAs 1 id id p._hook._jump0 8 kLastVersion
  let r2 := r1.1.syncAs 1 id id p._hook._transpose 8 kLastVersion
  let r3 := r2.1.syncBytes p._hook._part_onoff 16 8 kLastVersion
  let r4 := r3.1.syncBytes p._hook._part_volume 16 8 kLastVersion
  let r5 := r4.1.syncBytes p._hook._part_program 16 8 kLastVersion
  let r6 := r5.1.syncBytes p._hook._part_transpose 16 8 kLastVersion
  (r6.1, { p with _hook := { p._hook with _jump0 := r1.2, _transpose := r2.2,
                                          _part_onoff := r3.2, _part_volume := r4.2,
                                          _part_program := r5.2, _part_transpose := r6.2 } })

/-- `Player::saveLoadWithSerializer(Common::Serializer &s)`: the serializer and the
player afterwards. -/
def Player.saveLoadWithSerializer (env : Env) (s : Serializer) (p : Player) :
    Serializer × Player :=
  let r1 := p.syncHead env s
  let r2 := r1.2.syncParams r1.1
  let r3 := r2.2.syncPosition env r2.1
  let r4 := r3.2.syncHook r3.1
  let r5 := Serializer.syncArray syncWithSerializer r4.1 r4.2._parameterFaders
  let p : Player := { r4.2 with _parameterFaders := r5.2 }
  if env.newSystem ∧ ¬ r5.1.saving ∧ r5.1.version < 117 ∧ p._speed = 128 then
    (r5.1, { p with _speed := 64 })
  else (r5.1, p)

/-! ## The note offset and the fade-out query -/

/-- `Player::setOffsetNote(int offset)`.  The width of `_note_offset` is declared
in the header; `send` adds it to a byte, so only its value modulo 256 reaches
the index of the note bitmap. -/
def Player.setOffsetNote (p : Player) (offset : Int) : Player :=
  { p with _note_offset := offset }

/-- Whether a value fits the C++ `int` (32 bits). -/
def fitsInt (x : Int) : Bool := decide (-2147483648 ≤ x ∧ x ≤ 2147483647)

/-- The expression `_volume + p.cntdwn * p.incr + ((p.irem + p.cntdwn * p.ifrac)
/ p.ttime) * p.dir` that `Player::isFadingOut` evaluates for a slot, its operands
promoted to `int`; `none` where the C++ is undefined: the division by a `ttime`
of 0, or an `int` overflow. -/
def Player.fadeProjection (p : Player) (f : ParameterFader) : Option Int :=
  let a := (f.cntdwn : Int) * f.incr
  let b := (f.cntdwn : Int) * f.ifrac
  let c := (f.irem : Int) + b
  if f.ttime = 0 ∨ ¬ (fitsInt a ∧ fitsInt b ∧ fitsInt c) then none
  else
    let e := Int.tdiv c f.ttime * f.dir
    let s := (p._volume : Int) + a
    if ¬ (fitsInt e ∧ fitsInt s ∧ fitsInt (s + e)) then none else some (s + e)

/-- The `for` loop of `Player::isFadingOut` from the slot at the head of the
list on; the projection is evaluated for volume slots only (`&&`). -/
def isFadingOutFrom (p : Player) : List ParameterFader → Option Bool
  | [] => some false
  | f :: fs =>
    if f.param = ParameterFader.pfVolume then
      match p.fadeProjection f with
      | none => none
      | some x => if x = 0 then some true else isFadingOutFrom p fs
    else isFadingOutFrom p fs

/-- `Player::isFadingOut()`; `none` where the projection is undefined. -/
def Player.isFadingOut (p : Player) : Option Bool := isFadingOutFrom p p._parameterFaders

/-! ## Usage bits of the screen strips

`gfxUsageBits` is an array of `uint32` words, here a list of naturals below
`2 ^ 32`; its size is the length of the list.  A strip and a bit number are
`int` in the source and never negative in the calls made here. -/

/-- Modelled from the spec: `USAGE_BIT_DIRTY` is a constant of `usage_bits.h`,
which is not among the sources. -/
def USAGE_BIT_DIRTY : Nat := 96

/-- Modelled from the spec: `USAGE_BIT_RESTORED` is a constant of
`usage_bits.h`, which is not among the sources. -/
def USAGE_BIT_RESTORED : Nat := 95

/-- `ScummEngine::setGfxUsageBit(int strip, int bit)`; `none` is a failed
`assert`.  `1 << 31` stands for the word `0x80000000` that the `|=` stores. -/
def ScummEngine.setGfxUsageBit (g : List Nat) (strip bit : Nat) : Option (List Nat) :=
  if strip < g.length / 3 ∧ 1 ≤ bit ∧ bit ≤ 96 then
    let bit := bit - 1
    some (g.set (3 * strip + bit / 32) (g.getD (3 * strip + bit / 32) 0 ||| 2 ^ (bit % 32)))
  else none

/-- `ScummEngine::clearGfxUsageBit(int strip, int bit)`; `none` is a failed
`assert`.  `~(1 << n)` is the 32-bit complement. -/
def ScummEngine.clearGfxUsageBit (g : List Nat) (strip bit : Nat) : Option (List Nat) :=
  if strip < g.length / 3 ∧ 1 ≤ bit ∧ bit ≤ 96 then
    let bit := bit - 1
    some (g.set (3 * strip + bit / 32)
      (g.getD (3 * strip + bit / 32) 0 &&& (0xFFFFFFFF ^^^ 2 ^ (bit % 32))))
  else none

/-- `ScummEngine::testGfxAnyUsageBits(int strip)`: the loop over the three
words of the strip with the masks `0xFFFFFFFF, 0xFFFFFFFF, 0x3FFFFFFF`; `none`
is the failed `assert`. -/
def ScummEngine.testGfxAnyUsageBits (g : List Nat) (strip : Nat) : Option Bool :=
  if strip < g.length / 3 then
    some (decide (g.getD (3 * strip) 0 &&& 0xFFFFFFFF ≠ 0) ||
      decide (g.getD (3 * strip + 1) 0 &&& 0xFFFFFFFF ≠ 0) ||
      decide (g.getD (3 * strip + 2) 0 &&& 0x3FFFFFFF ≠ 0))
  else none

/-- The body of the loop of `upgradeGfxUsageBits` for strip `i`; `none` is a
word outside the array or a failed `assert` of `setGfxUsageBit`. -/
def ScummEngine.upgradeStrip (g : List Nat) (i : Nat) : Option (List Nat) :=
  if i < g.length ∧ 3 * i < g.length then
    let dirty_bit := decide (g.getD i 0 &&& 0x80000000 ≠ 0)
    let restored_bit := decide (g.getD i 0 &&& 0x40000000 ≠ 0)
    let g1 := g.set (3 * i) (g.getD i 0 &&& 0x3FFFFFFF)
    match (if dirty_bit then ScummEngine.setGfxUsageBit g1 i USAGE_BIT_DIRTY else some g1) with
    | none => none
    | some g2 =>
      if restored_bit then ScummEngine.setGfxUsageBit g2 i USAGE_BIT_RESTORED else some g2
  else none

/-- The loop `for (i = ..; i >= 0; i--)` of `upgradeGfxUsageBits`, from strip
`i` down to strip 0. -/
def ScummEngine.upgradeFrom : Nat → List Nat → Option (List Nat)
  | 0, g => ScummEngine.upgradeStrip g 0
  | i + 1, g =>
    match ScummEngine.upgradeStrip g (i + 1) with
    | none => none
    | some g1 => ScummEngine.upgradeFrom i g1

/-- `ScummEngine::upgradeGfxUsageBits()`: the loop starts at strip 409. -/
def ScummEngine.upgradeGfxUsageBits (g : List Nat) : Option (List Nat) :=
  ScummEngine.upgradeFrom 409 g

/-! ## Vocabulary of the statements -/

/-- The player is active and owns a parser whose tick is a `uint32`. -/
def Player.playing (p : Player) : Bool :=
  p._active && (match p._parserPtr with
    | some ps => decide (ps.tick < 4294967296)
    | none => false)

/-- The position of the player's parser is at or past the loop-from boundary. -/
def Player.crossing (p : Player) : Bool :=
  match p._parserPtr with
  | some ps => p.pastLoopFrom ps.tick
  | none => false

/-- The number of the first `n` timer ticks from `p` on at which the position,
read after the fades of the tick, is at or past the loop-from boundary. -/
def crossings (env : Env) : Nat → Player → Nat
  | 0, _ => 0
  | n + 1, p =>
    (if (p.transitionParameters env).crossing then 1 else 0) + crossings env n (p.onTimer env)

/-- The loop window and the remaining counter. -/
def loopWindow (p : Player) : Nat × Nat × Nat × Nat × Nat :=
  (p._loop_counter, p._loop_to_beat, p._loop_to_tick, p._loop_from_beat, p._loop_from_tick)

/-- The loop window, the counter and the track index of a player. -/
def loopState (p : Player) : Nat × Nat × Nat × Nat × Nat × Nat :=
  (p._loop_counter, p._loop_to_beat, p._loop_to_tick, p._loop_from_beat, p._loop_from_tick,
    p._track_index)

/-! ## Vocabulary of the fader statements -/

/-- Whether processing the slot makes `transitionParameters` return: a volume
slot whose state moves and reaches 0. -/
def ParameterFader.stops (f : ParameterFader) : Bool :=
  decide (f.param ≠ 0 ∧ f.mod ≠ 0 ∧ f.advance.param = ParameterFader.pfVolume ∧
    f.advance.state = 0)

/-- The slot after one quantum that does not return from inside the loop. -/
def ParameterFader.next (f : ParameterFader) : ParameterFader :=
  if f.param = 0 then f
  else if f.mod = 0 then f.accumulate.countdown
  else if f.param = ParameterFader.pfVolume ∨ f.param = ParameterFader.pfTranspose ∨
      f.param = ParameterFader.pfSpeed then f.advance.countdown
  else ({ f.advance with param := 0 }).countdown

/-- The slot `k` quanta after `addParameterFader` wrote `f`, in closed form. -/
def ParameterFader.at (f : ParameterFader) (k : Nat) : ParameterFader :=
  { f with irem := (k * f.ifrac) % f.ttime,
           cntdwn := f.ttime - k,
           state := toInt16 (f.state + k * f.incr + f.dir * ((k * f.ifrac / f.ttime : Nat) : Int)),
           param := if k < f.ttime then f.param else 0 }

/-- The start value `addParameterFader` reads for a fadeable parameter. -/
def Player.faderStart (p : Player) (param : Int) : Int :=
  if param = ParameterFader.pfVolume then p._volume
  else if param = ParameterFader.pfTranspose then p._detune
  else p._speed

/-- No two slots hold the same non-zero parameter id. -/
def NoDupParams (fs : List ParameterFader) : Prop :=
  ∀ i j, i < fs.length → j < fs.length → i ≠ j →
    (fs.getD i ParameterFader.zero).param ≠ 0 →
    (fs.getD i ParameterFader.zero).param ≠ (fs.getD j ParameterFader.zero).param

/-- The ids a slot can hold: none, or one of the three fadeable parameters. -/
def FadeableOrFree (x : Int) : Prop :=
  x = 0 ∨ x = ParameterFader.pfVolume ∨ x = ParameterFader.pfTranspose ∨
    x = ParameterFader.pfSpeed

/-- The invariant of the fader slots: no parameter twice, and only fadeable ids. -/
def FadersOk (fs : List ParameterFader) : Prop :=
  NoDupParams fs ∧ ∀ i, FadeableOrFree (fs.getD i ParameterFader.zero).param

/-- The slots `gs` come from `fs` by keeping or freeing each slot's id. -/
def ParamsFade (fs gs : List ParameterFader) : Prop :=
  gs.length = fs.length ∧
    ∀ i, (gs.getD i ParameterFader.zero).param = (fs.getD i ParameterFader.zero).param ∨
      (gs.getD i ParameterFader.zero).param = 0

/-- The players reached from one whose fader slots are all free by calls of
`addParameterFader` (that return) and `transitionParameters`. -/
inductive FaderReach (env : Env) : Player → Prop where
  | free (p : Player) (h : ∀ f, f ∈ p._parameterFaders → f.param = 0) : FaderReach env p
  | add (p q : Player) (param target time r : Int) (hp : FaderReach env p)
      (h : p.addParameterFader env param target time = some (q, r)) : FaderReach env q
  | transition (p : Player) (hp : FaderReach env p) :
      FaderReach env (p.transitionParameters env)

/-! ## The part list as a doubly linked list

`Player::removePart` works on the pointers `_next` and `_prev` of the parts.
A part is named by its index in the engine's pool of parts and `none` is
`nullptr`. -/

/-- The fields of a `Part` that the part list of a player uses. -/
structure PartLinks where
  _next : Option Nat
  _prev : Option Nat
  _chan : Nat
deriving DecidableEq, Repr

/-- The parts of the pool and the head `Player::_parts` of one player's list. -/
structure PartStore where
  links : Nat → PartLinks
  _parts : Option Nat

/-- The first statement of `Player::removePart`:
`if (part->_next) part->_next->_prev = part->_prev;`. -/
def PartStore.unlinkNext (s : PartStore) (part : Nat) : PartStore :=
  match (s.links part)._next with
  | some n =>
    { s with links := Function.update s.links n { s.links n with _prev := (s.links part)._prev } }
  | none => s

/-- The second statement of `Player::removePart`:
`if (part->_prev) part->_prev->_next = part->_next; else _parts = part->_next;`. -/
def PartStore.unlinkPrev (s : PartStore) (part : Nat) : PartStore :=
  match (s.links part)._prev with
  | some m =>
    { s with links := Function.update s.links m { s.links m with _next := (s.links part)._next } }
  | none => { s with _parts := (s.links part)._next }

/-- The last statement of `Player::removePart`:
`part->_next = part->_prev = nullptr;`. -/
def PartStore.clearLinks (s : PartStore) (part : Nat) : PartStore :=
  { s with links := Function.update s.links part { s.links part with _next := none, _prev := none } }

/-- `Player::removePart(Part *part)`: the three statements in the source's
order, each reading the links that the statement before it left. -/
def PartStore.removePart (s : PartStore) (part : Nat) : PartStore :=
  ((s.unlinkNext part).unlinkPrev part).clearLinks part

/-- The loop of `Player::getActivePart(uint8 chan)` from the part `cur` on, with
at most `fuel` parts visited: `some r` is the returned pointer, `none` says the
fuel did not suffice. -/
def PartStore.walk (s : PartStore) (chan : Nat) : Nat → Option Nat → Option (Option Nat)
  | _, none => some none
  | 0, some _ => none
  | fuel + 1, some a =>
    if (s.links a)._chan = chan then some (some a) else s.walk chan fuel (s.links a)._next

/-- `Player::getActivePart(uint8 chan)` on the linked list. -/
def PartStore.getActivePart (s : PartStore) (chan fuel : Nat) : Option (Option Nat) :=
  s.walk chan fuel s._parts

/-- The parts `l`, in this order, form a well-formed doubly linked list that
starts at the pointer `cur`, whose first member has the `_prev` link `prev`
and whose last member has the `_next` link `nullptr`. -/
def IsPartList (s : PartStore) : Option Nat → Option Nat → List Nat → Prop
  | _, cur, [] => cur = none
  | prev, cur, a :: l =>
    cur = some a ∧ (s.links a)._prev = prev ∧ IsPartList s (some a) (s.links a)._next l

instance decIsPartList (s : PartStore) :
    (prev cur : Option Nat) → (l : List Nat) → Decidable (IsPartList s prev cur l)
  | _, cur, [] => inferInstanceAs (Decidable (cur = none))
  | prev, cur, a :: l =>
    have := decIsPartList s (some a) (s.links a)._next l
    inferInstanceAs (Decidable
      (cur = some a ∧ (s.links a)._prev = prev ∧ IsPartList s (some a) (s.links a)._next l))

/-! ## Vocabulary of the save and load statements -/

/-- The bytes `syncWithSerializer` writes for a fader slot from version 116 on. -/
def encFader (f : ParameterFader) : List Nat :=
  leBytes 2 (toUint16 f.param) ++ (leBytes 1 (toByte f.dir) ++ (leBytes 2 (toUint16 f.incr) ++
    (leBytes 2 f.ifrac ++ (leBytes 2 f.irem ++ (leBytes 2 f.ttime ++ (leBytes 2 f.cntdwn ++
      leBytes 2 (toUint16 f.state)))))))

/-- The bytes written for the fader slots. -/
def encFaders : List ParameterFader → List Nat
  | [] => []
  | f :: fs => encFader f ++ encFaders fs

/-- The bytes written for the fields `_active` .. `_speed` from version 116 on. -/
def encParams (p : Player) : List Nat :=
  leBytes 1 (if p._active then 1 else 0) ++ (leBytes 2 (toUint16 p._id) ++
    (leBytes 1 p._priority ++ (leBytes 1 p._volume ++ (leBytes 1 (toByte p._pan) ++
      (leBytes 1 (toByte p._transpose) ++ (leBytes 2 (toUint16 p._detune) ++
        (leBytes 2 p._vol_chan ++ (leBytes 1 p._vol_eff ++ leBytes 1 p._speed))))))))

/-- The bytes written for the fields `_track_index` .. `_music_tick` from version
20 on. -/
def encPosition (p : Player) : List Nat :=
  leBytes 2 p._track_index ++ (leBytes 2 p._loop_to_beat ++ (leBytes 2 p._loop_from_beat ++
    (leBytes 2 p._loop_counter ++ (leBytes 2 p._loop_to_tick ++ (leBytes 2 p._loop_from_tick ++
      leBytes 4 p._music_tick)))))

/-- The bytes written for the hook values; `_hook._jump[1]` is not among them. -/
def encHook (h : HookDatas) : List Nat :=
  leBytes 1 h._jump0 ++ (leBytes 1 h._transpose ++
    ((List.range 16).map (fun i => h._part_onoff.getD i 0 % 256) ++
      ((List.range 16).map (fun i => h._part_volume.getD i 0 % 256) ++
        ((List.range 16).map (fun i => h._part_program.getD i 0 % 256) ++
          (List.range 16).map (fun i => h._part_transpose.getD i 0 % 256)))))

/-- A fader slot whose fields fit the widths they are stored with. -/
def FaderFits (f : ParameterFader) : Prop :=
  (-32768 ≤ f.param ∧ f.param < 32768) ∧ (-128 ≤ f.dir ∧ f.dir < 128) ∧
  (-32768 ≤ f.incr ∧ f.incr < 32768) ∧ f.ifrac < 65536 ∧ f.irem < 65536 ∧
  f.ttime < 65536 ∧ f.cntdwn < 65536 ∧ (-32768 ≤ f.state ∧ f.state < 32768)

instance decFaderFits (f : ParameterFader) : Decidable (FaderFits f) := by
  unfold FaderFits
  infer_instance

/-- A 16-entry array of bytes. -/
def IsByteArray16 (l : List Nat) : Prop := l.length = 16 ∧ ∀ b, b ∈ l → b < 256

instance decIsByteArray16 (l : List Nat) : Decidable (IsByteArray16 l) := by
  unfold IsByteArray16
  infer_instance

/-- The persisted fields of the player hold values of the widths they are
stored with: a 16-bit id, bytes for priority, volume, effective volume and
speed, signed bytes for pan and transpose, a signed 16-bit detune, a 16-bit
volume channel, 16-bit track index and loop fields, byte hook values in arrays
of 16, and four fader slots that fit. -/
def Persistable (p : Player) : Prop :=
  (0 ≤ p._id ∧ p._id < 65536) ∧ p._priority < 256 ∧ p._volume < 256 ∧
  (-128 ≤ p._pan ∧ p._pan < 128) ∧ (-128 ≤ p._transpose ∧ p._transpose < 128) ∧
  (-32768 ≤ p._detune ∧ p._detune < 32768) ∧ p._vol_chan < 65536 ∧ p._vol_eff < 256 ∧
  p._speed < 256 ∧
  (p._track_index < 65536 ∧ p._loop_to_beat < 65536 ∧ p._loop_from_beat < 65536 ∧
    p._loop_counter < 65536 ∧ p._loop_to_tick < 65536 ∧ p._loop_from_tick < 65536) ∧
  (p._hook._jump0 < 256 ∧ p._hook._transpose < 256 ∧ IsByteArray16 p._hook._part_onoff ∧
    IsByteArray16 p._hook._part_volume ∧ IsByteArray16 p._hook._part_program ∧
    IsByteArray16 p._hook._part_transpose) ∧
  (p._parameterFaders.length = 4 ∧ ∀ f, f ∈ p._parameterFaders → FaderFits f)

instance decPersistable (p : Player) : Decidable (Persistable p) := by
  unfold Persistable
  infer_instance

/-- The tick `saveLoadWithSerializer` stores as `_music_tick`: the position of the
parser, or 0 without a parser. -/
def Player.savedTick (p : Player) : Nat :=
  match p._parserPtr with
  | some ps => ps.tick % 4294967296
  | none => 0

/-- The bytes of a player in a save of version 116 or later. -/
def Player.encode (env : Env) (p : Player) : List Nat :=
  leBytes 2 (p.headNum env) ++ (encParams p ++ (encPosition p ++ (encHook p._hook ++
    encFaders p._parameterFaders)))

/-- The outcome of loading, into a freshly constructed player, the bytes that
`saveLoadWithSerializer` wrote for `p` at version `ver`: the serializer and the
player after the load. -/
def roundTrip (env : Env) (ver : Nat) (p : Player) : Serializer × Player :=
  Player.saveLoadWithSerializer env
    { saving := false, version := ver,
      bytes := (p.saveLoadWithSerializer env { saving := true, version := ver, bytes := [] }).1.bytes }
    Player.new

/-! ## Vocabulary of the fade-out and usage-bit statements -/

/-- The player's volume after one slot of the loop of `transitionParameters`:
a volume slot whose state moved within 0..127 sets it, any other slot leaves it. -/
def volStep (v : Nat) (f : ParameterFader) : Nat :=
  if f.param = ParameterFader.pfVolume ∧ f.mod ≠ 0 ∧ 0 ≤ f.advance.state ∧ f.advance.state ≤ 127
  then toByte f.advance.state else v

/-- The slot of a volume fade from `v` over `T` quanta whose difference
`target - v` has the absolute value `n` and the sign `s`. -/
def ParameterFader.IsVolumeFade (f : ParameterFader) (v n T : Nat) (s : Int) : Prop :=
  f.param = ParameterFader.pfVolume ∧ f.state = v ∧ f.ttime = T ∧ f.cntdwn = T ∧ f.dir = s ∧
    f.incr = s * ((n / T : Nat) : Int) ∧ f.ifrac = n % T ∧ f.irem = 0

/-- Usage bit `bit` (1..96) of strip `strip` in the layout of three words per
strip: the bit that `setGfxUsageBit` sets and `clearGfxUsageBit` clears. -/
def usageBit (g : List Nat) (strip bit : Nat) : Bool :=
  (g.getD (3 * strip + (bit - 1) / 32) 0).testBit ((bit - 1) % 32)

/-- The word `w` after the two conditional calls of `setGfxUsageBit` in
`upgradeGfxUsageBits` for a strip whose legacy word is `old`. -/
def withLegacyFlags (w old : Nat) : Nat :=
  if old &&& 0x40000000 ≠ 0 then (if old &&& 0x80000000 ≠ 0 then w ||| 2 ^ 31 else w) ||| 2 ^ 30
  else (if old &&& 0x80000000 ≠ 0 then w ||| 2 ^ 31 else w)

/-! ## Vocabulary of the scanning statements -/

/-- The part of the example pool at index `i`: a silent part on channel `i`. -/
def examplePart0 (i : Nat) : Part :=
  { _chan := i, _on := false, _vol := 0, _pan := 0, _transpose := 0, _detune := 0, _pri := 0,
    _pedal := false }

/-- An environment in which every parser request succeeds and the parser lands
on the tick it is sent to; the parser advances three beats per timer call and
delivers no event; `bits` is the width of the loop fields. -/
def exampleEnv (bits : Nat) : Env :=
  { newSystem := false, tempoFactor := 100, baseTempo := 16667, loopFieldBits := bits,
    get_channel_volume := fun _ => 127,
    partVolume := fun _ part v => { part with _vol := v },
    partSetDetune := fun _ part d => { part with _detune := d },
    partSustain := fun _ part b => { part with _pedal := b },
    parserSetTrack := fun ps n => ({ ps with track := n }, true),
    parserJumpToTick := fun ps t _ => ({ ps with tick := t }, true),
    parserSetTimerRate := fun ps r => { ps with timerRate := r },
    parserUnloadMusic := fun ps => { ps with loaded := false },
    parserOnTimer := fun p =>
      { p with _parserPtr := p._parserPtr.map (fun ps => { ps with tick := ps.tick + 1440 }) },
    isTentacle := false, isNativeMT32 := false,
    transpose_clamp := fun a b c =>
      let a1 := if b > a then a + (b - a + 11) / 12 * 12 else a
      if c < a1 then a1 - (a1 - c + 11) / 12 * 12 else a1,
    allocate_part := fun pri _ =>
      some { _chan := 0, _on := false, _vol := 0, _pan := 0, _transpose := 0, _detune := 0,
             _pri := pri, _pedal := false },
    partSetup := fun _ part => { part with _on := true, _vol := 127, _pri := 0 },
    partSetOnOff := fun _ part b => { part with _on := b },
    partProgramChange := fun _ part _ => part,
    partSetTranspose := fun _ part t _ _ => { part with _transpose := t },
    hookQueryParam := fun h param chan =>
      if param = 18 then h._jump0 else if param = 19 then h._transpose
      else if param = 20 then h._part_onoff.getD chan 0
      else if param = 21 then h._part_volume.getD chan 0
      else if param = 22 then h._part_program.getD chan 0
      else if param = 23 then h._part_transpose.getD chan 0 else -1,
    findStartOfSound := fun sound => if sound = 7 ∨ sound = 8 then some [77, 84, 104, 100] else none,
    findMDhd := fun sound =>
      if sound = 7 then some [77, 68, 104, 100, 0, 0, 0, 8, 0, 0, 1, 50, 200, 251, 3, 200]
      else if sound = 8 then some [77, 68, 104, 100, 0, 0, 0, 8, 0, 0, 0, 0, 9, 9, 9, 0]
      else none,
    isMT32 := fun _ => true, isMIDI := fun _ => false, supportsPercussion := fun _ => false,
    createParser := fun _ => { tick := 0, track := 0, timerRate := 0, loaded := false },
    parserLoadMusic := fun ps _ => { ps with loaded := true, tick := 0 },
    partCall := fun c _ part =>
      match c with
      | PartCall.set_pan v => { part with _pan := v }
      | PartCall.set_pri v => { part with _pri := v }
      | PartCall.off => { part with _on := false }
      | _ => part,
    sysex := some (fun p _ _ => { p with _music_tick := p._music_tick + 1 }),
    soundTypeAmiga := false, dynamicChanAllocation := false,
    parserScanTo := fun p notes t =>
      (({ p with _parserPtr := p._parserPtr.map (fun ps => { ps with tick := t }) }, notes),
        decide (t < 100000)),
    partUninit := fun p => { p with _parts := p._parts.tail },
    poolIndex := fun part => part._chan,
    partsFrom := fun i => [examplePart0 i] }

/-- A playing player: volume 100, a loaded parser at tick 0, all fader slots free. -/
def examplePlayer : Player :=
  { Player.new with _active := true, _midi := true, _volume := 100,
                    _loop_to_beat := 1, _loop_from_beat := 1,
                    _parserPtr := some { tick := 0, track := 0, timerRate := 0, loaded := true } }

/-- A playing player with the loop `(3, 2, 0, 10, 0)` armed and its parser at beat 10. -/
def exampleLooping : Player :=
  { examplePlayer with _loop_counter := 3, _loop_to_beat := 2, _loop_from_beat := 10,
                       _parserPtr := some { tick := 4320, track := 0, timerRate := 0, loaded := true } }

/-- A playing player whose detune is -32768. -/
def exampleDetuned : Player := { examplePlayer with _detune := -32768 }

/-- The slot of a fade of the detune from -32768 to 32766 over 65535 quanta. -/
def exampleLongFade : ParameterFader := newFader ParameterFader.pfTranspose (-32768) 32766 65535

/-- The player `exampleDetuned` with that fade in its last slot. -/
def exampleDetunedFading : Player :=
  { exampleDetuned with
    _parameterFaders := [ParameterFader.zero, ParameterFader.zero, ParameterFader.zero,
      exampleLongFade] }

/-- A playing player whose volume is 1. -/
def exampleQuiet : Player := { examplePlayer with _volume := 1 }

/-- A playing player with the jump hook 5 armed and 7 queued behind it, and
the transpose hook 200 armed. -/
def exampleHooked : Player :=
  { examplePlayer with _hook := { HookDatas.reset with _jump0 := 5, _jump1 := 7, _transpose := 200 } }

/-- A playing player with one-shot hooks armed: jump 5, transpose 9, and 9 on
channel 3 of each per-channel hook. -/
def exampleArmed : Player :=
  { examplePlayer with
    _hook := { _jump0 := 5, _jump1 := 0, _transpose := 9,
               _part_onoff := (List.replicate 16 0).set 3 9,
               _part_volume := (List.replicate 16 0).set 3 9,
               _part_program := (List.replicate 16 0).set 3 9,
               _part_transpose := (List.replicate 16 0).set 3 9 } }

/-- The example environment for the game DOTT (`GID_TENTACLE`): the transpose
limit of the parts is 12. -/
def exampleDottEnv : Env := { exampleEnv 16 with isTentacle := true }

/-- A part as `Part::setup` leaves it, on channel `chan`. -/
def examplePart (chan : Nat) : Part :=
  { _chan := chan, _on := true, _vol := 127, _pan := 0, _transpose := 0, _detune := 0,
    _pri := 0, _pedal := false }

/-- A playing player that owns parts on the channels 4 and 2, in this order. -/
def exampleWithParts : Player := { examplePlayer with _parts := [examplePart 4, examplePart 2] }

/-- A player's list of the three parts 0, 1 and 2 of the pool, on the channels
4, 2 and 9. -/
def exampleStore : PartStore :=
  { links := fun i =>
      if i = 0 then { _next := some 1, _prev := none, _chan := 4 }
      else if i = 1 then { _next := some 2, _prev := some 0, _chan := 2 }
      else if i = 2 then { _next := none, _prev := some 1, _chan := 9 }
      else { _next := none, _prev := none, _chan := 0 },
    _parts := some 0 }

/-- The player `exampleWithParts` in scanning mode. -/
def exampleScanning : Player := { exampleWithParts with _scanning := true }

/-- A scanning player whose note offset is 1. -/
def exampleOffset : Player := { examplePlayer with _scanning := true, _note_offset := 1 }

/-- An MT-32 sequence that is playing. -/
def exampleMT32 : Player := { examplePlayer with _isMT32 := true }

/-- The delivery of one channel event to the player while the parser seeks; an
event that `send` cannot take (a note outside the bitmap) is passed over. -/
def deliver (env : Env) (st : Player × List Nat) (b : Nat) : Player × List Nat :=
  match st.1.send env st.2 b with
  | some r => (r.player, r.notes)
  | none => st

/-- The example environment on the new parameter scale. -/
def exampleNewEnv : Env := { exampleEnv 16 with newSystem := true }

/-- A playing player with all three fadeable parameters in flight: the volume in
slot 3, the detune in slot 2 and the speed in slot 1. -/
def exampleThreeFades : Player :=
  ((examplePlayer.setFader 3 (newFader ParameterFader.pfVolume 100 0 50)).setFader 2
    (newFader ParameterFader.pfTranspose 0 100 50)).setFader 1
    (newFader ParameterFader.pfSpeed 128 64 50)

/-- A legacy array: strip 1 is used by actor 1 (bit 0 of its word), every other
word is 0; 1230 words in all. -/
def exampleLegacy : List Nat := 0 :: 1 :: List.replicate 1228 0

theorem toLoopField_of_lt (env : Env) (x : Nat) (h : x < 2 ^ env.loopFieldBits) :
    toLoopField env x = x := by
  unfold toLoopField
  exact Nat.mod_eq_of_lt h

theorem lt_two_pow_of_lt_65536 (w x : Nat) (hw : 16 ≤ w) (h : x < 65536) : x < 2 ^ w := by
  have : (2 : Nat) ^ 16 ≤ 2 ^ w := Nat.pow_le_pow_right (by norm_num) hw
  omega

/-- The accepted case of `setLoop` for values that fit the loop fields. -/
theorem setLoop_accepts_of_fits (env : Env) (p : Player)
    (count tobeat totick frombeat fromtick : Nat)
    (hc : count < 2 ^ env.loopFieldBits) (htb : tobeat < 2 ^ env.loopFieldBits)
    (htt : totick < 2 ^ env.loopFieldBits) (hfb : frombeat < 2 ^ env.loopFieldBits)
    (hft : fromtick < 2 ^ env.loopFieldBits) (h1 : 1 < 2 ^ env.loopFieldBits)
    (h32 : frombeat < 4294967296) (h : tobeat + 1 < frombeat) :
    p.setLoop env count tobeat totick frombeat fromtick =
      ({ p with _loop_counter := count,
                _loop_to_beat := if tobeat = 0 then 1 else tobeat,
                _loop_to_tick := totick,
                _loop_from_beat := frombeat,
                _loop_from_tick := fromtick }, true) := by
  have hm : (tobeat + 1) % 4294967296 = tobeat + 1 := Nat.mod_eq_of_lt (by omega)
  have hb : (if tobeat = 0 then 1 else tobeat) < 2 ^ env.loopFieldBits := by
    split <;> assumption
  unfold Player.setLoop
  rw [hm, if_neg (by omega)]
  simp only [toLoopField_of_lt env _ hc, toLoopField_of_lt env _ hb, toLoopField_of_lt env _ htt,
    toLoopField_of_lt env _ hfb, toLoopField_of_lt env _ hft]

/-- C1: for unsigned arguments that fit 16 bits with `toBeat + 1 < fromBeat`,
`setLoop` returns true, stores `count`, the to-beat (1 when `toBeat` is 0),
the to-tick, the from-beat and the from-tick, and changes no other field of
the player.  The loop fields are at least 16 bits wide. -/
theorem setLoop_accepts (env : Env) (p : Player) (count tobeat totick frombeat fromtick : Nat)
    (hw : 16 ≤ env.loopFieldBits)
    (hc : count < 65536) (htb : tobeat < 65536) (htt : totick < 65536)
    (hfb : frombeat < 65536) (hft : fromtick < 65536) (h : tobeat + 1 < frombeat) :
    p.setLoop env count tobeat totick frombeat fromtick =
      ({ p with _loop_counter := count,
                _loop_to_beat := if tobeat = 0 then 1 else tobeat,
                _loop_to_tick := totick,
                _loop_from_beat := frombeat,
                _loop_from_tick := fromtick }, true) :=
  setLoop_accepts_of_fits env p count tobeat totick frombeat fromtick
    (lt_two_pow_of_lt_65536 _ _ hw hc) (lt_two_pow_of_lt_65536 _ _ hw htb)
    (lt_two_pow_of_lt_65536 _ _ hw htt) (lt_two_pow_of_lt_65536 _ _ hw hfb)
    (lt_two_pow_of_lt_65536 _ _ hw hft) (lt_two_pow_of_lt_65536 _ _ hw (by norm_num))
    (by omega) h

theorem setLoop_accepts_witness :
    (16 ≤ (exampleEnv 16).loopFieldBits ∧ (0 : Nat) + 1 < 10) ∧
    examplePlayer.setLoop (exampleEnv 16) 3 0 7 10 5 =
      ({ examplePlayer with _loop_counter := 3, _loop_to_beat := 1, _loop_to_tick := 7,
                            _loop_from_beat := 10, _loop_from_tick := 5 }, true) :=
  ⟨⟨by decide, by decide⟩,
   setLoop_accepts (exampleEnv 16) examplePlayer 3 0 7 10 5 (by decide) (by decide) (by decide)
     (by decide) (by decide) (by decide) (by decide)⟩

/-- C2: `setLoop` compares the unsigned 32-bit sum `toBeat + 1` with `fromBeat`.
For a 32-bit `toBeat` with `toBeat + 1 >= fromBeat` it returns false and leaves
the player unchanged in every field, except where `toBeat` is `0xFFFFFFFF` and
`fromBeat` is not 0: there the sum wraps to 0 and `setLoop` returns true with
the loop counter and the loop window of the player rewritten. -/
theorem setLoop_rejects (env : Env) (p : Player) (count tobeat totick frombeat fromtick : Nat)
    (ht : tobeat < 4294967296) (h : tobeat + 1 ≥ frombeat) :
    ((tobeat < 4294967295 ∨ frombeat = 0) →
      p.setLoop env count tobeat totick frombeat fromtick = (p, false)) ∧
    ((tobeat = 4294967295 ∧ 0 < frombeat) →
      p.setLoop env count tobeat totick frombeat fromtick =
        ({ p with _loop_counter := toLoopField env count,
                  _loop_to_beat := toLoopField env tobeat,
                  _loop_to_tick := toLoopField env totick,
                  _loop_from_beat := toLoopField env frombeat,
                  _loop_from_tick := toLoopField env fromtick }, true)) := by
  constructor
  · intro hc
    unfold Player.setLoop
    rw [if_pos (by omega)]
  · intro hc
    obtain ⟨hc1, hc2⟩ := hc
    have h0 : ¬ tobeat = 0 := by omega
    unfold Player.setLoop
    rw [if_neg (by omega)]
    simp only [if_neg h0]

theorem setLoop_rejects_witness :
    ((9 : Nat) < 4294967296 ∧ 9 + 1 ≥ 10 ∧ 4294967295 + 1 ≥ 10) ∧
    ({ examplePlayer with _loop_counter := 2, _loop_to_beat := 3, _loop_from_beat := 8 }).setLoop
        (exampleEnv 16) 5 9 0 10 0 =
      ({ examplePlayer with _loop_counter := 2, _loop_to_beat := 3, _loop_from_beat := 8 }, false) ∧
    (({ examplePlayer with _loop_counter := 2, _loop_to_beat := 3, _loop_from_beat := 8 }).setLoop
        (exampleEnv 16) 5 4294967295 0 10 0).2 = true ∧
    (({ examplePlayer with _loop_counter := 2, _loop_to_beat := 3, _loop_from_beat := 8 }).setLoop
        (exampleEnv 16) 5 4294967295 0 10 0).1._loop_counter = 5 :=
  ⟨⟨by decide, by decide, by decide⟩,
    (setLoop_rejects (exampleEnv 16) _ 5 9 0 10 0 (by decide) (by decide)).1 (Or.inl (by decide)),
    congrArg Prod.snd ((setLoop_rejects (exampleEnv 16)
      { examplePlayer with _loop_counter := 2, _loop_to_beat := 3, _loop_from_beat := 8 }
      5 4294967295 0 10 0 (by decide) (by decide)).2 ⟨rfl, by decide⟩),
    (congrArg (fun r => r.1._loop_counter) ((setLoop_rejects (exampleEnv 16)
      { examplePlayer with _loop_counter := 2, _loop_to_beat := 3, _loop_from_beat := 8 }
      5 4294967295 0 10 0 (by decide) (by decide)).2 ⟨rfl, by decide⟩)).trans (by decide)⟩

/-- C3: at `toBeat = 0xFFFFFFFF`, `fromBeat = 5` the sum `toBeat + 1` wraps to 0,
`setLoop` returns true, and the stored to-beat is not below the stored
from-beat, for 16-bit and for 32-bit loop fields alike. -/
theorem setLoop_guard_wraps (env : Env) (p : Player)
    (hw : env.loopFieldBits = 16 ∨ env.loopFieldBits = 32) :
    (p.setLoop env 1 4294967295 0 5 0).2 = true ∧
    (p.setLoop env 1 4294967295 0 5 0).1._loop_from_beat <
      (p.setLoop env 1 4294967295 0 5 0).1._loop_to_beat := by
  unfold Player.setLoop toLoopField
  rcases hw with hw | hw <;> simp [hw]

theorem setLoop_guard_wraps_witness :
    ((exampleEnv 32).loopFieldBits = 16 ∨ (exampleEnv 32).loopFieldBits = 32) ∧
    (examplePlayer.setLoop (exampleEnv 32) 1 4294967295 0 5 0).2 = true ∧
    (examplePlayer.setLoop (exampleEnv 32) 1 4294967295 0 5 0).1._loop_from_beat <
      (examplePlayer.setLoop (exampleEnv 32) 1 4294967295 0 5 0).1._loop_to_beat :=
  ⟨Or.inr rfl, setLoop_guard_wraps (exampleEnv 32) examplePlayer (Or.inr rfl)⟩

/-! ## Frame of the fades on the loop state -/

@[simp] theorem loopState_setVolume (env : Env) (p : Player) (vol : Nat) :
    loopState (p.setVolume env vol).1 = loopState p := by
  unfold Player.setVolume
  split <;> rfl

@[simp] theorem loopState_setDetune (env : Env) (p : Player) (d : Int) :
    loopState (p.setDetune env d) = loopState p := rfl

@[simp] theorem loopState_setSpeed (env : Env) (p : Player) (s : Nat) :
    loopState (p.setSpeed env s) = loopState p := by
  unfold Player.setSpeed
  dsimp only
  split
  · rfl
  · split <;> rfl

@[simp] theorem loopState_clear (env : Env) (p : Player) :
    loopState (p.clear env) = loopState p := by
  unfold Player.clear
  split <;> rfl

theorem loopState_stepFader (env : Env) (p : Player) (f : ParameterFader) :
    loopState (stepFader env p f).1 = loopState p := by
  unfold stepFader
  dsimp only
  split_ifs <;> simp

theorem stepFaders_cons (env : Env) (p : Player) (f : ParameterFader) (fs : List ParameterFader) :
    stepFaders env p (f :: fs) =
      if (stepFader env p f).2.2 then ((stepFader env p f).1, (stepFader env p f).2.1 :: fs, true)
      else ((stepFaders env (stepFader env p f).1 fs).1,
            (stepFader env p f).2.1 :: (stepFaders env (stepFader env p f).1 fs).2.1,
            (stepFaders env (stepFader env p f).1 fs).2.2) := rfl

theorem transitionLoop_succ (env : Env) (fuel : Nat) (p : Player) :
    transitionLoop env (fuel + 1) p =
      if p._transitionTimer ≥ 16667 then
        if (fadeQuantum env { p with _transitionTimer := p._transitionTimer - 16667 }).2 then
          (fadeQuantum env { p with _transitionTimer := p._transitionTimer - 16667 }).1
        else transitionLoop env fuel
          (fadeQuantum env { p with _transitionTimer := p._transitionTimer - 16667 }).1
      else p := rfl

theorem loopState_stepFaders (env : Env) (fs : List ParameterFader) (p : Player) :
    loopState (stepFaders env p fs).1 = loopState p := by
  induction fs generalizing p with
  | nil => rfl
  | cons f fs ih =>
    rw [stepFaders_cons]
    split_ifs
    · exact loopState_stepFader env p f
    · rw [ih, loopState_stepFader]

theorem loopState_fadeQuantum (env : Env) (p : Player) :
    loopState (fadeQuantum env p).1 = loopState p := by
  unfold fadeQuantum
  exact loopState_stepFaders env p._parameterFaders p

theorem loopState_transitionLoop (env : Env) (fuel : Nat) (p : Player) :
    loopState (transitionLoop env fuel p) = loopState p := by
  induction fuel generalizing p with
  | zero => rfl
  | succ n ih =>
    rw [transitionLoop_succ]
    split_ifs
    · rw [loopState_fadeQuantum]; simp only [loopState]
    · rw [ih, loopState_fadeQuantum]; simp only [loopState]
    · rfl

theorem loopState_transitionParameters (env : Env) (p : Player) :
    loopState (p.transitionParameters env) = loopState p := by
  unfold Player.transitionParameters
  rw [loopState_transitionLoop]; rfl

/-! ## Timer tick and loop -/

theorem beatTickToTick_eq (beat tick : Nat) (hb : 1 ≤ beat) (hb32 : beat < 4294967296)
    (h : (beat - 1) * TICKS_PER_BEAT + tick < 4294967296) :
    beatTickToTick beat tick = (beat - 1) * TICKS_PER_BEAT + tick := by
  unfold beatTickToTick
  have h1 : (beat + 4294967295) % 4294967296 = beat - 1 := by omega
  rw [h1, Nat.mod_eq_of_lt h]

theorem pastLoopFrom_iff (p : Player) (tick : Nat) (hT : tick < 4294967296) :
    p.pastLoopFrom tick = true ↔
      (tick / TICKS_PER_BEAT + 1 > p._loop_from_beat ∨
        (tick / TICKS_PER_BEAT + 1 = p._loop_from_beat ∧
          tick % TICKS_PER_BEAT ≥ p._loop_from_tick)) := by
  unfold Player.pastLoopFrom
  have h1 : tick % 4294967296 = tick := Nat.mod_eq_of_lt hT
  have h2 : (tick / TICKS_PER_BEAT + 1) % 4294967296 = tick / TICKS_PER_BEAT + 1 := by
    apply Nat.mod_eq_of_lt
    unfold TICKS_PER_BEAT
    omega
  simp only [h1, h2, decide_eq_true_eq]

theorem pastLoopFrom_congr (p q : Player) (tick : Nat)
    (hb : q._loop_from_beat = p._loop_from_beat) (ht : q._loop_from_tick = p._loop_from_tick) :
    q.pastLoopFrom tick = p.pastLoopFrom tick := by
  unfold Player.pastLoopFrom
  rw [hb, ht]

theorem jump_loopWindow (env : Env) (p : Player) (track beat tick : Nat) :
    loopWindow (p.jump env track beat tick).1 = loopWindow p := by
  unfold Player.jump
  split
  · rfl
  · dsimp only
    split_ifs <;> rfl

theorem jump_parserPtr (env : Env) (p : Player) (ps : Parser) (track beat tick : Nat)
    (h : p._parserPtr = some ps) :
    (p.jump env track beat tick).1._parserPtr =
      some (env.parserJumpToTick (env.parserSetTrack ps track).1
        (beatTickToTick beat tick) false).1 := by
  unfold Player.jump
  rw [h]
  dsimp only
  split_ifs <;> rfl

/-- The tick of `onTimer` when the loop test succeeds. -/
theorem onTimer_of_due (env : Env) (p : Player) (ps : Parser)
    (hact : (p.transitionParameters env)._active = true)
    (hps : (p.transitionParameters env)._parserPtr = some ps)
    (hc : (p.transitionParameters env)._loop_counter ≠ 0)
    (hd : (p.transitionParameters env).pastLoopFrom ps.tick = true) :
    p.onTimer env = env.parserOnTimer (Player.jump env
        { p.transitionParameters env with
          _loop_counter := (p.transitionParameters env)._loop_counter - 1 }
        (p.transitionParameters env)._track_index (p.transitionParameters env)._loop_to_beat
        (p.transitionParameters env)._loop_to_tick).1 := by
  unfold Player.onTimer
  simp only [hact, hps, hd, hc, Bool.not_true, Bool.false_eq_true, if_false, if_true, ne_eq,
    not_false_eq_true, and_self]

/-- The tick of `onTimer` when the loop test fails. -/
theorem onTimer_of_not_due (env : Env) (p : Player) (ps : Parser)
    (hact : (p.transitionParameters env)._active = true)
    (hps : (p.transitionParameters env)._parserPtr = some ps)
    (hd : ¬ ((p.transitionParameters env)._loop_counter ≠ 0 ∧
      (p.transitionParameters env).pastLoopFrom ps.tick = true)) :
    p.onTimer env = env.parserOnTimer (p.transitionParameters env) := by
  unfold Player.onTimer
  simp only [hact, hps, hd, Bool.not_true, Bool.false_eq_true, if_false]

/-- C4: let `q` be the player after the fades of this tick, still active and
with its parser at tick `T`, `beat = T / TICKS_PER_BEAT + 1` and
`tickIdx = T % TICKS_PER_BEAT`.  If the loop counter is non-zero and the
position is at or past the loop-from boundary, the state `onTimer` hands to
the parser's own timer has the counter decremented by exactly one and the
parser sent to the current track and to the tick
`(loopToBeat - 1) * TICKS_PER_BEAT + loopToTick` (in `uint` arithmetic, which
is the plain value when the to-beat is at least 1 and nothing overflows);
otherwise that state is `q` itself: no seek, same counter. -/
theorem onTimer_loop (env : Env) (p : Player) (ps : Parser)
    (hact : (p.transitionParameters env)._active = true)
    (hps : (p.transitionParameters env)._parserPtr = some ps)
    (hT : ps.tick < 4294967296) :
    ((p._loop_counter ≠ 0 ∧ (ps.tick / TICKS_PER_BEAT + 1 > p._loop_from_beat ∨
        (ps.tick / TICKS_PER_BEAT + 1 = p._loop_from_beat ∧
          ps.tick % TICKS_PER_BEAT ≥ p._loop_from_tick))) →
      ∃ r : Player, p.onTimer env = env.parserOnTimer r ∧
        r._loop_counter + 1 = p._loop_counter ∧
        r._parserPtr = some (env.parserJumpToTick (env.parserSetTrack ps p._track_index).1
          (beatTickToTick p._loop_to_beat p._loop_to_tick) false).1 ∧
        (1 ≤ p._loop_to_beat → p._loop_to_beat < 4294967296 →
          (p._loop_to_beat - 1) * TICKS_PER_BEAT + p._loop_to_tick < 4294967296 →
          beatTickToTick p._loop_to_beat p._loop_to_tick =
            (p._loop_to_beat - 1) * TICKS_PER_BEAT + p._loop_to_tick)) ∧
    (¬ (p._loop_counter ≠ 0 ∧ (ps.tick / TICKS_PER_BEAT + 1 > p._loop_from_beat ∨
        (ps.tick / TICKS_PER_BEAT + 1 = p._loop_from_beat ∧
          ps.tick % TICKS_PER_BEAT ≥ p._loop_from_tick))) →
      p.onTimer env = env.parserOnTimer (p.transitionParameters env) ∧
        (p.transitionParameters env)._loop_counter = p._loop_counter ∧
        (p.transitionParameters env)._parserPtr = some ps) := by
  have hls := loopState_transitionParameters env p
  simp only [loopState, Prod.mk.injEq] at hls
  obtain ⟨hc, htb, htt, hfb, hft, htr⟩ := hls
  have hdue := pastLoopFrom_iff (p.transitionParameters env) ps.tick hT
  rw [hfb, hft] at hdue
  constructor
  · intro h
    refine ⟨_, onTimer_of_due env p ps hact hps (by rw [hc]; exact h.1) (hdue.mpr h.2),
      ?_, ?_, ?_⟩
    · have hw := jump_loopWindow env
        { p.transitionParameters env with
          _loop_counter := (p.transitionParameters env)._loop_counter - 1 }
        (p.transitionParameters env)._track_index (p.transitionParameters env)._loop_to_beat
        (p.transitionParameters env)._loop_to_tick
      simp only [loopWindow, Prod.mk.injEq] at hw
      rw [hw.1, hc]
      have := h.1
      omega
    · rw [jump_parserPtr env _ ps _ _ _ (by exact hps), htr, htb, htt]
    · exact beatTickToTick_eq _ _
  · intro h
    refine ⟨onTimer_of_not_due env p ps hact hps ?_, hc, hps⟩
    rw [hc]
    exact fun hd => h ⟨hd.1, hdue.mp hd.2⟩

theorem onTimer_loop_witness :
    ((exampleLooping.transitionParameters (exampleEnv 16))._active = true ∧
      (exampleLooping.transitionParameters (exampleEnv 16))._parserPtr =
        some { tick := 4320, track := 0, timerRate := 0, loaded := true } ∧
      (4320 : Nat) / TICKS_PER_BEAT + 1 = 10) ∧
    ∃ r : Player, exampleLooping.onTimer (exampleEnv 16) = (exampleEnv 16).parserOnTimer r ∧
      r._loop_counter + 1 = 3 ∧
      r._parserPtr = some { tick := 480, track := 0, timerRate := 0, loaded := true } := by
  refine ⟨⟨by decide, by decide, by decide⟩, ?_⟩
  obtain ⟨r, h1, h2, h3, -⟩ :=
    (onTimer_loop (exampleEnv 16) exampleLooping
      { tick := 4320, track := 0, timerRate := 0, loaded := true }
      (by decide) (by decide) (by decide)).1 (by decide)
  exact ⟨r, h1, h2, h3⟩

theorem playing_iff (p : Player) :
    p.playing = true ↔
      p._active = true ∧ ∃ ps, p._parserPtr = some ps ∧ ps.tick < 4294967296 := by
  unfold Player.playing
  cases h : p._parserPtr with
  | none => simp
  | some ps => simp

theorem crossing_of_parserPtr (p : Player) (ps : Parser) (h : p._parserPtr = some ps) :
    p.crossing = p.pastLoopFrom ps.tick := by
  unfold Player.crossing
  rw [h]

theorem loopWindow_transitionParameters (env : Env) (p : Player) :
    loopWindow (p.transitionParameters env) = loopWindow p := by
  have h := loopState_transitionParameters env p
  simp only [loopState, Prod.mk.injEq] at h
  simp only [loopWindow, h]

/-- The loop window after one timer tick of a playing player whose events do
not touch the loop: only the counter moves, by one, when the tick crosses the
boundary with a non-zero counter. -/
theorem onTimer_loopWindow (env : Env) (p : Player)
    (hev : ∀ q, loopWindow (env.parserOnTimer q) = loopWindow q)
    (hplay : (p.transitionParameters env).playing = true) :
    loopWindow (p.onTimer env) =
      (p._loop_counter -
          (if (p.transitionParameters env).crossing = true ∧ p._loop_counter ≠ 0 then 1 else 0),
        p._loop_to_beat, p._loop_to_tick, p._loop_from_beat, p._loop_from_tick) := by
  obtain ⟨hact, ps, hps, -⟩ := (playing_iff _).mp hplay
  have hw := loopWindow_transitionParameters env p
  have hw2 := hw
  simp only [loopWindow, Prod.mk.injEq] at hw2
  obtain ⟨hc, htb, htt, hfb, hft⟩ := hw2
  rw [crossing_of_parserPtr _ ps hps]
  by_cases hd : (p.transitionParameters env)._loop_counter ≠ 0 ∧
      (p.transitionParameters env).pastLoopFrom ps.tick = true
  · rw [onTimer_of_due env p ps hact hps hd.1 hd.2, hev, jump_loopWindow]
    rw [hc] at hd
    rw [if_pos ⟨hd.2, hd.1⟩]
    simp only [loopWindow, hc, htb, htt, hfb, hft]
  · rw [onTimer_of_not_due env p ps hact hps hd, hev, hw]
    rw [hc] at hd
    rw [if_neg (fun h => hd ⟨h.2, h.1⟩)]
    simp only [loopWindow, Nat.sub_zero]

theorem runTimer_loopWindow (env : Env)
    (hev : ∀ q, loopWindow (env.parserOnTimer q) = loopWindow q) (m : Nat) :
    ∀ p : Player,
      (∀ i, i < m → ((runTimer env i p).transitionParameters env).playing = true) →
      loopWindow (runTimer env m p) =
        (p._loop_counter - min p._loop_counter (crossings env m p),
          p._loop_to_beat, p._loop_to_tick, p._loop_from_beat, p._loop_from_tick) := by
  induction m with
  | zero =>
    intro p _
    simp only [runTimer, crossings, loopWindow, Nat.min_zero, Nat.sub_zero]
  | succ m ih =>
    intro p hplay
    have h0 := onTimer_loopWindow env p hev (hplay 0 (Nat.succ_pos m))
    have hrest : ∀ i, i < m →
        ((runTimer env i (p.onTimer env)).transitionParameters env).playing = true :=
      fun i hi => hplay (i + 1) (Nat.succ_lt_succ hi)
    have h1 := ih (p.onTimer env) hrest
    simp only [loopWindow, Prod.mk.injEq] at h0
    obtain ⟨hc, htb, htt, hfb, hft⟩ := h0
    simp only [runTimer, crossings]
    rw [h1, hc, htb, htt, hfb, hft]
    simp only [Prod.mk.injEq, and_true]
    split_ifs with h2 h3 h4
    · have := h2.2
      omega
    · exact absurd h2.1 h3
    · have : p._loop_counter = 0 := by
        by_contra hne
        exact h2 ⟨h4, hne⟩
      omega
    · omega


/-- C5: after `setLoop(n, toBeat, toTick, fromBeat, fromTick)` is accepted (the
values fit the loop fields), over `m` timer ticks of a player that keeps
playing, with a parser that honours every seek and events that leave the loop
alone: before tick `i` the counter is `n` less the number `c` of earlier ticks
at or past `(fromBeat, fromTick)`, at most `n`; a tick at or past the boundary
jumps to `(toBeat, toTick)` when `c < n` (the parser lands on that tick and the
counter drops by one) and does not jump when `c ≥ n` (the counter is 0); a tick
before the boundary does not jump. -/
theorem loop_repeats (env : Env) (p : Player) (n tb tt fb ft m : Nat)
    (hn : n < 2 ^ env.loopFieldBits) (htb : tb < 2 ^ env.loopFieldBits)
    (htt : tt < 2 ^ env.loopFieldBits) (hfb : fb < 2 ^ env.loopFieldBits)
    (hft : ft < 2 ^ env.loopFieldBits) (h1 : 1 < 2 ^ env.loopFieldBits)
    (hfb32 : fb < 4294967296) (hwin : tb + 1 < fb)
    (hseek : ∀ ps t, (env.parserJumpToTick ps t false).2 = true ∧
      (env.parserJumpToTick ps t false).1.tick = t)
    (hev : ∀ q, loopWindow (env.parserOnTimer q) = loopWindow q)
    (hplay : ∀ i, i < m →
      ((runTimer env i (p.setLoop env n tb tt fb ft).1).transitionParameters env).playing
        = true) :
    (p.setLoop env n tb tt fb ft).2 = true ∧
    ∀ i, i < m →
      loopWindow ((runTimer env i (p.setLoop env n tb tt fb ft).1).transitionParameters env) =
        (n - min n (crossings env i (p.setLoop env n tb tt fb ft).1),
          (if tb = 0 then 1 else tb), tt, fb, ft) ∧
      (((runTimer env i (p.setLoop env n tb tt fb ft).1).transitionParameters env).crossing
          = true →
        crossings env i (p.setLoop env n tb tt fb ft).1 < n →
        ∃ r ps, (runTimer env i (p.setLoop env n tb tt fb ft).1).onTimer env
            = env.parserOnTimer r ∧
          r._parserPtr = some ps ∧
          ps.tick = beatTickToTick (if tb = 0 then 1 else tb) tt ∧
          r._loop_counter = n - (crossings env i (p.setLoop env n tb tt fb ft).1 + 1)) ∧
      (((runTimer env i (p.setLoop env n tb tt fb ft).1).transitionParameters env).crossing
          = true →
        n ≤ crossings env i (p.setLoop env n tb tt fb ft).1 →
        (runTimer env i (p.setLoop env n tb tt fb ft).1).onTimer env = env.parserOnTimer
          ((runTimer env i (p.setLoop env n tb tt fb ft).1).transitionParameters env)) ∧
      (((runTimer env i (p.setLoop env n tb tt fb ft).1).transitionParameters env).crossing
          = false →
        (runTimer env i (p.setLoop env n tb tt fb ft).1).onTimer env = env.parserOnTimer
          ((runTimer env i (p.setLoop env n tb tt fb ft).1).transitionParameters env)) := by
  have hset := setLoop_accepts_of_fits env p n tb tt fb ft hn htb htt hfb hft h1 hfb32 hwin
  generalize p.setLoop env n tb tt fb ft = p0 at hset hplay ⊢
  subst hset
  refine ⟨rfl, ?_⟩
  intro i hi
  have hrun := runTimer_loopWindow env hev i _ (fun j hj => hplay j (Nat.lt_trans hj hi))
  simp only [] at hrun
  generalize hs : runTimer env i _ = s at hrun ⊢
  have hpl := hplay i hi
  rw [hs] at hpl
  generalize hc : crossings env i _ = c at hrun ⊢
  obtain ⟨hact, ps, hps, hT⟩ := (playing_iff _).mp hpl
  have hw := loopWindow_transitionParameters env s
  rw [hrun] at hw
  have hw2 := hw
  simp only [loopWindow, Prod.mk.injEq] at hw2
  obtain ⟨hqc, hqtb, hqtt, -, -⟩ := hw2
  rw [crossing_of_parserPtr _ ps hps]
  refine ⟨hw, ?_, ?_, ?_⟩
  · intro hcr hlt
    have hne : (s.transitionParameters env)._loop_counter ≠ 0 := by
      rw [hqc]
      omega
    refine ⟨_, _, onTimer_of_due env s ps hact hps hne hcr,
      jump_parserPtr env _ ps _ _ _ (by exact hps), ?_, ?_⟩
    · rw [(hseek _ _).2, hqtb, hqtt]
    · have hj := jump_loopWindow env
        { s.transitionParameters env with
          _loop_counter := (s.transitionParameters env)._loop_counter - 1 }
        (s.transitionParameters env)._track_index (s.transitionParameters env)._loop_to_beat
        (s.transitionParameters env)._loop_to_tick
      simp only [loopWindow, Prod.mk.injEq] at hj
      rw [hj.1, hqc]
      omega
  · intro _ hge
    refine onTimer_of_not_due env s ps hact hps ?_
    rw [hqc]
    intro hd
    have := hd.1
    omega
  · intro hcr
    refine onTimer_of_not_due env s ps hact hps ?_
    intro hd
    rw [hcr] at hd
    exact Bool.false_ne_true hd.2

set_option maxRecDepth 100000 in
theorem loop_repeats_witness :
    ((∀ i, i < 13 →
      ((runTimer (exampleEnv 16) i
        (examplePlayer.setLoop (exampleEnv 16) 3 2 0 10 0).1).transitionParameters
          (exampleEnv 16)).playing = true) ∧
      crossings (exampleEnv 16) 13 (examplePlayer.setLoop (exampleEnv 16) 3 2 0 10 0).1 = 4 ∧
      (runTimer (exampleEnv 16) 13
        (examplePlayer.setLoop (exampleEnv 16) 3 2 0 10 0).1)._loop_counter = 0) ∧
    ∀ i, i < 13 →
      loopWindow ((runTimer (exampleEnv 16) i
          (examplePlayer.setLoop (exampleEnv 16) 3 2 0 10 0).1).transitionParameters
            (exampleEnv 16)) =
        (3 - min 3 (crossings (exampleEnv 16) i
          (examplePlayer.setLoop (exampleEnv 16) 3 2 0 10 0).1), 2, 0, 10, 0) :=
  ⟨⟨by decide, by decide, by decide⟩,
   fun i hi => ((loop_repeats (exampleEnv 16) examplePlayer 3 2 0 10 0 13
      (by decide) (by decide) (by decide) (by decide) (by decide) (by decide) (by decide)
      (by decide) (fun _ _ => ⟨rfl, rfl⟩) (fun _ => rfl) (by decide)).2 i hi).1⟩

/-! ## One fade quantum -/

@[simp]
theorem active_setVolume (env : Env) (p : Player) (vol : Nat) :
    (p.setVolume env vol).1._active = p._active := by
  unfold Player.setVolume
  split <;> rfl

@[simp]
theorem active_setDetune (env : Env) (p : Player) (d : Int) :
    (p.setDetune env d)._active = p._active := rfl

@[simp]
theorem active_setSpeed (env : Env) (p : Player) (s : Nat) :
    (p.setSpeed env s)._active = p._active := by
  unfold Player.setSpeed
  dsimp only
  split
  · rfl
  · split <;> rfl

@[simp]
theorem active_clear (env : Env) (p : Player) : (p.clear env)._active = false := by
  unfold Player.clear
  cases h : p._active <;> simp [h]

@[simp]
theorem advance_param (f : ParameterFader) : f.advance.param = f.param := rfl

theorem stepFader_stop (env : Env) (p : Player) (f : ParameterFader) :
    (stepFader env p f).2.2 = f.stops := by
  unfold stepFader ParameterFader.stops
  dsimp only
  split_ifs with h1 h2 h3 h4 h5 <;> simp_all
  omega

theorem stepFader_active (env : Env) (p : Player) (f : ParameterFader) :
    (stepFader env p f).1._active = (p._active && !f.stops) := by
  unfold stepFader ParameterFader.stops
  dsimp only
  split_ifs with h1 h2 h3 h4 h5 <;> simp_all
  omega

theorem stepFader_next (env : Env) (p : Player) (f : ParameterFader) (h : f.stops = false) :
    (stepFader env p f).2.1 = f.next := by
  unfold ParameterFader.stops at h
  unfold stepFader ParameterFader.next
  dsimp only
  rw [advance_param] at h ⊢
  split_ifs <;> simp_all

theorem stepFaders_stop (env : Env) (fs : List ParameterFader) (p : Player) :
    (stepFaders env p fs).2.2 = fs.any ParameterFader.stops := by
  induction fs generalizing p with
  | nil => rfl
  | cons f fs ih =>
    rw [stepFaders_cons, List.any_cons]
    split_ifs with h
    · rw [stepFader_stop] at h
      simp [h]
    · rw [stepFader_stop] at h
      simp [h, ih]

theorem stepFaders_active (env : Env) (fs : List ParameterFader) (p : Player) :
    (stepFaders env p fs).1._active = (p._active && !fs.any ParameterFader.stops) := by
  induction fs generalizing p with
  | nil => simp [stepFaders]
  | cons f fs ih =>
    rw [stepFaders_cons, List.any_cons]
    split_ifs with h
    · rw [stepFader_stop] at h
      simp [h, stepFader_active]
    · rw [stepFader_stop] at h
      simp [h, ih, stepFader_active]

theorem stepFaders_next (env : Env) (fs : List ParameterFader) (p : Player)
    (h : fs.any ParameterFader.stops = false) :
    (stepFaders env p fs).2.1 = fs.map ParameterFader.next := by
  induction fs generalizing p with
  | nil => rfl
  | cons f fs ih =>
    rw [List.any_cons, Bool.or_eq_false_iff] at h
    rw [stepFaders_cons, stepFader_stop, h.1]
    simp only [Bool.false_eq_true, if_false, List.map_cons]
    rw [stepFader_next env p f h.1, ih _ h.2]

theorem fadeQuantum_stop (env : Env) (p : Player) :
    (fadeQuantum env p).2 = p._parameterFaders.any ParameterFader.stops := by
  unfold fadeQuantum
  exact stepFaders_stop env _ p

theorem fadeQuantum_active (env : Env) (p : Player) :
    (fadeQuantum env p).1._active =
      (p._active && !p._parameterFaders.any ParameterFader.stops) := by
  unfold fadeQuantum
  exact stepFaders_active env _ p

theorem fadeQuantum_faders (env : Env) (p : Player)
    (h : p._parameterFaders.any ParameterFader.stops = false) :
    (fadeQuantum env p).1._parameterFaders = p._parameterFaders.map ParameterFader.next := by
  unfold fadeQuantum
  exact stepFaders_next env _ p h

/-- A quantum after which the player is active did not return from inside the
loop: every slot took its ordinary step. -/
theorem fadeQuantum_of_active (env : Env) (p : Player)
    (h : (fadeQuantum env p).1._active = true) :
    p._active = true ∧ (fadeQuantum env p).2 = false ∧
      (fadeQuantum env p).1._parameterFaders = p._parameterFaders.map ParameterFader.next := by
  rw [fadeQuantum_active, Bool.and_eq_true, Bool.not_eq_true'] at h
  exact ⟨h.1, by rw [fadeQuantum_stop]; exact h.2, fadeQuantum_faders env p h.2⟩

theorem runQuanta_succ (env : Env) (n : Nat) (p : Player) :
    runQuanta env (n + 1) p = runQuanta env n (fadeQuantum env p).1 := rfl

theorem runQuanta_succ_last (env : Env) (n : Nat) (p : Player) :
    runQuanta env (n + 1) p = (fadeQuantum env (runQuanta env n p)).1 := by
  induction n generalizing p with
  | zero => rfl
  | succ n ih => rw [runQuanta_succ, ih, ← runQuanta_succ]

/-- While the player stays active, `k` quanta take every slot through `k`
ordinary steps. -/
theorem runQuanta_faders (env : Env) (k : Nat) (p : Player)
    (h : ∀ i, i ≤ k → (runQuanta env i p)._active = true) :
    (runQuanta env k p)._parameterFaders =
      p._parameterFaders.map (fun f => ParameterFader.next^[k] f) := by
  induction k with
  | zero => simp [runQuanta]
  | succ k ih =>
    have hk := h (k + 1) (Nat.le_refl _)
    rw [runQuanta_succ_last] at hk ⊢
    obtain ⟨-, -, hf⟩ := fadeQuantum_of_active env _ hk
    rw [hf, ih (fun i hi => h i (Nat.le_succ_of_le hi)), List.map_map]
    apply List.map_congr_left
    intro f _
    simp only [Function.comp_apply, Function.iterate_succ_apply']

/-! ## The closed form of a fade -/

theorem toUint16_natCast (n : Nat) (h : n < 65536) : toUint16 (n : Int) = n := by
  unfold toUint16
  omega

theorem toInt16_toInt16_add (x y : Int) : toInt16 (toInt16 x + y) = toInt16 (x + y) := by
  unfold toInt16
  omega

theorem toInt16_of_range (x : Int) (h1 : -32768 ≤ x) (h2 : x ≤ 32767) : toInt16 x = x := by
  unfold toInt16
  omega

theorem fold_step (T r A : Nat) (hT : 0 < T) (hr : r < T) :
    (A + r) % T = (if T ≤ A % T + r then A % T + r - T else A % T + r) ∧
    (A + r) / T = A / T + (if T ≤ A % T + r then 1 else 0) := by
  have hm := Nat.mod_lt A hT
  constructor
  · rw [Nat.add_mod, Nat.mod_eq_of_lt hr]
    split_ifs with h
    · rw [Nat.mod_eq_sub_mod h, Nat.mod_eq_of_lt (by omega)]
    · exact Nat.mod_eq_of_lt (by omega)
  · rw [Nat.add_div hT, Nat.div_eq_of_lt hr, Nat.mod_eq_of_lt hr]
    simp

theorem at_carry (f : ParameterFader) (k : Nat) (hr : f.ifrac < f.ttime)
    (hov : f.ttime + f.ifrac ≤ 65536) :
    (f.at k).carry = decide (f.ttime ≤ (k * f.ifrac) % f.ttime + f.ifrac) := by
  have hm := Nat.mod_lt (k * f.ifrac) (Nat.lt_of_le_of_lt (Nat.zero_le _) hr)
  unfold ParameterFader.carry ParameterFader.at
  dsimp only
  rw [← Nat.cast_add, toUint16_natCast _ (by omega)]

theorem at_accumulate_irem (f : ParameterFader) (k : Nat) (hr : f.ifrac < f.ttime)
    (hov : f.ttime + f.ifrac ≤ 65536) :
    (f.at k).accumulate.irem = ((k + 1) * f.ifrac) % f.ttime := by
  have hT : 0 < f.ttime := Nat.lt_of_le_of_lt (Nat.zero_le _) hr
  have hm := Nat.mod_lt (k * f.ifrac) hT
  have hc := at_carry f k hr hov
  have hs := (fold_step f.ttime f.ifrac (k * f.ifrac) hT hr).1
  unfold ParameterFader.accumulate
  rw [hc]
  unfold ParameterFader.at
  dsimp only
  rw [Nat.succ_mul, hs, ← Nat.cast_add, toUint16_natCast _ (by omega)]
  by_cases h : f.ttime ≤ k * f.ifrac % f.ttime + f.ifrac
  · simp only [h, decide_True, if_true]
    rw [← Nat.cast_sub h, toUint16_natCast _ (by omega)]
  · simp only [h, decide_False, if_false, Bool.false_eq_true]

theorem at_mod (f : ParameterFader) (k : Nat) (hr : f.ifrac < f.ttime)
    (hov : f.ttime + f.ifrac ≤ 65536) :
    (f.at k).mod =
      f.incr + (if f.ttime ≤ (k * f.ifrac) % f.ttime + f.ifrac then f.dir else 0) := by
  unfold ParameterFader.mod
  rw [at_carry f k hr hov]
  by_cases h : f.ttime ≤ k * f.ifrac % f.ttime + f.ifrac
  · simp [h, ParameterFader.at]
  · simp [h, ParameterFader.at]

theorem at_state_succ (f : ParameterFader) (k : Nat) (hr : f.ifrac < f.ttime)
    (hov : f.ttime + f.ifrac ≤ 65536) :
    (f.at (k + 1)).state = toInt16 ((f.at k).state + (f.at k).mod) := by
  have hT : 0 < f.ttime := Nat.lt_of_le_of_lt (Nat.zero_le _) hr
  have hs := (fold_step f.ttime f.ifrac (k * f.ifrac) hT hr).2
  rw [at_mod f k hr hov]
  unfold ParameterFader.at
  dsimp only
  rw [toInt16_toInt16_add, Nat.succ_mul, hs]
  congr 1
  split_ifs <;> push_cast <;> ring

theorem at_param_ne (f : ParameterFader) (k : Nat) (hk : k < f.ttime) :
    (f.at k).param = f.param := by
  unfold ParameterFader.at
  simp [hk]

theorem countdown_eq (g : ParameterFader) (h : 0 < g.cntdwn) :
    g.countdown =
      { g with cntdwn := g.cntdwn - 1, param := if g.cntdwn - 1 = 0 then 0 else g.param } := by
  unfold ParameterFader.countdown
  rw [if_neg (by omega)]
  split_ifs <;> rfl

theorem at_state_idem (f : ParameterFader) (k : Nat) :
    toInt16 (f.at k).state = (f.at k).state := by
  unfold ParameterFader.at toInt16
  dsimp only
  omega

theorem at_next (f : ParameterFader) (k : Nat)
    (hp : f.param = ParameterFader.pfVolume ∨ f.param = ParameterFader.pfTranspose ∨
      f.param = ParameterFader.pfSpeed)
    (hr : f.ifrac < f.ttime) (hov : f.ttime + f.ifrac ≤ 65536) (hk : k < f.ttime) :
    (f.at k).next = f.at (k + 1) := by
  have hp0 : f.param ≠ 0 := by
    rcases hp with h | h | h <;> rw [h] <;> decide
  have hirem := at_accumulate_irem f k hr hov
  have hst := at_state_succ f k hr hov
  have hpar := at_param_ne f k hk
  have hcd : (f.at k).cntdwn = f.ttime - k := rfl
  unfold ParameterFader.next
  rw [hpar, if_neg hp0, if_pos hp]
  by_cases hm : (f.at k).mod = 0
  · rw [if_pos hm, countdown_eq _ (by show 0 < (f.at k).cntdwn; omega)]
    rw [hm, add_zero, at_state_idem] at hst
    ext
    · show (if (f.at k).cntdwn - 1 = 0 then 0 else (f.at k).param) = (f.at (k + 1)).param
      rw [hcd, hpar]
      unfold ParameterFader.at
      dsimp only
      split_ifs <;> first | rfl | omega
    · rfl
    · rfl
    · rfl
    · exact hirem
    · rfl
    · show (f.at k).cntdwn - 1 = (f.at (k + 1)).cntdwn
      unfold ParameterFader.at
      dsimp only
      omega
    · exact hst.symm
  · rw [if_neg hm, countdown_eq _ (by show 0 < (f.at k).cntdwn; omega)]
    ext
    · show (if (f.at k).cntdwn - 1 = 0 then 0 else (f.at k).param) = (f.at (k + 1)).param
      rw [hcd, hpar]
      unfold ParameterFader.at
      dsimp only
      split_ifs <;> first | rfl | omega
    · rfl
    · rfl
    · rfl
    · exact hirem
    · rfl
    · show (f.at k).cntdwn - 1 = (f.at (k + 1)).cntdwn
      unfold ParameterFader.at
      dsimp only
      omega
    · exact hst.symm

theorem at_zero (f : ParameterFader) (hT : 0 < f.ttime) (hi : f.irem = 0)
    (hc : f.cntdwn = f.ttime) (hs : toInt16 f.state = f.state) : f.at 0 = f := by
  unfold ParameterFader.at
  ext
  · simp [hT]
  · rfl
  · rfl
  · rfl
  · simp [hi]
  · rfl
  · simp [hc]
  · simp [hs]

/-- The slot `k` ordinary steps after it was written, for `k` up to its time. -/
theorem iterate_next_eq_at (f : ParameterFader)
    (hp : f.param = ParameterFader.pfVolume ∨ f.param = ParameterFader.pfTranspose ∨
      f.param = ParameterFader.pfSpeed)
    (hr : f.ifrac < f.ttime) (hov : f.ttime + f.ifrac ≤ 65536) (hi : f.irem = 0)
    (hc : f.cntdwn = f.ttime) (hs : toInt16 f.state = f.state) (k : Nat) (hk : k ≤ f.ttime) :
    ParameterFader.next^[k] f = f.at k := by
  induction k with
  | zero =>
    rw [Function.iterate_zero, id, at_zero f (Nat.lt_of_le_of_lt (Nat.zero_le _) hr) hi hc hs]
  | succ k ih =>
    rw [Function.iterate_succ_apply', ih (Nat.le_of_succ_le hk), at_next f k hp hr hov hk]

/-! ## Adding a fader -/

/-- What the slot search returns: the incoming `best` when no slot matches or
is free, the first matching slot, or else a free slot of a list without match. -/
theorem findFaderSlot_some (param : Int) (fs : List ParameterFader) :
    ∀ (i : Nat) (best : Option Nat) (j : Nat), findFaderSlot param i best fs = some j →
      (some j = best ∧ ∀ f, f ∈ fs → f.param ≠ param) ∨
      (i ≤ j ∧ j - i < fs.length ∧
        ((fs.getD (j - i) ParameterFader.zero).param = param ∨
          ((fs.getD (j - i) ParameterFader.zero).param = 0 ∧ ∀ f, f ∈ fs → f.param ≠ param))) := by
  induction fs with
  | nil =>
    intro i best j h
    simp only [findFaderSlot] at h
    exact Or.inl ⟨h.symm, by simp⟩
  | cons f fs ih =>
    intro i best j h
    simp only [findFaderSlot] at h
    split_ifs at h with h1 h2
    · have hj : j = i := by simpa using h.symm
      subst hj
      right
      simp [h1]
    · rcases ih (i + 1) (some i) j h with ⟨hb, hall⟩ | ⟨hle, hlt, hcase⟩
      · have hj : j = i := by simpa using hb
        subst hj
        right
        refine ⟨Nat.le_refl _, by simp, Or.inr ⟨by simp [h2], ?_⟩⟩
        intro g hg
        rcases List.mem_cons.mp hg with rfl | hg
        · exact h1
        · exact hall g hg
      · right
        have hji : j - i = (j - (i + 1)) + 1 := by omega
        refine ⟨by omega, by simp only [List.length_cons]; omega, ?_⟩
        rw [hji, List.getD_cons_succ]
        rcases hcase with hc | ⟨hc, hall⟩
        · exact Or.inl hc
        · refine Or.inr ⟨hc, ?_⟩
          intro g hg
          rcases List.mem_cons.mp hg with rfl | hg
          · exact h1
          · exact hall g hg
    · rcases ih (i + 1) best j h with ⟨hb, hall⟩ | ⟨hle, hlt, hcase⟩
      · left
        refine ⟨hb, ?_⟩
        intro g hg
        rcases List.mem_cons.mp hg with rfl | hg
        · exact h1
        · exact hall g hg
      · right
        have hji : j - i = (j - (i + 1)) + 1 := by omega
        refine ⟨by omega, by simp only [List.length_cons]; omega, ?_⟩
        rw [hji, List.getD_cons_succ]
        rcases hcase with hc | ⟨hc, hall⟩
        · exact Or.inl hc
        · refine Or.inr ⟨hc, ?_⟩
          intro g hg
          rcases List.mem_cons.mp hg with rfl | hg
          · exact h1
          · exact hall g hg

/-- The slot search from the first slot on: the slot found is in range and
either holds `param` already or is free in a list without `param`. -/
theorem findFaderSlot_spec (param : Int) (fs : List ParameterFader) (j : Nat)
    (h : findFaderSlot param 0 none fs = some j) :
    j < fs.length ∧
      ((fs.getD j ParameterFader.zero).param = param ∨
        ((fs.getD j ParameterFader.zero).param = 0 ∧ ∀ f, f ∈ fs → f.param ≠ param)) := by
  rcases findFaderSlot_some param fs 0 none j h with ⟨hb, -⟩ | ⟨-, hlt, hcase⟩
  · exact absurd hb (by simp)
  · exact ⟨by simpa using hlt, by simpa using hcase⟩

/-- `addParameterFader` with a non-zero time and a slot at hand writes that slot. -/
theorem addParameterFader_alloc (env : Env) (p : Player) (param target time : Int) (j : Nat)
    (hp : param = ParameterFader.pfVolume ∨ param = ParameterFader.pfTranspose ∨
      param = ParameterFader.pfSpeed)
    (ht : time ≠ 0)
    (hd : -2147483647 ≤ target - p.faderStart param ∧ target - p.faderStart param ≤ 2147483647)
    (hj : findFaderSlot param 0 none p._parameterFaders = some j) :
    p.addParameterFader env param target time =
      some (p.setFader j (newFader param (p.faderStart param) target time), 0) := by
  have hnd : ∀ s : Int, (-2147483647 ≤ target - s ∧ target - s ≤ 2147483647) →
      ¬ (time = 0 ∨ target - s < -2147483647 ∨ target - s > 2147483647) := by
    intro s h
    omega
  unfold Player.addParameterFader
  simp only [hj]
  rcases hp with h | h | h
  · subst h
    have h1 : p.faderStart ParameterFader.pfVolume = p._volume := by
      simp [Player.faderStart]
    rw [h1] at hd ⊢
    rw [if_pos rfl, if_neg ht, if_neg (hnd _ hd)]
  · subst h
    have h1 : p.faderStart ParameterFader.pfTranspose = p._detune := by
      simp [Player.faderStart, ParameterFader.pfTranspose, ParameterFader.pfVolume]
    rw [h1] at hd ⊢
    rw [if_neg (by decide), if_pos rfl, if_neg ht, if_neg (hnd _ hd)]
  · subst h
    have h1 : p.faderStart ParameterFader.pfSpeed = p._speed := by
      simp [Player.faderStart, ParameterFader.pfTranspose, ParameterFader.pfVolume,
        ParameterFader.pfSpeed]
    rw [h1] at hd ⊢
    rw [if_neg (by decide), if_neg (by decide), if_pos rfl, if_neg (hnd _ hd)]

theorem toByte_natCast (n : Nat) (h : n < 256) : toByte (n : Int) = n := by
  unfold toByte
  omega

/-- C8: for a target in 0..127, `addParameterFader(pfVolume, target, 0)` returns
0, the player's volume is `target` at once (the result is that of `setVolume`),
and the fader slots are exactly as before. -/
theorem addParameterFader_volume_now (env : Env) (p : Player) (target : Nat)
    (h : target ≤ 127) :
    p.addParameterFader env ParameterFader.pfVolume target 0 =
        some ((p.setVolume env target).1, 0) ∧
      (p.setVolume env target).2 = 0 ∧
      (p.setVolume env target).1._volume = target ∧
      (p.setVolume env target).1._parameterFaders = p._parameterFaders := by
  refine ⟨?_, ?_, ?_, ?_⟩
  · unfold Player.addParameterFader
    rw [if_pos rfl, if_pos rfl, toByte_natCast _ (by omega)]
  · unfold Player.setVolume
    rw [if_neg (by omega)]
  · unfold Player.setVolume
    rw [if_neg (by omega)]
  · unfold Player.setVolume
    rw [if_neg (by omega)]

theorem addParameterFader_volume_now_witness :
    (64 ≤ 127) ∧
    examplePlayer.addParameterFader (exampleEnv 16) ParameterFader.pfVolume (64 : Nat) 0 =
        some ((examplePlayer.setVolume (exampleEnv 16) 64).1, 0) ∧
      (examplePlayer.setVolume (exampleEnv 16) 64).2 = 0 ∧
      (examplePlayer.setVolume (exampleEnv 16) 64).1._volume = 64 ∧
      (examplePlayer.setVolume (exampleEnv 16) 64).1._parameterFaders =
        examplePlayer._parameterFaders :=
  ⟨by decide, addParameterFader_volume_now (exampleEnv 16) examplePlayer 64 (by decide)⟩

/-- C9: `addParameterFader(pfSpeed, target, 0)` has no zero-time path: with a
slot at hand it reaches the slot set-up and its division `diff / time` by
zero, so the call has no defined result. -/
theorem addParameterFader_speed_zero_time (env : Env) (p : Player) (target : Int) (j : Nat)
    (hj : findFaderSlot ParameterFader.pfSpeed 0 none p._parameterFaders = some j) :
    p.addParameterFader env ParameterFader.pfSpeed target 0 = none := by
  unfold Player.addParameterFader
  simp only [hj]
  rw [if_neg (by decide), if_neg (by decide)]
  simp

theorem addParameterFader_speed_zero_time_witness :
    findFaderSlot ParameterFader.pfSpeed 0 none examplePlayer._parameterFaders = some 3 ∧
    examplePlayer.addParameterFader (exampleEnv 16) ParameterFader.pfSpeed 64 0 = none :=
  ⟨by decide, addParameterFader_speed_zero_time (exampleEnv 16) examplePlayer 64 3 (by decide)⟩

/-! ## Runs of quanta without a volume fade -/

theorem countdown_param (g : ParameterFader) :
    g.countdown.param = g.param ∨ g.countdown.param = 0 := by
  unfold ParameterFader.countdown
  split_ifs <;> simp

theorem next_param (f : ParameterFader) : f.next.param = f.param ∨ f.next.param = 0 := by
  unfold ParameterFader.next
  split_ifs
  · exact Or.inl rfl
  · exact countdown_param f.accumulate
  · exact countdown_param f.advance
  · exact countdown_param { f.advance with param := 0 } |>.elim Or.inr Or.inr

theorem iterate_next_param_ne (f : ParameterFader) (k : Nat)
    (h : f.param ≠ ParameterFader.pfVolume) :
    (ParameterFader.next^[k] f).param ≠ ParameterFader.pfVolume := by
  induction k with
  | zero => exact h
  | succ k ih =>
    rw [Function.iterate_succ_apply']
    rcases next_param (ParameterFader.next^[k] f) with h1 | h1
    · rw [h1]; exact ih
    · rw [h1]; decide

theorem stops_of_not_volume (f : ParameterFader) (h : f.param ≠ ParameterFader.pfVolume) :
    f.stops = false := by
  unfold ParameterFader.stops
  simp [h]

/-- Without a volume fade among the slots no quantum stops the player: it
keeps its active flag and every slot takes `k` ordinary steps. -/
theorem runQuanta_no_volume (env : Env) (k : Nat) (p : Player)
    (h : ∀ f, f ∈ p._parameterFaders → f.param ≠ ParameterFader.pfVolume) :
    (runQuanta env k p)._active = p._active ∧
      (runQuanta env k p)._parameterFaders =
        p._parameterFaders.map (fun f => ParameterFader.next^[k] f) := by
  induction k with
  | zero => simp [runQuanta]
  | succ k ih =>
    have hany : (runQuanta env k p)._parameterFaders.any ParameterFader.stops = false := by
      rw [List.any_eq_false, ih.2]
      intro g hg
      obtain ⟨f, hf, rfl⟩ := List.mem_map.mp hg
      rw [stops_of_not_volume _ (iterate_next_param_ne f k (h f hf))]
      simp
    rw [runQuanta_succ_last, fadeQuantum_active, fadeQuantum_faders env _ hany, hany, ih.1, ih.2,
      List.map_map]
    refine ⟨by simp, ?_⟩
    apply List.map_congr_left
    intro f _
    simp only [Function.comp_apply, Function.iterate_succ_apply']

/-! ## The remainder accumulator at a long fade -/

theorem wrap_step (g : ParameterFader) (h1 : g.param = 3) (h2 : g.incr = 0)
    (h3 : g.ifrac = 65534) (h4 : g.ttime = 65535) (h5 : g.irem % 2 = 0) (h7 : 0 < g.cntdwn) :
    g.next = { g with irem := (g.irem + 65534) % 65536, cntdwn := g.cntdwn - 1,
                      param := if g.cntdwn - 1 = 0 then 0 else 3 } := by
  have hsum : toUint16 ((g.irem : Int) + (g.ifrac : Int)) = (g.irem + 65534) % 65536 := by
    unfold toUint16
    rw [h3]
    omega
  have hc : g.carry = false := by
    unfold ParameterFader.carry
    rw [hsum, h4]
    simp only [ge_iff_le, decide_eq_false_iff_not, not_le]
    omega
  have hm : g.mod = 0 := by
    unfold ParameterFader.mod
    rw [hc, h2]
    rfl
  have ha : g.accumulate = { g with irem := (g.irem + 65534) % 65536 } := by
    unfold ParameterFader.accumulate
    rw [hc, hsum]
    rfl
  unfold ParameterFader.next
  rw [if_neg (by rw [h1]; decide), if_pos hm, ha, countdown_eq _ (by exact h7)]
  simp only [h1]

theorem wrap_invariant (f : ParameterFader) (h1 : f.param = 3) (h2 : f.incr = 0)
    (h3 : f.ifrac = 65534) (h4 : f.ttime = 65535) (h5 : f.irem = 0) (h7 : f.cntdwn = 65535)
    (k : Nat) (hk : k ≤ 65535) :
    (ParameterFader.next^[k] f).state = f.state ∧ (ParameterFader.next^[k] f).incr = 0 ∧
      (ParameterFader.next^[k] f).ifrac = 65534 ∧ (ParameterFader.next^[k] f).ttime = 65535 ∧
      (ParameterFader.next^[k] f).irem % 2 = 0 ∧ (ParameterFader.next^[k] f).irem < 65536 ∧
      (ParameterFader.next^[k] f).cntdwn = 65535 - k ∧
      (ParameterFader.next^[k] f).param = (if k < 65535 then 3 else 0) := by
  induction k with
  | zero => simp [h1, h2, h3, h4, h5, h7]
  | succ k ih =>
    obtain ⟨i1, i2, i3, i4, i5, i6, i7, i8⟩ := ih (Nat.le_of_succ_le hk)
    rw [if_pos (by omega)] at i8
    rw [Function.iterate_succ_apply', wrap_step _ i8 i2 i3 i4 i5 (by omega)]
    refine ⟨i1, i2, i3, i4, ?_, ?_, ?_, ?_⟩
    · show ((ParameterFader.next^[k] f).irem + 65534) % 65536 % 2 = 0
      omega
    · show ((ParameterFader.next^[k] f).irem + 65534) % 65536 < 65536
      omega
    · show (ParameterFader.next^[k] f).cntdwn - 1 = 65535 - (k + 1)
      omega
    · show (if (ParameterFader.next^[k] f).cntdwn - 1 = 0 then 0 else 3) =
        (if k + 1 < 65535 then (3 : Int) else 0)
      rw [i7]
      split_ifs <;> first | rfl | omega

/-- C6: the fade of the detune from -32768 to 32766 over 65535 quanta, all
values within the ranges of the 16-bit slot fields.  The player stays active,
the slot (the last one) is allocated through the first 65534 quanta and free
after quantum 65535, but its state is still -32768: `irem += ifrac` wraps in
the `uint16` field, the carry test never succeeds and no step is ever taken. -/
theorem fade_remainder_wraps :
    exampleDetuned.addParameterFader (exampleEnv 16) ParameterFader.pfTranspose 32766 65535 =
        some (exampleDetunedFading, 0) ∧
    ∀ k, k ≤ 65535 →
      (runQuanta (exampleEnv 16) k exampleDetunedFading)._active = true ∧
      ((runQuanta (exampleEnv 16) k exampleDetunedFading)._parameterFaders.getD 3
          ParameterFader.zero).state = -32768 ∧
      ((runQuanta (exampleEnv 16) k exampleDetunedFading)._parameterFaders.getD 3
          ParameterFader.zero).param = (if k < 65535 then 3 else 0) := by
  constructor
  · decide
  · intro k hk
    have hnv : ∀ f, f ∈ exampleDetunedFading._parameterFaders →
        f.param ≠ ParameterFader.pfVolume := by decide
    obtain ⟨ha, hf⟩ := runQuanta_no_volume (exampleEnv 16) k _ hnv
    have hw := wrap_invariant exampleLongFade
      (by decide) (by decide) (by decide) (by decide) (by decide) (by decide) k hk
    have hget : ∀ g : ParameterFader, (exampleDetunedFading._parameterFaders.map
          (fun f => ParameterFader.next^[k] f)).getD 3 g =
          ParameterFader.next^[k] exampleLongFade := by
      intro g; rfl
    rw [ha, hf, hget]
    exact ⟨by decide, hw.1.trans (by decide), hw.2.2.2.2.2.2.2⟩

/-! ## A volume fade to silence -/

theorem newFader_volume_to_zero (v T : Nat) (hv1 : 1 ≤ v) (hv2 : v ≤ 127) (hT : 0 < T)
    (hb : T + v ≤ 65536) :
    newFader ParameterFader.pfVolume v 0 T =
      { param := ParameterFader.pfVolume, state := v, ttime := T, cntdwn := T, dir := -1,
        incr := -((v / T : Nat) : Int), ifrac := v % T, irem := 0 } := by
  have hdiv : v / T ≤ v := Nat.div_le_self v T
  have hmod : v % T < T := Nat.mod_lt v hT
  have h1 : toInt16 (v : Int) = v := toInt16_of_range _ (by omega) (by omega)
  have h2 : toUint16 (T : Int) = T := toUint16_natCast _ (by omega)
  have h3 : Int.tdiv ((0 : Int) - v) T = -((v / T : Nat) : Int) := by
    rw [zero_sub, Int.neg_tdiv, Int.ofNat_tdiv]
  have h4 : Int.tmod ((Int.natAbs ((0 : Int) - v) : Nat) : Int) T = ((v % T : Nat) : Int) := by
    rw [zero_sub, Int.natAbs_neg, Int.natAbs_ofNat, Int.ofNat_tmod]
  have h5 : toInt16 (-((v / T : Nat) : Int)) = -((v / T : Nat) : Int) := by
    generalize v / T = q at hdiv
    exact toInt16_of_range _ (by omega) (by omega)
  have h6 : toUint16 ((v % T : Nat) : Int) = v % T := toUint16_natCast _ (by omega)
  have h7 : ¬ ((0 : Int) - v ≥ 0) := by omega
  unfold newFader
  rw [h1, h2, h3, h4, h5, h6, if_neg h7]

theorem volume_fade_state (v T k : Nat) (hv2 : v ≤ 127) (hT : 0 < T) (hk : k ≤ T)
    (f : ParameterFader) (hs : f.state = v) (ht : f.ttime = T) (hd : f.dir = -1)
    (hi : f.incr = -((v / T : Nat) : Int)) (hf : f.ifrac = v % T) :
    (f.at k).state = (v : Int) - ((k * v / T : Nat) : Int) := by
  have hsplit : k * v / T = k * (v / T) + k * (v % T) / T := by
    have : k * v = T * (k * (v / T)) + k * (v % T) := by
      conv_lhs => rw [← Nat.div_add_mod v T]
      ring
    rw [this, Nat.mul_add_div hT]
  have hle : k * v / T ≤ v := by
    apply Nat.div_le_of_le_mul
    exact Nat.mul_le_mul_right v hk
  have hcast : ((k * (v / T) + k * (v % T) / T : Nat) : Int) =
      (k : Int) * ((v / T : Nat) : Int) + ((k * (v % T) / T : Nat) : Int) := by
    rw [Nat.cast_add, Nat.cast_mul]
  have hle2 : ((k * (v / T) + k * (v % T) / T : Nat) : Int) ≤ (v : Int) := by
    rw [← hsplit]
    exact Int.ofNat_le.mpr hle
  have hnn : (0 : Int) ≤ ((k * (v / T) + k * (v % T) / T : Nat) : Int) := Int.ofNat_nonneg _
  unfold ParameterFader.at
  dsimp only
  rw [hs, ht, hd, hi, hf, hsplit, hcast, mul_neg]
  rw [hcast] at hle2 hnn
  generalize (k : Int) * ((v / T : Nat) : Int) = a at hle2 hnn ⊢
  generalize ((k * (v % T) / T : Nat) : Int) = b at hle2 hnn ⊢
  unfold toInt16
  omega

theorem getElem?_set_cases (fs : List ParameterFader) (j : Nat) (f0 : ParameterFader) (i : Nat)
    (g : ParameterFader) (h : (fs.set j f0)[i]? = some g) :
    (i = j ∧ g = f0) ∨ (i ≠ j ∧ fs[i]? = some g) := by
  rw [List.getElem?_set] at h
  split_ifs at h with h1 h2
  · exact Or.inl ⟨h1.symm, (Option.some.inj h).symm⟩
  · exact Or.inr ⟨fun e => h1 e.symm, h⟩

theorem getD_set_map_self (fs : List ParameterFader) (j : Nat) (f0 : ParameterFader)
    (F : ParameterFader → ParameterFader) (hj : j < fs.length) :
    ((fs.set j f0).map F).getD j ParameterFader.zero = F f0 := by
  rw [List.getD_eq_getElem?_getD, List.getElem?_map, List.getElem?_set_self hj]
  rfl

/-- The slots other than the one the search finds for `param` do not hold `param`. -/
theorem other_slots_ne (fs : List ParameterFader) (param : Int) (j : Nat) (hp : param ≠ 0)
    (hnd : NoDupParams fs) (hj : findFaderSlot param 0 none fs = some j) (i : Nat)
    (g : ParameterFader) (hi : i ≠ j) (hg : fs[i]? = some g) : g.param ≠ param := by
  obtain ⟨hlt, hcase⟩ := findFaderSlot_spec param fs j hj
  have hil : i < fs.length := (List.getElem?_eq_some.mp hg).1
  have hgd : fs.getD i ParameterFader.zero = g := by
    rw [List.getD_eq_getElem?_getD, hg]
    rfl
  rcases hcase with h | ⟨-, hall⟩
  · have := hnd j i hlt hil (fun e => hi e.symm) (by rw [h]; exact hp)
    rw [h, hgd] at this
    exact fun e => this e.symm
  · exact hall g (List.getElem?_mem hg)

theorem volume_at_stops (v T k : Nat) (hv1 : 1 ≤ v) (hv2 : v ≤ 127) (hT : 0 < T)
    (hb : T + v ≤ 65536) (hk : k < T) :
    ((newFader ParameterFader.pfVolume v 0 T).at k).stops = decide (k + 1 = T) := by
  have hf := newFader_volume_to_zero v T hv1 hv2 hT hb
  have hmod : v % T < T := Nat.mod_lt v hT
  have hmv : v % T ≤ v := Nat.mod_le v T
  generalize newFader ParameterFader.pfVolume v 0 T = f at hf
  have hs : f.state = v := by rw [hf]
  have ht : f.ttime = T := by rw [hf]
  have hd : f.dir = -1 := by rw [hf]
  have hi : f.incr = -((v / T : Nat) : Int) := by rw [hf]
  have hfr : f.ifrac = v % T := by rw [hf]
  have hpar : f.param = ParameterFader.pfVolume := by rw [hf]
  have hr : f.ifrac < f.ttime := by rw [hfr, ht]; exact hmod
  have hov : f.ttime + f.ifrac ≤ 65536 := by rw [hfr, ht]; omega
  have h0 := volume_fade_state v T k hv2 hT (Nat.le_of_lt hk) f hs ht hd hi hfr
  have h1 := volume_fade_state v T (k + 1) hv2 hT hk f hs ht hd hi hfr
  have hsucc := at_state_succ f k hr hov
  have hlt : k * v / T < v := by
    apply Nat.div_lt_of_lt_mul
    exact Nat.mul_lt_mul_of_pos_right hk hv1
  have hadv : (f.at k).advance.state = (v : Int) - ((((k + 1) * v / T : Nat)) : Int) := by
    rw [← h1, hsucc]
    rfl
  have hpk : (f.at k).param = ParameterFader.pfVolume := by
    rw [at_param_ne f k (by rw [ht]; exact hk), hpar]
  unfold ParameterFader.stops
  rw [advance_param, hpk, hadv]
  by_cases hlast : k + 1 = T
  · have hz : (k + 1) * v / T = v := by
      rw [hlast]
      exact Nat.mul_div_cancel_left v hT
    have hmne : (f.at k).mod ≠ 0 := by
      intro hm
      rw [hm, add_zero, at_state_idem, h0, h1, hz] at hsucc
      have := Int.ofNat_lt.mpr hlt
      omega
    rw [hz, decide_eq_decide]
    exact ⟨fun _ => hlast, fun _ => ⟨by decide, hmne, rfl, by omega⟩⟩
  · have hlt2 : (k + 1) * v / T < v := by
      apply Nat.div_lt_of_lt_mul
      exact Nat.mul_lt_mul_of_pos_right (by omega) hv1
    have hne : (v : Int) - (((k + 1) * v / T : Nat) : Int) ≠ 0 := by
      have := Int.ofNat_lt.mpr hlt2
      omega
    rw [decide_eq_decide]
    exact ⟨fun h => absurd h.2.2.2 hne, fun h => absurd h hlast⟩

theorem volume_iterate (v T k : Nat) (hv1 : 1 ≤ v) (hv2 : v ≤ 127) (hT : 0 < T)
    (hb : T + v ≤ 65536) (hk : k ≤ T) :
    ParameterFader.next^[k] (newFader ParameterFader.pfVolume v 0 T) =
      (newFader ParameterFader.pfVolume v 0 T).at k := by
  have hf := newFader_volume_to_zero v T hv1 hv2 hT hb
  have hmod : v % T < T := Nat.mod_lt v hT
  have hmv : v % T ≤ v := Nat.mod_le v T
  generalize newFader ParameterFader.pfVolume v 0 T = f at hf
  have ht : f.ttime = T := by rw [hf]
  have hfr : f.ifrac = v % T := by rw [hf]
  have hs : f.state = v := by rw [hf]
  refine iterate_next_eq_at f (Or.inl (by rw [hf])) (by rw [hfr, ht]; exact hmod)
    (by rw [hfr, ht]; omega) (by rw [hf]) (by rw [hf]) ?_ k (by rw [ht]; exact hk)
  rw [hs]
  exact toInt16_of_range _ (by omega) (by omega)

/-- The run of a volume fade to 0 before its last quantum: the player stays
active and every slot takes its ordinary steps. -/
theorem volume_run (env : Env) (p1 : Player) (fs : List ParameterFader) (j v T : Nat)
    (hv1 : 1 ≤ v) (hv2 : v ≤ 127) (hT : 0 < T) (hb : T + v ≤ 65536)
    (hact : p1._active = true)
    (hfs : p1._parameterFaders = fs.set j (newFader ParameterFader.pfVolume v 0 T))
    (hoth : ∀ i g, i ≠ j → fs[i]? = some g → g.param ≠ ParameterFader.pfVolume)
    (k : Nat) (hk : k < T) :
    (runQuanta env k p1)._active = true ∧
      (runQuanta env k p1)._parameterFaders =
        (fs.set j (newFader ParameterFader.pfVolume v 0 T)).map
          (fun f => ParameterFader.next^[k] f) := by
  induction k with
  | zero => exact ⟨hact, by simp [runQuanta, hfs]⟩
  | succ k ih =>
    obtain ⟨ia, ifs⟩ := ih (Nat.lt_of_succ_lt hk)
    have hany : (runQuanta env k p1)._parameterFaders.any ParameterFader.stops = false := by
      rw [List.any_eq_false, ifs]
      intro g hg
      obtain ⟨f, hf, rfl⟩ := List.mem_map.mp hg
      obtain ⟨i, hi⟩ := List.mem_iff_getElem?.mp hf
      rcases getElem?_set_cases fs j _ i f hi with ⟨-, rfl⟩ | ⟨hne, hfi⟩
      · rw [volume_iterate v T k hv1 hv2 hT hb (by omega),
          volume_at_stops v T k hv1 hv2 hT hb (by omega)]
        simp only [decide_eq_true_eq]
        omega
      · rw [stops_of_not_volume _ (iterate_next_param_ne f k (hoth i f hne hfi))]
        simp
    rw [runQuanta_succ_last, fadeQuantum_active, fadeQuantum_faders env _ hany, hany, ia, ifs,
      List.map_map]
    refine ⟨by simp, ?_⟩
    apply List.map_congr_left
    intro f _
    simp only [Function.comp_apply, Function.iterate_succ_apply']

/-- C7 (amended): an active player with volume `v` in 1..127 whose fader slots
hold no parameter twice and offer a slot to the volume fades to 0 over `T > 0`
quanta with `T + v ≤ 65536`: `addParameterFader` returns 0; before each of the
first `T` quanta the player is active and the interpolated volume is positive;
in quantum `T` the volume slot reaches 0, `transitionParameters` returns from
inside the loop through `clear`, and the player is inactive afterwards. -/
theorem volume_fade_to_silence (env : Env) (p : Player) (T j : Nat)
    (hact : p._active = true) (hv1 : 1 ≤ p._volume) (hv2 : p._volume ≤ 127)
    (hT : 0 < T) (hb : T + p._volume ≤ 65536)
    (hnd : NoDupParams p._parameterFaders)
    (hj : findFaderSlot ParameterFader.pfVolume 0 none p._parameterFaders = some j) :
    p.addParameterFader env ParameterFader.pfVolume 0 T =
        some ((p.setFader j (newFader ParameterFader.pfVolume p._volume 0 T)), 0) ∧
    (∀ k, k < T →
      (runQuanta env k (p.setFader j (newFader ParameterFader.pfVolume p._volume 0 T)))._active = true ∧
      0 < ((runQuanta env k (p.setFader j (newFader ParameterFader.pfVolume p._volume 0 T)))._parameterFaders.getD j
            ParameterFader.zero).state) ∧
    ((runQuanta env (T - 1) (p.setFader j (newFader ParameterFader.pfVolume p._volume 0 T)))._parameterFaders.getD j
          ParameterFader.zero).stops = true ∧
    (fadeQuantum env (runQuanta env (T - 1) (p.setFader j (newFader ParameterFader.pfVolume p._volume 0 T)))).2 = true ∧
    (runQuanta env T (p.setFader j (newFader ParameterFader.pfVolume p._volume 0 T)))._active = false := by
  have hjl : j < p._parameterFaders.length :=
    (findFaderSlot_spec _ _ j hj).1
  have hoth : ∀ i g, i ≠ j → p._parameterFaders[i]? = some g →
      g.param ≠ ParameterFader.pfVolume :=
    fun i g => other_slots_ne p._parameterFaders _ j (by decide) hnd hj i g
  have hstart : p.faderStart ParameterFader.pfVolume = p._volume := by
    simp [Player.faderStart]
  have hadd := addParameterFader_alloc env p ParameterFader.pfVolume 0 T j (Or.inl rfl)
    (by omega) (by rw [hstart]; omega) hj
  rw [hstart] at hadd
  have hrun := volume_run env (p.setFader j (newFader ParameterFader.pfVolume p._volume 0 T)) p._parameterFaders j p._volume T
      hv1 hv2 hT hb hact rfl hoth
  have hslot : ∀ k, k < T →
      ((runQuanta env k (p.setFader j (newFader ParameterFader.pfVolume p._volume 0 T)))._parameterFaders.getD j
          ParameterFader.zero) = (newFader ParameterFader.pfVolume p._volume 0 T).at k := by
    intro k hk
    rw [(hrun k hk).2, getD_set_map_self _ _ _ _ hjl,
      volume_iterate _ T k hv1 hv2 hT hb (Nat.le_of_lt hk)]
  have hlast : ((runQuanta env (T - 1) (p.setFader j (newFader ParameterFader.pfVolume p._volume 0 T)))._parameterFaders.getD j
          ParameterFader.zero).stops = true := by
    rw [hslot (T - 1) (by omega), volume_at_stops _ T (T - 1) hv1 hv2 hT hb (by omega)]
    simp only [decide_eq_true_eq]
    omega
  have hany : (runQuanta env (T - 1) (p.setFader j (newFader ParameterFader.pfVolume p._volume 0 T)))._parameterFaders.any
          ParameterFader.stops = true := by
    rw [List.any_eq_true]
    refine ⟨_, ?_, hlast⟩
    rw [List.getD_eq_getElem?_getD]
    have hlen : j < (runQuanta env (T - 1) (p.setFader j (newFader ParameterFader.pfVolume p._volume 0 T)))._parameterFaders.length := by
      rw [(hrun (T - 1) (by omega)).2]
      simpa using hjl
    rw [List.getElem?_eq_getElem hlen]
    exact List.getElem_mem _
  refine ⟨hadd, ?_, hlast, ?_, ?_⟩
  · intro k hk
    refine ⟨(hrun k hk).1, ?_⟩
    have hf := newFader_volume_to_zero p._volume T hv1 hv2 hT hb
    rw [hslot k hk, volume_fade_state p._volume T k hv2 hT (Nat.le_of_lt hk) _
      (by rw [hf]) (by rw [hf]) (by rw [hf]) (by rw [hf]) (by rw [hf])]
    have hlt : k * p._volume / T < p._volume := by
      apply Nat.div_lt_of_lt_mul
      exact Nat.mul_lt_mul_of_pos_right hk hv1
    have := Int.ofNat_lt.mpr hlt
    omega
  · rw [fadeQuantum_stop, hany]
  · have hT1 : T = (T - 1) + 1 := by omega
    rw [hT1, runQuanta_succ_last, fadeQuantum_active]
    rw [← hT1, hany]
    simp

theorem noDupParams_of_all_free (fs : List ParameterFader)
    (h : ∀ f, f ∈ fs → f.param = 0) : NoDupParams fs := by
  intro i j hi _ _ hne
  exfalso
  apply hne
  rw [List.getD_eq_getElem _ _ hi]
  exact h _ (List.getElem_mem _)

theorem volume_fade_to_silence_witness :
    (examplePlayer._active = true ∧ 1 ≤ examplePlayer._volume ∧ examplePlayer._volume ≤ 127 ∧
      50 + examplePlayer._volume ≤ 65536 ∧
      findFaderSlot ParameterFader.pfVolume 0 none examplePlayer._parameterFaders = some 3) ∧
    (∀ k, k < 50 →
      (runQuanta (exampleEnv 16) k (examplePlayer.setFader 3
        (newFader ParameterFader.pfVolume examplePlayer._volume 0 (50 : Nat))))._active = true) ∧
    (runQuanta (exampleEnv 16) 50 (examplePlayer.setFader 3
        (newFader ParameterFader.pfVolume examplePlayer._volume 0 (50 : Nat))))._active = false := by
  have h := volume_fade_to_silence (exampleEnv 16) examplePlayer 50 3 (by decide) (by decide)
    (by decide) (by decide) (by decide) (noDupParams_of_all_free _ (by decide)) (by decide)
  exact ⟨⟨by decide, by decide, by decide, by decide, by decide⟩,
    fun k hk => (h.2.1 k hk).1, h.2.2.2.2⟩

/-- C7 as stated fails for a time that does not fit the 16-bit `ttime`: with
volume 1 and time 65536 the stored time is 0, the first quantum already takes
the volume to 0 and stops the player, 65535 quanta early. -/
theorem volume_fade_long_time_stops_early :
    exampleQuiet.addParameterFader (exampleEnv 16) ParameterFader.pfVolume 0 65536 =
        some (exampleQuiet.setFader 3 (newFader ParameterFader.pfVolume 1 0 65536), 0) ∧
    (runQuanta (exampleEnv 16) 1
      (exampleQuiet.setFader 3 (newFader ParameterFader.pfVolume 1 0 65536)))._active = false := by
  constructor <;> decide

/-! ## The invariant of the fader slots -/

theorem paramsFade_refl (fs : List ParameterFader) : ParamsFade fs fs :=
  ⟨rfl, fun _ => Or.inl rfl⟩

theorem paramsFade_trans (fs gs hs : List ParameterFader) (h1 : ParamsFade fs gs)
    (h2 : ParamsFade gs hs) : ParamsFade fs hs := by
  refine ⟨h2.1.trans h1.1, fun i => ?_⟩
  rcases h2.2 i with h | h
  · rw [h]; exact h1.2 i
  · exact Or.inr h

theorem fadersOk_of_paramsFade (fs gs : List ParameterFader) (h : ParamsFade fs gs)
    (hok : FadersOk fs) : FadersOk gs := by
  refine ⟨?_, fun i => ?_⟩
  · intro i j hi hj hij hne
    rw [h.1] at hi hj
    rcases h.2 i with h1 | h1
    · rcases h.2 j with h2 | h2
      · rw [h1, h2]
        exact hok.1 i j hi hj hij (by rw [← h1]; exact hne)
      · rw [h2]; exact hne
    · exact absurd h1 hne
  · rcases h.2 i with h1 | h1
    · rw [h1]; exact hok.2 i
    · rw [h1]; exact Or.inl rfl

theorem fadersOk_of_all_free (fs : List ParameterFader) (h : ∀ f, f ∈ fs → f.param = 0) :
    FadersOk fs := by
  refine ⟨noDupParams_of_all_free fs h, fun i => Or.inl ?_⟩
  by_cases hi : i < fs.length
  · rw [List.getD_eq_getElem _ _ hi]
    exact h _ (List.getElem_mem _)
  · rw [List.getD_eq_default _ _ (Nat.le_of_not_lt hi)]
    rfl

theorem stepFader_param (env : Env) (p : Player) (f : ParameterFader) :
    (stepFader env p f).2.1.param = f.param ∨ (stepFader env p f).2.1.param = 0 := by
  cases hs : f.stops with
  | false =>
    rw [stepFader_next env p f hs]
    exact next_param f
  | true =>
    left
    unfold ParameterFader.stops at hs
    unfold stepFader
    dsimp only
    rw [advance_param] at hs ⊢
    simp only [decide_eq_true_eq] at hs
    obtain ⟨h1, h2, h3, h4⟩ := hs
    rw [if_neg h1, if_neg h2, if_pos h3, if_pos (by rw [h4]; decide), if_pos h4]
    rfl

theorem stepFaders_paramsFade (env : Env) (fs : List ParameterFader) (p : Player) :
    ParamsFade fs (stepFaders env p fs).2.1 := by
  induction fs generalizing p with
  | nil => exact ⟨rfl, fun _ => Or.inl rfl⟩
  | cons f fs ih =>
    rw [stepFaders_cons]
    split_ifs
    · refine ⟨rfl, fun i => ?_⟩
      cases i with
      | zero => exact stepFader_param env p f
      | succ i => exact Or.inl rfl
    · obtain ⟨hl, hi⟩ := ih (stepFader env p f).1
      refine ⟨by simp only [List.length_cons, hl], fun i => ?_⟩
      cases i with
      | zero => exact stepFader_param env p f
      | succ i => exact hi i

theorem fadeQuantum_paramsFade (env : Env) (p : Player) :
    ParamsFade p._parameterFaders (fadeQuantum env p).1._parameterFaders := by
  unfold fadeQuantum
  exact stepFaders_paramsFade env _ p

theorem transitionLoop_paramsFade (env : Env) (fuel : Nat) (p : Player) :
    ParamsFade p._parameterFaders (transitionLoop env fuel p)._parameterFaders := by
  induction fuel generalizing p with
  | zero => exact paramsFade_refl _
  | succ n ih =>
    have h := fadeQuantum_paramsFade env
      { p with _transitionTimer := p._transitionTimer - 16667 }
    simp only at h
    rw [transitionLoop_succ]
    split_ifs
    · exact h
    · exact paramsFade_trans _ _ _ h (ih _)
    · exact paramsFade_refl _

theorem transitionParameters_paramsFade (env : Env) (p : Player) :
    ParamsFade p._parameterFaders (p.transitionParameters env)._parameterFaders := by
  unfold Player.transitionParameters
  exact transitionLoop_paramsFade env _ _

theorem findFaderSlot_none (param : Int) (fs : List ParameterFader) :
    ∀ (i : Nat) (best : Option Nat), findFaderSlot param i best fs = none →
      best = none ∧ ∀ f, f ∈ fs → f.param ≠ param := by
  induction fs with
  | nil =>
    intro i best h
    simp only [findFaderSlot] at h
    exact ⟨h, by simp⟩
  | cons f fs ih =>
    intro i best h
    simp only [findFaderSlot] at h
    split_ifs at h with h1 h2
    · exact absurd (ih (i + 1) (some i) h).1 (by simp)
    · obtain ⟨hb, hall⟩ := ih (i + 1) best h
      refine ⟨hb, ?_⟩
      intro g hg
      rcases List.mem_cons.mp hg with rfl | hg
      · exact h1
      · exact hall g hg

theorem getD_set_eq (fs : List ParameterFader) (j : Nat) (f0 : ParameterFader) (i : Nat) :
    (fs.set j f0).getD i ParameterFader.zero =
      if i = j ∧ j < fs.length then f0 else fs.getD i ParameterFader.zero := by
  simp only [List.getD_eq_getElem?_getD, List.getElem?_set]
  by_cases h1 : j = i
  · subst h1
    by_cases h2 : j < fs.length
    · simp [h2]
    · simp [h2, List.getElem?_eq_none (Nat.le_of_not_lt h2)]
  · have h3 : ¬ (i = j ∧ j < fs.length) := fun h => h1 h.1.symm
    simp [h1, h3]

theorem fadeable_ne_zero (x : Int)
    (h : x = ParameterFader.pfVolume ∨ x = ParameterFader.pfTranspose ∨
      x = ParameterFader.pfSpeed) : x ≠ 0 := by
  rcases h with h | h | h <;> rw [h] <;> decide

/-- The three ways `addParameterFader` returns: the slots untouched (with
return code 0, or -1 when no slot was found for a fadeable id), one slot set
up for a fadeable id, or all slots freed by id 127. -/
theorem addParameterFader_cases (env : Env) (p q : Player) (param target time r : Int)
    (h : p.addParameterFader env param target time = some (q, r)) :
    (q._parameterFaders = p._parameterFaders ∧
      (r = 0 ∨ (r = -1 ∧ findFaderSlot param 0 none p._parameterFaders = none))) ∨
    (∃ j, (param = ParameterFader.pfVolume ∨ param = ParameterFader.pfTranspose ∨
        param = ParameterFader.pfSpeed) ∧
      findFaderSlot param 0 none p._parameterFaders = some j ∧
      q._parameterFaders =
        p._parameterFaders.set j (newFader param (p.faderStart param) target time) ∧ r = 0) ∨
    (param = 127 ∧ q._parameterFaders = p._parameterFaders.map ParameterFader.init ∧ r = 0) := by
  have halloc : ∀ start : Int,
      (param = ParameterFader.pfVolume ∨ param = ParameterFader.pfTranspose ∨
        param = ParameterFader.pfSpeed) → start = p.faderStart param →
      (match findFaderSlot param 0 none p._parameterFaders with
        | some j =>
          if time = 0 ∨ target - start < -2147483647 ∨ target - start > 2147483647 then none
          else some (p.setFader j (newFader param start target time), 0)
        | none => some (p, -1)) = some (q, r) →
      (q._parameterFaders = p._parameterFaders ∧
        (r = 0 ∨ (r = -1 ∧ findFaderSlot param 0 none p._parameterFaders = none))) ∨
      (∃ j, (param = ParameterFader.pfVolume ∨ param = ParameterFader.pfTranspose ∨
          param = ParameterFader.pfSpeed) ∧
        findFaderSlot param 0 none p._parameterFaders = some j ∧
        q._parameterFaders =
          p._parameterFaders.set j (newFader param (p.faderStart param) target time) ∧
        r = 0) ∨
      (param = 127 ∧ q._parameterFaders = p._parameterFaders.map ParameterFader.init ∧
        r = 0) := by
    intro start hp hstart hm
    cases hfind : findFaderSlot param 0 none p._parameterFaders with
    | none =>
      rw [hfind] at hm
      simp only [Option.some.injEq, Prod.mk.injEq] at hm
      exact Or.inl ⟨by rw [← hm.1], Or.inr ⟨hm.2.symm, rfl⟩⟩
    | some j =>
      rw [hfind] at hm
      simp only at hm
      split_ifs at hm
      simp only [Option.some.injEq, Prod.mk.injEq] at hm
      refine Or.inr (Or.inl ⟨j, hp, rfl, ?_, hm.2.symm⟩)
      rw [← hm.1, hstart]
      rfl
  unfold Player.addParameterFader at h
  simp only at h
  by_cases h1 : param = ParameterFader.pfVolume
  · rw [if_pos h1] at h
    by_cases h2 : time = 0
    · rw [if_pos h2] at h
      simp only [Option.some.injEq, Prod.mk.injEq] at h
      refine Or.inl ⟨?_, Or.inl h.2.symm⟩
      rw [← h.1]
      unfold Player.setVolume
      split_ifs <;> rfl
    · rw [if_neg h2] at h
      have hst : (p._volume : Int) = p.faderStart param := by
        unfold Player.faderStart
        rw [if_pos h1]
      exact halloc _ (Or.inl h1) hst h
  · rw [if_neg h1] at h
    by_cases h3 : param = ParameterFader.pfTranspose
    · rw [if_pos h3] at h
      by_cases h2 : time = 0
      · rw [if_pos h2] at h
        simp only [Option.some.injEq, Prod.mk.injEq] at h
        refine Or.inl ⟨?_, Or.inl h.2.symm⟩
        rw [← h.1]
        rfl
      · rw [if_neg h2] at h
        have hst : p._detune = p.faderStart param := by
          unfold Player.faderStart
          rw [if_neg h1, if_pos h3]
        exact halloc _ (Or.inr (Or.inl h3)) hst h
    · rw [if_neg h3] at h
      by_cases h5 : param = ParameterFader.pfSpeed
      · rw [if_pos h5] at h
        have hst : (p._speed : Int) = p.faderStart param := by
          unfold Player.faderStart
          rw [if_neg h1, if_neg h3]
        exact halloc _ (Or.inr (Or.inr h5)) hst h
      · rw [if_neg h5] at h
        by_cases h6 : param = 127
        · rw [if_pos h6] at h
          simp only [Option.some.injEq, Prod.mk.injEq] at h
          exact Or.inr (Or.inr ⟨h6, by rw [← h.1], h.2.symm⟩)
        · rw [if_neg h6] at h
          simp only [Option.some.injEq, Prod.mk.injEq] at h
          exact Or.inl ⟨by rw [← h.1], Or.inl h.2.symm⟩

theorem newFader_param (param start target time : Int) :
    (newFader param start target time).param = param := rfl

/-- Setting up the slot the search found keeps the invariant. -/
theorem fadersOk_set (fs : List ParameterFader) (param : Int) (j : Nat) (f0 : ParameterFader)
    (hp : param = ParameterFader.pfVolume ∨ param = ParameterFader.pfTranspose ∨
      param = ParameterFader.pfSpeed)
    (hf0 : f0.param = param) (hok : FadersOk fs)
    (hj : findFaderSlot param 0 none fs = some j) : FadersOk (fs.set j f0) := by
  have hp0 := fadeable_ne_zero param hp
  have hjl := (findFaderSlot_spec param fs j hj).1
  have hother : ∀ i, i ≠ j → i < fs.length →
      (fs.getD i ParameterFader.zero).param ≠ param := by
    intro i hi hil
    apply other_slots_ne fs param j hp0 hok.1 hj i _ hi
    rw [List.getD_eq_getElem _ _ hil, List.getElem?_eq_getElem hil]
  refine ⟨?_, fun i => ?_⟩
  · intro i k hi hk hik hne
    rw [List.length_set] at hi hk
    rw [getD_set_eq, getD_set_eq] at *
    by_cases h1 : i = j
    · have h2 : ¬ (k = j ∧ j < fs.length) := fun h => hik (h1.trans h.1.symm)
      rw [if_pos ⟨h1, hjl⟩, if_neg h2, hf0]
      exact fun e => hother k (fun e2 => hik (h1.trans e2.symm)) hk e.symm
    · have h2 : ¬ (i = j ∧ j < fs.length) := fun h => h1 h.1
      rw [if_neg h2] at hne ⊢
      by_cases h3 : k = j
      · rw [if_pos ⟨h3, hjl⟩, hf0]
        exact hother i h1 hi
      · have h4 : ¬ (k = j ∧ j < fs.length) := fun h => h3 h.1
        rw [if_neg h4]
        exact hok.1 i k hi hk hik hne
  · rw [getD_set_eq]
    split_ifs
    · rw [hf0]
      exact Or.inr hp
    · exact hok.2 i

theorem fadersOk_map_init (fs : List ParameterFader) :
    FadersOk (fs.map ParameterFader.init) := by
  apply fadersOk_of_all_free
  intro f hf
  obtain ⟨g, -, rfl⟩ := List.mem_map.mp hf
  rfl

theorem fadersOk_addParameterFader (env : Env) (p q : Player) (param target time r : Int)
    (hok : FadersOk p._parameterFaders)
    (h : p.addParameterFader env param target time = some (q, r)) :
    FadersOk q._parameterFaders := by
  rcases addParameterFader_cases env p q param target time r h with
    ⟨hq, -⟩ | ⟨j, hp, hj, hq, -⟩ | ⟨-, hq, -⟩
  · rw [hq]; exact hok
  · rw [hq]; exact fadersOk_set _ param j _ hp (newFader_param _ _ _ _) hok hj
  · rw [hq]; exact fadersOk_map_init _

/-- Every player reached by fades from free slots satisfies the slot invariant. -/
theorem fadersOk_of_reach (env : Env) (p : Player) (h : FaderReach env p) :
    FadersOk p._parameterFaders := by
  induction h with
  | free p h => exact fadersOk_of_all_free _ h
  | add p q param target time r _ h ih => exact fadersOk_addParameterFader env p q _ _ _ _ ih h
  | transition p _ ih =>
    exact fadersOk_of_paramsFade _ _ (transitionParameters_paramsFade env p) ih

theorem toInt16_eq_add (a : Int) : ∃ m : Int, toInt16 a = a + 65536 * m := by
  refine ⟨-((a + 32768) / 65536), ?_⟩
  unfold toInt16
  omega

theorem toInt16_congr (x y m : Int) (h : x = y + 65536 * m) : toInt16 x = toInt16 y := by
  unfold toInt16
  omega

theorem tdiv_natAbs (d : Int) (T : Nat) :
    Int.tdiv d T = (if d ≥ 0 then 1 else -1) * ((d.natAbs / T : Nat) : Int) := by
  by_cases h : d ≥ 0
  · obtain ⟨n, rfl⟩ := Int.eq_ofNat_of_zero_le h
    rw [if_pos h, Int.natAbs_ofNat, one_mul, Int.ofNat_tdiv]
  · obtain ⟨n, rfl⟩ : ∃ n : Nat, d = -(n : Int) := ⟨d.natAbs, by omega⟩
    rw [if_neg h, Int.neg_tdiv, Int.natAbs_neg, Int.natAbs_ofNat, Int.ofNat_tdiv]
    ring

theorem natAbs_eq_dir_mul (d : Int) : d = (if d ≥ 0 then 1 else -1) * (d.natAbs : Int) := by
  by_cases h : d ≥ 0
  · rw [if_pos h]; omega
  · rw [if_neg h]; omega

/-- The state of the slot `newFader` sets up, `T` ordinary steps later, is the
target (as an `int16`). -/
theorem newFader_at_time_state (param start target : Int) (T : Nat) (hT : 0 < T)
    (hT2 : T ≤ 32768) :
    ((newFader param start target T).at T).state = toInt16 target := by
  have hT16 : toUint16 (T : Int) = T := toUint16_natCast _ (by omega)
  have hmod : (target - start).natAbs % T < T := Nat.mod_lt _ hT
  have hfr : toUint16 (Int.tmod ((target - start).natAbs : Int) T) =
      (target - start).natAbs % T := by
    rw [← Int.ofNat_tmod, toUint16_natCast _ (by omega)]
  obtain ⟨m1, hm1⟩ := toInt16_eq_add start
  obtain ⟨m2, hm2⟩ := toInt16_eq_add (Int.tdiv (target - start) T)
  have hdm := Nat.div_add_mod (target - start).natAbs T
  have hcancel : T * ((target - start).natAbs % T) / T = (target - start).natAbs % T :=
    Nat.mul_div_cancel_left _ hT
  unfold ParameterFader.at newFader
  dsimp only
  rw [hT16, hfr, hcancel, hm1, hm2, tdiv_natAbs]
  apply toInt16_congr _ _ (m1 + T * m2)
  have hd := natAbs_eq_dir_mul (target - start)
  have hdm2 : ((target - start).natAbs : Int) =
      (T : Int) * (((target - start).natAbs / T : Nat) : Int) +
        (((target - start).natAbs % T : Nat) : Int) := by
    rw [← Nat.cast_mul, ← Nat.cast_add, hdm]
  generalize (if target - start ≥ 0 then (1 : Int) else -1) = s at hd ⊢
  generalize (((target - start).natAbs / T : Nat) : Int) = q at hdm2 ⊢
  generalize (((target - start).natAbs % T : Nat) : Int) = r at hdm2 ⊢
  rw [hdm2] at hd
  have : target = start + s * ((T : Int) * q + r) := by omega
  rw [this]
  ring

/-- Shape of the slot `newFader` sets up for `0 < T ≤ 32768`: the premises of
the closed form. -/
theorem newFader_fresh (param start target : Int) (T : Nat) (hT : 0 < T) (hT2 : T ≤ 32768) :
    (newFader param start target T).param = param ∧
    (newFader param start target T).ttime = T ∧
    (newFader param start target T).ifrac < (newFader param start target T).ttime ∧
    (newFader param start target T).ttime + (newFader param start target T).ifrac ≤ 65536 ∧
    (newFader param start target T).irem = 0 ∧
    (newFader param start target T).cntdwn = (newFader param start target T).ttime ∧
    toInt16 (newFader param start target T).state = (newFader param start target T).state := by
  have hT16 : toUint16 (T : Int) = T := toUint16_natCast _ (by omega)
  have hmod : (target - start).natAbs % T < T := Nat.mod_lt _ hT
  have hfr : toUint16 (Int.tmod ((target - start).natAbs : Int) T) =
      (target - start).natAbs % T := by
    rw [← Int.ofNat_tmod, toUint16_natCast _ (by omega)]
  unfold newFader
  dsimp only
  rw [hT16, hfr]
  refine ⟨rfl, rfl, hmod, by omega, rfl, rfl, ?_⟩
  unfold toInt16
  omega

/-- The fade is exact where the accumulator cannot wrap: for a fadeable
parameter, a time `0 < T ≤ 32768` and a target within `int16`, with a slot at
hand, `addParameterFader` returns 0 and, while the player stays active, the
slot keeps the parameter through the first `T - 1` quanta and after quantum `T`
is free with its state equal to the target. -/
theorem fade_reaches_target (env : Env) (p : Player) (param target : Int) (T j : Nat)
    (hp : param = ParameterFader.pfVolume ∨ param = ParameterFader.pfTranspose ∨
      param = ParameterFader.pfSpeed)
    (hT : 0 < T) (hT2 : T ≤ 32768) (ht1 : -32768 ≤ target) (ht2 : target ≤ 32767)
    (hd : -2147483647 ≤ target - p.faderStart param ∧ target - p.faderStart param ≤ 2147483647)
    (hj : findFaderSlot param 0 none p._parameterFaders = some j)
    (hact : ∀ i, i ≤ T →
      (runQuanta env i (p.setFader j (newFader param (p.faderStart param) target T)))._active
        = true) :
    p.addParameterFader env param target T =
        some (p.setFader j (newFader param (p.faderStart param) target T), 0) ∧
    (∀ k, k < T →
      ((runQuanta env k (p.setFader j (newFader param (p.faderStart param) target T))
        )._parameterFaders.getD j ParameterFader.zero).param = param) ∧
    ((runQuanta env T (p.setFader j (newFader param (p.faderStart param) target T))
        )._parameterFaders.getD j ParameterFader.zero).param = 0 ∧
    ((runQuanta env T (p.setFader j (newFader param (p.faderStart param) target T))
        )._parameterFaders.getD j ParameterFader.zero).state = target := by
  have hjl := (findFaderSlot_spec param _ j hj).1
  obtain ⟨f1, f2, f3, f4, f5, f6, f7⟩ := newFader_fresh param (p.faderStart param) target T hT hT2
  have hslot : ∀ k, k ≤ T →
      ((runQuanta env k (p.setFader j (newFader param (p.faderStart param) target T))
        )._parameterFaders.getD j ParameterFader.zero) =
        (newFader param (p.faderStart param) target T).at k := by
    intro k hk
    rw [runQuanta_faders env k _ (fun i hi => hact i (Nat.le_trans hi hk))]
    show ((p._parameterFaders.set j _).map _).getD j ParameterFader.zero = _
    rw [getD_set_map_self _ _ _ _ hjl]
    exact iterate_next_eq_at _ (by rw [f1]; exact hp) f3 f4 f5 f6 f7 k (by rw [f2]; exact hk)
  refine ⟨addParameterFader_alloc env p param target T j hp (by omega) hd hj, ?_, ?_, ?_⟩
  · intro k hk
    rw [hslot k (Nat.le_of_lt hk), at_param_ne _ k (by rw [f2]; exact hk), f1]
  · rw [hslot T (Nat.le_refl _)]
    unfold ParameterFader.at
    dsimp only
    rw [f2, if_neg (Nat.lt_irrefl _)]
  · rw [hslot T (Nat.le_refl _), newFader_at_time_state _ _ _ T hT hT2]
    exact toInt16_of_range _ ht1 ht2

theorem fade_reaches_target_witness :
    ((0 : Nat) < 7 ∧ findFaderSlot ParameterFader.pfTranspose 0 none
        exampleDetuned._parameterFaders = some 3) ∧
    ((runQuanta (exampleEnv 16) 7 (exampleDetuned.setFader 3
      (newFader ParameterFader.pfTranspose (exampleDetuned.faderStart ParameterFader.pfTranspose)
        (-2400) (7 : Nat))))._parameterFaders.getD 3 ParameterFader.zero).state = -2400 :=
  ⟨⟨by decide, by decide⟩,
   (fade_reaches_target (exampleEnv 16) exampleDetuned ParameterFader.pfTranspose (-2400) 7 3
      (by decide) (by decide) (by decide) (by decide) (by decide) (by decide) (by decide)
      (by decide)).2.2.2⟩

/-! ## Conditional commands -/

@[simp]
theorem hook_jump (env : Env) (p : Player) (track beat tick : Nat) :
    (p.jump env track beat tick).1._hook = p._hook := by
  unfold Player.jump
  split
  · rfl
  · dsimp only
    split_ifs <;> rfl

@[simp]
theorem hook_getPart (env : Env) (p : Player) (chan : Nat) :
    (p.getPart env chan).1._hook = p._hook := by
  unfold Player.getPart
  split
  · rfl
  · split <;> rfl

@[simp]
theorem hook_updatePart (p : Player) (i : Nat) (f : Player → Part → Part) :
    (p.updatePart i f)._hook = p._hook := by
  unfold Player.updatePart
  split <;> rfl

/-- C12: a conditional command whose gate byte `g` is non-zero and differs from
the value armed in its hook slot returns the player exactly as it was: no
effect, no part requested, every hook value and every other field unchanged.
The channel of the per-channel commands is below 16. -/
theorem gate_mismatch_noop (env : Env) (p : Player) (g track beat tick rel b chan v : Nat)
    (rest : List Nat) (hg : g ≠ 0) (hchan : chan < 16) :
    (p._hook._jump0 ≠ g → p.maybe_jump env g track beat tick = p) ∧
    (p._hook._transpose ≠ g → p.maybe_set_transpose env (g :: rel :: b :: rest) = p) ∧
    (p._hook._part_onoff.getD chan 0 ≠ g →
      p.maybe_part_onoff env (chan :: g :: v :: rest) = some p) ∧
    (p._hook._part_volume.getD chan 0 ≠ g →
      p.maybe_set_volume env (chan :: g :: v :: rest) = some p) ∧
    (p._hook._part_program.getD chan 0 ≠ g →
      p.maybe_set_program env (chan :: g :: v :: rest) = some p) ∧
    (p._hook._part_transpose.getD chan 0 ≠ g →
      p.maybe_set_transpose_part env (chan :: g :: rel :: b :: rest) = some p) := by
  have hc : ¬ chan ≥ 16 := by omega
  refine ⟨?_, ?_, ?_, ?_, ?_, ?_⟩
  · intro h
    unfold Player.maybe_jump
    rw [if_pos ⟨hg, h⟩]
  · intro h
    unfold Player.maybe_set_transpose
    simp only [List.getD_cons_zero]
    rw [if_pos ⟨hg, h⟩]
  · intro h
    unfold Player.maybe_part_onoff
    simp only [List.getD_cons_zero, List.getD_cons_succ]
    rw [if_neg hc, if_pos ⟨hg, h⟩]
  · intro h
    unfold Player.maybe_set_volume
    simp only [List.getD_cons_zero, List.getD_cons_succ]
    rw [if_neg hc, if_pos ⟨hg, h⟩]
  · intro h
    unfold Player.maybe_set_program
    simp only [List.getD_cons_zero, List.getD_cons_succ]
    rw [if_neg hc, if_pos ⟨hg, h⟩]
  · intro h
    unfold Player.maybe_set_transpose_part
    simp only [List.getD_cons_zero, List.getD_cons_succ]
    rw [if_neg hc, if_pos ⟨hg, h⟩]

theorem gate_mismatch_noop_witness :
    ((9 : Nat) ≠ 0 ∧ (3 : Nat) < 16 ∧ exampleHooked._hook._jump0 ≠ 9 ∧
      exampleHooked._hook._part_volume.getD 3 0 ≠ 9) ∧
    exampleHooked.maybe_jump (exampleEnv 16) 9 0 2 0 = exampleHooked ∧
    exampleHooked.maybe_set_volume (exampleEnv 16) [3, 9, 100] = some exampleHooked :=
  have h := gate_mismatch_noop (exampleEnv 16) exampleHooked 9 0 2 0 0 0 3 100 []
    (by decide) (by decide)
  ⟨by decide, h.1 (by decide), h.2.2.2.1 (by decide)⟩

/-- C14 (amended): when the gate byte `g` is in 1..127 and equals the armed jump
hook value, `maybe_jump` performs the jump on the player whose jump hook has
taken the value of the second jump slot `_jump[1]`, that second slot being 0
afterwards; when the second slot was 0 the armed jump value is 0 afterwards
and a further `maybe_jump` with any non-zero gate byte changes nothing. -/
theorem maybe_jump_match (env : Env) (p : Player) (g track beat tick : Nat)
    (hg1 : 1 ≤ g) (hg2 : g ≤ 127) (h : p._hook._jump0 = g) :
    p.maybe_jump env g track beat tick =
      (Player.jump env
        { p with _hook := { p._hook with _jump0 := p._hook._jump1, _jump1 := 0 } }
        track beat tick).1 ∧
    (p.maybe_jump env g track beat tick)._hook =
      { p._hook with _jump0 := p._hook._jump1, _jump1 := 0 } ∧
    (p._hook._jump1 = 0 →
      (p.maybe_jump env g track beat tick)._hook._jump0 = 0 ∧
      ∀ g2 track2 beat2 tick2, g2 ≠ 0 →
        (p.maybe_jump env g track beat tick).maybe_jump env g2 track2 beat2 tick2 =
          p.maybe_jump env g track beat tick) := by
  have hm : p.maybe_jump env g track beat tick =
      (Player.jump env
        { p with _hook := { p._hook with _jump0 := p._hook._jump1, _jump1 := 0 } }
        track beat tick).1 := by
    unfold Player.maybe_jump
    rw [if_neg (fun hh => hh.2 h), if_pos ⟨by omega, by omega⟩]
  have hh : (p.maybe_jump env g track beat tick)._hook =
      { p._hook with _jump0 := p._hook._jump1, _jump1 := 0 } := by
    rw [hm, hook_jump]
  refine ⟨hm, hh, ?_⟩
  intro h1
  have h0 : (p.maybe_jump env g track beat tick)._hook._jump0 = 0 := by
    rw [hh]
    exact h1
  refine ⟨h0, ?_⟩
  intro g2 track2 beat2 tick2 hg
  generalize p.maybe_jump env g track beat tick = q at h0
  unfold Player.maybe_jump
  rw [if_pos ⟨hg, by rw [h0]; exact fun e => hg e.symm⟩]

theorem maybe_jump_match_witness :
    ((1 : Nat) ≤ 5 ∧ (5 : Nat) ≤ 127 ∧ exampleArmed._hook._jump0 = 5 ∧
      exampleArmed._hook._jump1 = 0) ∧
    (exampleArmed.maybe_jump (exampleEnv 16) 5 0 2 0)._hook._jump0 = 0 ∧
    (exampleArmed.maybe_jump (exampleEnv 16) 5 0 2 0).maybe_jump (exampleEnv 16) 5 0 2 0 =
      exampleArmed.maybe_jump (exampleEnv 16) 5 0 2 0 :=
  have h := (maybe_jump_match (exampleEnv 16) exampleArmed 5 0 2 0 (by decide) (by decide)
    (by decide)).2.2 (by decide)
  ⟨by decide, h.1, h.2 5 0 2 0 (by decide)⟩

/-- C14 as stated fails when a second jump hook is queued: with 5 armed and 7 in
`_jump[1]`, `maybe_jump(5, ..)` leaves 7 armed, and a second `maybe_jump` with
gate byte 7 jumps again. -/
theorem maybe_jump_promotes_queued_hook :
    exampleHooked._hook._jump0 = 5 ∧
    (exampleHooked.maybe_jump (exampleEnv 16) 5 0 2 0)._hook._jump0 = 7 ∧
    (exampleHooked.maybe_jump (exampleEnv 16) 5 0 2 0).maybe_jump (exampleEnv 16) 7 0 3 0 ≠
      exampleHooked.maybe_jump (exampleEnv 16) 5 0 2 0 := by
  decide

theorem findPartIdx_cons_self (part : Part) (rest : List Part) :
    findPartIdx part._chan (part :: rest) = some 0 := by
  simp [findPartIdx]

theorem findPartIdx_eq_none (chan : Nat) (l : List Part) :
    findPartIdx chan l = none ↔ ∀ part, part ∈ l → part._chan ≠ chan := by
  induction l with
  | nil => simp [findPartIdx]
  | cons a l ih =>
    unfold findPartIdx
    by_cases h : a._chan = chan
    · simp [h]
    · simp [h, ih]

/-- C16: a part that `getPart(c)` returns (given by its position in the part
list) is returned again by an immediately following `getPart(c)`, whatever the
shared pool would answer then, and that second call leaves the player, its
part list included, as it is.  A part the player already owns on `c` is
returned without any change to the player; when it owns none and the pool
hands out a part, that part, set to channel `c` and set up, is the new head of
the list and the previous members follow in their order.  `Part::setup` keeps
the channel. -/
theorem getPart_idempotent (env env2 : Env) (p : Player) (c : Nat)
    (hsetup : ∀ q part, (env.partSetup q part)._chan = part._chan) :
    (∀ i, (p.getPart env c).2 = some i →
      (p.getPart env c).1.getPart env2 c = ((p.getPart env c).1, some i)) ∧
    (∀ i, p.getActivePart c = some i → p.getPart env c = (p, some i)) ∧
    (p.getActivePart c = none → ∀ part, env.allocate_part p._priority p._midi = some part →
      ∃ np, p.getPart env c = ({ p with _parts := np :: p._parts }, some 0) ∧ np._chan = c) := by
  have hfound : ∀ i, p.getActivePart c = some i → p.getPart env c = (p, some i) := by
    intro i hi
    unfold Player.getPart
    rw [hi]
  have hnew : p.getActivePart c = none → ∀ part,
      env.allocate_part p._priority p._midi = some part →
      ∃ np, p.getPart env c = ({ p with _parts := np :: p._parts }, some 0) ∧ np._chan = c := by
    intro hn part hp
    have hq : p.getPart env c =
        ({ p with _parts := (p.getPart env c).1._parts.headD part :: p._parts }, some 0) := by
      unfold Player.getPart
      rw [hn, hp]
      rfl
    refine ⟨(p.getPart env c).1._parts.headD part, hq, ?_⟩
    unfold Player.getPart
    rw [hn, hp]
    simp only [List.headD_cons]
    rw [hsetup]
  refine ⟨?_, hfound, hnew⟩
  intro i hi
  cases ha : p.getActivePart c with
  | some j =>
    rw [hfound j ha] at hi ⊢
    simp only [Option.some.injEq] at hi
    subst hi
    unfold Player.getPart
    rw [ha]
  | none =>
    cases hp : env.allocate_part p._priority p._midi with
    | none =>
      have : p.getPart env c = (p, none) := by
        unfold Player.getPart
        rw [ha, hp]
      rw [this] at hi
      exact absurd hi (by simp)
    | some part =>
      obtain ⟨np, hnp, hc⟩ := hnew ha part hp
      rw [hnp] at hi ⊢
      simp only [Option.some.injEq] at hi
      subst hi
      have hf : Player.getActivePart { p with _parts := np :: p._parts } c = some 0 := by
        unfold Player.getActivePart
        simp [findPartIdx, hc]
      unfold Player.getPart
      rw [hf]

theorem getPart_idempotent_witness :
    (∀ q part, ((exampleEnv 16).partSetup q part)._chan = part._chan) ∧
    (exampleWithParts.getPart (exampleEnv 16) 2 = (exampleWithParts, some 1)) ∧
    (exampleWithParts.getPart (exampleEnv 16) 7).1._parts =
      [examplePart 7, examplePart 4, examplePart 2] ∧
    (exampleWithParts.getPart (exampleEnv 16) 7).1.getPart exampleDottEnv 7 =
      ((exampleWithParts.getPart (exampleEnv 16) 7).1, some 0) :=
  have h := getPart_idempotent (exampleEnv 16) exampleDottEnv exampleWithParts 7
    (fun _ _ => rfl)
  ⟨fun _ _ => rfl, by decide, by decide, h.1 0 (by decide)⟩

/-! ## Queries and rejected requests -/

theorem find?_eq_none_of_getActivePart (p : Player) (chan : Nat)
    (h : p.getActivePart chan = none) :
    p._parts.find? (fun part => decide (part._chan = chan)) = none := by
  unfold Player.getActivePart at h
  rw [findPartIdx_eq_none] at h
  rw [List.find?_eq_none]
  intro part hp
  simpa using h part hp

/-- C18: for a parameter code below 0 or above 23 `getParam` returns -1; for
the codes 14, 15 and 17 with a channel on which the player owns no part it
returns 129; and for every code and channel the player is unchanged. -/
theorem getParam_sentinels (env : Env) (p : Player) (param : Int) (chan : Nat) :
    ((param < 0 ∨ param > 23) → p.getParam env param chan = (p, some (-1))) ∧
    ((param = 14 ∨ param = 15 ∨ param = 17) → p.getActivePart chan = none →
      p.getParam env param chan = (p, some 129)) ∧
    (p.getParam env param chan).1 = p := by
  refine ⟨?_, ?_, ?_⟩
  · intro h
    cases param with
    | negSucc k => rfl
    | ofNat n =>
      have hn : 24 ≤ n := by
        rcases h with h | h
        · exact absurd h (by simp [Int.ofNat_eq_coe])
        · simp only [Int.ofNat_eq_coe] at h
          omega
      obtain ⟨k, rfl⟩ := Nat.exists_eq_add_of_le hn
      rw [Nat.add_comm]
      rfl
  · intro h hn
    have hf := find?_eq_none_of_getActivePart p chan hn
    rcases h with h | h | h <;> subst h
    · show (p, p.query_part_param 14 chan) = _
      unfold Player.query_part_param
      rw [hf]
    · show (p, p.query_part_param 15 chan) = _
      unfold Player.query_part_param
      rw [hf]
    · show (p, p.query_part_param 17 chan) = _
      unfold Player.query_part_param
      rw [hf]
  · unfold Player.getParam
    split
    · rfl
    · split <;> rfl

/-- C19: `setVolume(vol)` with `vol > 127` returns -1 and leaves the player
(volume, effective volume and parts included) as it is, and returns 0
otherwise; `setTranspose(relative, b)` with `b > 24`, `b < -24` or
`relative > 1` returns -1 and leaves the player (transpose and parts
included) as it is, and returns 0 otherwise. -/
theorem out_of_range_rejected (env : Env) (p : Player) (vol relative : Nat) (b : Int) :
    (vol > 127 → p.setVolume env vol = (p, -1)) ∧
    (vol ≤ 127 → (p.setVolume env vol).2 = 0) ∧
    ((b > 24 ∨ b < -24 ∨ relative > 1) → p.setTranspose env relative b = (p, -1)) ∧
    (¬ (b > 24 ∨ b < -24 ∨ relative > 1) → (p.setTranspose env relative b).2 = 0) := by
  refine ⟨?_, ?_, ?_, ?_⟩
  · intro h
    unfold Player.setVolume
    rw [if_pos h]
  · intro h
    unfold Player.setVolume
    rw [if_neg (by omega)]
  · intro h
    unfold Player.setTranspose
    rw [if_pos h]
  · intro h
    unfold Player.setTranspose
    rw [if_neg h]

theorem getParam_sentinels_witness :
    exampleWithParts.getParam (exampleEnv 16) (-3) 4 = (exampleWithParts, some (-1)) ∧
    exampleWithParts.getParam (exampleEnv 16) 24 4 = (exampleWithParts, some (-1)) ∧
    exampleWithParts.getActivePart 7 = none ∧
    exampleWithParts.getParam (exampleEnv 16) 15 7 = (exampleWithParts, some 129) ∧
    exampleWithParts.getParam (exampleEnv 16) 15 4 = (exampleWithParts, some 127) :=
  ⟨(getParam_sentinels (exampleEnv 16) exampleWithParts (-3) 4).1 (Or.inl (by decide)),
    (getParam_sentinels (exampleEnv 16) exampleWithParts 24 4).1 (Or.inr (by decide)),
    by decide,
    (getParam_sentinels (exampleEnv 16) exampleWithParts 15 7).2.1 (Or.inr (Or.inl rfl))
      (by decide),
    by decide⟩

theorem out_of_range_rejected_witness :
    examplePlayer.setVolume (exampleEnv 16) 128 = (examplePlayer, -1) ∧
    (examplePlayer.setVolume (exampleEnv 16) 127).2 = 0 ∧
    examplePlayer.setTranspose (exampleEnv 16) 0 25 = (examplePlayer, -1) ∧
    examplePlayer.setTranspose (exampleEnv 16) 2 0 = (examplePlayer, -1) ∧
    (examplePlayer.setTranspose (exampleEnv 16) 1 (-24)).2 = 0 :=
  ⟨(out_of_range_rejected (exampleEnv 16) examplePlayer 128 0 25).1 (by decide),
    (out_of_range_rejected (exampleEnv 16) examplePlayer 127 0 25).2.1 (by decide),
    (out_of_range_rejected (exampleEnv 16) examplePlayer 128 0 25).2.2.1 (Or.inl (by decide)),
    (out_of_range_rejected (exampleEnv 16) examplePlayer 128 2 0).2.2.1
      (Or.inr (Or.inr (by decide))),
    (out_of_range_rejected (exampleEnv 16) examplePlayer 128 1 (-24)).2.2.2 (by decide)⟩

theorem unlinkNext_links (s : PartStore) (part a : Nat) :
    (s.unlinkNext part).links a =
      if (s.links part)._next = some a then { s.links a with _prev := (s.links part)._prev }
      else s.links a := by
  unfold PartStore.unlinkNext
  cases hn : (s.links part)._next with
  | none => simp
  | some n =>
    by_cases h : a = n
    · subst h
      simp
    · have h2 : ¬ n = a := fun e => h e.symm
      simp [Function.update, h, h2]

theorem unlinkNext_parts (s : PartStore) (part : Nat) : (s.unlinkNext part)._parts = s._parts := by
  unfold PartStore.unlinkNext
  cases (s.links part)._next <;> rfl

theorem unlinkPrev_links (s : PartStore) (part a : Nat) :
    (s.unlinkPrev part).links a =
      if (s.links part)._prev = some a then { s.links a with _next := (s.links part)._next }
      else s.links a := by
  unfold PartStore.unlinkPrev
  cases hn : (s.links part)._prev with
  | none => simp
  | some n =>
    by_cases h : a = n
    · subst h
      simp
    · have h2 : ¬ n = a := fun e => h e.symm
      simp [Function.update, h, h2]

theorem unlinkPrev_parts (s : PartStore) (part : Nat) :
    (s.unlinkPrev part)._parts =
      if (s.links part)._prev = none then (s.links part)._next else s._parts := by
  unfold PartStore.unlinkPrev
  cases (s.links part)._prev <;> rfl

theorem unlinkNext_self (s : PartStore) (part : Nat) :
    (s.unlinkNext part).links part = s.links part := by
  rw [unlinkNext_links]
  split_ifs <;> rfl

theorem removePart_links_self (s : PartStore) (part : Nat) :
    (s.removePart part).links part = { s.links part with _next := none, _prev := none } := by
  unfold PartStore.removePart PartStore.clearLinks
  simp only [Function.update_same]
  rw [unlinkPrev_links, unlinkNext_self]
  split_ifs <;> rfl

theorem removePart_links_ne (s : PartStore) (part a : Nat) (ha : a ≠ part) :
    (s.removePart part).links a =
      { _chan := (s.links a)._chan,
        _next := if (s.links part)._prev = some a then (s.links part)._next else (s.links a)._next,
        _prev := if (s.links part)._next = some a then (s.links part)._prev
          else (s.links a)._prev } := by
  unfold PartStore.removePart PartStore.clearLinks
  simp only [Function.update_noteq ha]
  rw [unlinkPrev_links, unlinkNext_self, unlinkNext_links]
  split_ifs <;> rfl

theorem removePart_parts (s : PartStore) (part : Nat) :
    (s.removePart part)._parts =
      if (s.links part)._prev = none then (s.links part)._next else s._parts := by
  unfold PartStore.removePart PartStore.clearLinks
  simp only
  rw [unlinkPrev_parts, unlinkNext_self, unlinkNext_parts]

theorem removePart_chan (s : PartStore) (part a : Nat) :
    ((s.removePart part).links a)._chan = (s.links a)._chan := by
  by_cases ha : a = part
  · subst ha
    rw [removePart_links_self]
  · rw [removePart_links_ne s part a ha]


/-! ### Well-formed lists -/

theorem isPartList_unique (s : PartStore) :
    ∀ (l l2 : List Nat) (prev prev2 cur : Option Nat),
      IsPartList s prev cur l → IsPartList s prev2 cur l2 → l = l2 := by
  intro l
  induction l with
  | nil =>
    intro l2 prev prev2 cur h h2
    cases l2 with
    | nil => rfl
    | cons b t =>
      simp only [IsPartList] at h h2
      rw [h] at h2
      exact absurd h2.1 (by simp)
  | cons a t ih =>
    intro l2 prev prev2 cur h h2
    cases l2 with
    | nil =>
      simp only [IsPartList] at h h2
      rw [h2] at h
      exact absurd h.1 (by simp)
    | cons b t2 =>
      simp only [IsPartList] at h h2
      have hab : a = b := by
        have := h.1.symm.trans h2.1
        simpa using this
      subst hab
      rw [ih t2 _ _ _ h.2.2 h2.2.2]

theorem isPartList_mem_of_some (s : PartStore) (l : List Nat) (prev : Option Nat) (a : Nat)
    (h : IsPartList s prev (some a) l) : a ∈ l := by
  cases l with
  | nil =>
    simp only [IsPartList] at h
    exact absurd h (by simp)
  | cons b t =>
    simp only [IsPartList] at h
    have : a = b := by simpa using h.1
    subst this
    exact List.mem_cons_self _ _

theorem isPartList_suffix (s : PartStore) (part : Nat) (l2 : List Nat) :
    ∀ (l1 : List Nat) (prev cur : Option Nat), IsPartList s prev cur (l1 ++ part :: l2) →
      IsPartList s (some part) (s.links part)._next l2 := by
  intro l1
  induction l1 with
  | nil =>
    intro prev cur h
    simp only [List.nil_append, IsPartList] at h
    exact h.2.2
  | cons a t ih =>
    intro prev cur h
    simp only [List.cons_append, IsPartList] at h
    exact ih _ _ h.2.2

theorem isPartList_prev_of_part (s : PartStore) (part : Nat) (l2 : List Nat) :
    ∀ (l1 : List Nat) (prev cur : Option Nat), IsPartList s prev cur (l1 ++ part :: l2) →
      (l1 = [] → (s.links part)._prev = prev) ∧
      (l1 ≠ [] → ∃ m, m ∈ l1 ∧ (s.links part)._prev = some m) := by
  intro l1
  induction l1 with
  | nil =>
    intro prev cur h
    simp only [List.nil_append, IsPartList] at h
    exact ⟨fun _ => h.2.1, fun hne => absurd rfl hne⟩
  | cons a t ih =>
    intro prev cur h
    simp only [List.cons_append, IsPartList] at h
    refine ⟨fun e => absurd e (by simp), fun _ => ?_⟩
    have hi := ih _ _ h.2.2
    by_cases ht : t = []
    · exact ⟨a, List.mem_cons_self _ _, hi.1 ht⟩
    · obtain ⟨m, hm, hp⟩ := hi.2 ht
      exact ⟨m, List.mem_cons_of_mem _ hm, hp⟩

theorem isPartList_nodup (s : PartStore) :
    ∀ (l : List Nat) (prev cur : Option Nat), IsPartList s prev cur l → l.Nodup := by
  intro l
  induction l with
  | nil => intro _ _ _; exact List.nodup_nil
  | cons a t ih =>
    intro prev cur h
    simp only [IsPartList] at h
    refine List.nodup_cons.mpr ⟨?_, ih _ _ h.2.2⟩
    intro ha
    obtain ⟨t1, t2, rfl⟩ := List.append_of_mem ha
    have hs := isPartList_suffix s a t2 t1 _ _ h.2.2
    have he := isPartList_unique s _ _ _ _ _ hs h.2.2
    have hl := congrArg List.length he
    simp only [List.length_append, List.length_cons] at hl
    omega

/-! ### Removing a part -/

theorem removePart_keeps_list (s : PartStore) (part : Nat) :
    ∀ (l : List Nat) (prev cur : Option Nat), IsPartList s prev cur l → part ∉ l →
      (∀ a, a ∈ l → (s.links part)._prev ≠ some a) →
      (∀ a, a ∈ l → (s.links part)._next ≠ some a) →
      IsPartList (s.removePart part) prev cur l := by
  intro l
  induction l with
  | nil => intro prev cur h _ _ _; exact h
  | cons a t ih =>
    intro prev cur h hpart hP hN
    simp only [IsPartList] at h ⊢
    have ha : a ≠ part := fun e => hpart (e ▸ List.mem_cons_self _ _)
    rw [removePart_links_ne s part a ha]
    simp only [if_neg (hP a (List.mem_cons_self _ _)), if_neg (hN a (List.mem_cons_self _ _))]
    refine ⟨h.1, h.2.1, ih _ _ h.2.2 (fun hm => hpart (List.mem_cons_of_mem _ hm))
      (fun b hb => hP b (List.mem_cons_of_mem _ hb))
      (fun b hb => hN b (List.mem_cons_of_mem _ hb))⟩

theorem removePart_relinks_suffix (s : PartStore) (part : Nat) (l2 : List Nat)
    (h : IsPartList s (some part) (s.links part)._next l2) (hpart : part ∉ l2)
    (hP : ∀ a, a ∈ l2 → (s.links part)._prev ≠ some a) :
    IsPartList (s.removePart part) (s.links part)._prev (s.links part)._next l2 := by
  have hnd := isPartList_nodup s l2 _ _ h
  cases l2 with
  | nil => exact h
  | cons n t =>
    simp only [IsPartList] at h ⊢
    have hn : n ≠ part := fun e => hpart (e ▸ List.mem_cons_self _ _)
    rw [removePart_links_ne s part n hn]
    simp only [if_neg (hP n (List.mem_cons_self _ _)), if_pos h.1]
    refine ⟨h.1, trivial, removePart_keeps_list s part t _ _ h.2.2
      (fun hm => hpart (List.mem_cons_of_mem _ hm))
      (fun b hb => hP b (List.mem_cons_of_mem _ hb)) ?_⟩
    intro b hb e
    rw [h.1] at e
    have : n = b := by simpa using e
    subst this
    exact (List.nodup_cons.mp hnd).1 hb

theorem removePart_relinks (s : PartStore) (part : Nat) (l2 : List Nat) :
    ∀ (l1 : List Nat) (prev cur : Option Nat), IsPartList s prev cur (l1 ++ part :: l2) →
      (∀ a, a ∈ l1 ++ part :: l2 → prev ≠ some a) →
      IsPartList (s.removePart part) prev (if l1 = [] then (s.links part)._next else cur)
        (l1 ++ l2) := by
  intro l1
  induction l1 with
  | nil =>
    intro prev cur h hprev
    have hnd := isPartList_nodup s _ _ _ h
    simp only [List.nil_append] at h hprev hnd ⊢
    simp only [IsPartList] at h
    rw [if_pos trivial]
    have := removePart_relinks_suffix s part l2 h.2.2 (List.nodup_cons.mp hnd).1
      (fun a ha => by rw [h.2.1]; exact hprev a (List.mem_cons_of_mem _ ha))
    rw [h.2.1] at this
    exact this
  | cons a t ih =>
    intro prev cur h hprev
    have hnd := isPartList_nodup s _ _ _ h
    simp only [List.cons_append] at h hprev hnd ⊢
    have hat := (List.nodup_cons.mp hnd).1
    simp only [IsPartList] at h ⊢
    rw [if_neg (by simp)]
    have ha : a ≠ part := by
      intro e
      apply hat
      rw [e]
      simp
    have hsuf := isPartList_suffix s part l2 t _ _ h.2.2
    have hN : (s.links part)._next ≠ some a := by
      intro e
      rw [e] at hsuf
      have := isPartList_mem_of_some s l2 _ a hsuf
      exact hat (by simp [this])
    have hPf := isPartList_prev_of_part s part l2 t _ _ h.2.2
    rw [removePart_links_ne s part a ha]
    simp only [if_neg hN]
    refine ⟨h.1, h.2.1, ?_⟩
    have hi := ih (some a) (s.links a)._next h.2.2 (fun b hb e => by
      have : a = b := by simpa using e
      subst this
      exact hat hb)
    by_cases ht : t = []
    · rw [if_pos (hPf.1 ht)]
      rw [if_pos ht] at hi
      exact hi
    · obtain ⟨m, hm, hp⟩ := hPf.2 ht
      have hne : (s.links part)._prev ≠ some a := by
        rw [hp]
        intro e
        have : m = a := by simpa using e
        subst this
        exact hat (by simp [hm])
      rw [if_neg hne]
      rw [if_neg ht] at hi
      exact hi

theorem walk_eq_find (s : PartStore) (chan : Nat) :
    ∀ (l : List Nat) (prev cur : Option Nat) (fuel : Nat), IsPartList s prev cur l →
      l.length ≤ fuel →
      s.walk chan fuel cur = some (l.find? (fun a => decide ((s.links a)._chan = chan))) := by
  intro l
  induction l with
  | nil =>
    intro prev cur fuel h _
    simp only [IsPartList] at h
    subst h
    cases fuel <;> rfl
  | cons a t ih =>
    intro prev cur fuel h hf
    simp only [IsPartList] at h
    obtain ⟨k, rfl⟩ : ∃ k, fuel = k + 1 := ⟨fuel - 1, by simp at hf; omega⟩
    rw [h.1]
    unfold PartStore.walk
    by_cases hc : (s.links a)._chan = chan
    · simp [hc]
    · rw [if_neg hc, ih _ _ k h.2.2 (by simp at hf; omega)]
      simp [hc]


theorem filter_ne_append_cons (part : Nat) (l1 l2 : List Nat) (h1 : part ∉ l1) (h2 : part ∉ l2) :
    (l1 ++ part :: l2).filter (fun a => decide (a ≠ part)) = l1 ++ l2 := by
  have e1 : l1.filter (fun a => decide (a ≠ part)) = l1 := by
    rw [List.filter_eq_self]
    intro a ha
    have : a ≠ part := fun e => h1 (e ▸ ha)
    simpa using this
  have e2 : l2.filter (fun a => decide (a ≠ part)) = l2 := by
    rw [List.filter_eq_self]
    intro a ha
    have : a ≠ part := fun e => h2 (e ▸ ha)
    simpa using this
  rw [List.filter_append, List.filter_cons, e1, e2]
  simp

/-- C17: for a well-formed part list `l` of a player (a doubly linked list from
the head `_parts`, the first `_prev` and the last `_next` being null) and a
part of it, `removePart(part)` leaves a well-formed doubly linked list of
exactly the other parts in their previous order, with the head moved to the
part's successor when the part was first and kept otherwise; the part's own
`_next` and `_prev` are null; no channel changes; and `getActivePart`, for
every channel, terminates within `l.length` steps with the first other part
of that channel, never with the removed part. -/
theorem removePart_unlinks (s : PartStore) (l : List Nat) (part : Nat)
    (hwf : IsPartList s none s._parts l) (hmem : part ∈ l) :
    IsPartList (s.removePart part) none (s.removePart part)._parts
      (l.filter (fun a => decide (a ≠ part))) ∧
    (l.head? = some part → (s.removePart part)._parts = (s.links part)._next) ∧
    (l.head? ≠ some part → (s.removePart part)._parts = s._parts) ∧
    ((s.removePart part).links part)._next = none ∧
    ((s.removePart part).links part)._prev = none ∧
    (∀ a, ((s.removePart part).links a)._chan = (s.links a)._chan) ∧
    (∀ chan, (s.removePart part).getActivePart chan l.length =
        some ((l.filter (fun a => decide (a ≠ part))).find?
          (fun a => decide ((s.links a)._chan = chan))) ∧
      (s.removePart part).getActivePart chan l.length ≠ some (some part)) := by
  have hnd := isPartList_nodup s l _ _ hwf
  obtain ⟨l1, l2, rfl⟩ := List.append_of_mem hmem
  have hnd2 := hnd
  rw [List.nodup_append] at hnd2
  have h1 : part ∉ l1 := fun h => hnd2.2.2 h (List.mem_cons_self _ _)
  have h2 : part ∉ l2 := (List.nodup_cons.mp hnd2.2.1).1
  have hf := filter_ne_append_cons part l1 l2 h1 h2
  have hB := removePart_relinks s part l2 l1 none s._parts hwf (fun _ _ => by simp)
  have hP := isPartList_prev_of_part s part l2 l1 _ _ hwf
  have hhead : (s.removePart part)._parts =
      if l1 = [] then (s.links part)._next else s._parts := by
    rw [removePart_parts]
    by_cases hl : l1 = []
    · rw [if_pos (hP.1 hl), if_pos hl]
    · obtain ⟨m, _, hm⟩ := hP.2 hl
      rw [if_neg (by rw [hm]; simp), if_neg hl]
  have hlist : IsPartList (s.removePart part) none (s.removePart part)._parts (l1 ++ l2) := by
    rw [hhead]
    exact hB
  have hwalk : ∀ chan, (s.removePart part).getActivePart chan (l1 ++ part :: l2).length =
      some ((l1 ++ l2).find? (fun a => decide ((s.links a)._chan = chan))) := by
    intro chan
    unfold PartStore.getActivePart
    rw [walk_eq_find (s.removePart part) chan (l1 ++ l2) _ _ _ hlist (by simp)]
    simp only [removePart_chan]
  rw [hf]
  refine ⟨hlist, ?_, ?_, ?_, ?_, removePart_chan s part, ?_⟩
  · intro hh
    cases l1 with
    | nil => rw [hhead, if_pos rfl]
    | cons a t =>
      simp only [List.cons_append, List.head?_cons, Option.some.injEq] at hh
      exact absurd (hh ▸ List.mem_cons_self _ _) h1
  · intro hh
    cases l1 with
    | nil => exact absurd (by simp) hh
    | cons a t => rw [hhead, if_neg (by simp)]
  · rw [removePart_links_self]
  · rw [removePart_links_self]
  · intro chan
    refine ⟨hwalk chan, ?_⟩
    rw [hwalk chan]
    intro e
    have hm := List.mem_of_find?_eq_some (Option.some.inj e)
    rcases List.mem_append.mp hm with h | h
    · exact h1 h
    · exact h2 h

theorem removePart_unlinks_witness :
    IsPartList exampleStore none exampleStore._parts [0, 1, 2] ∧ 1 ∈ [0, 1, 2] ∧
    IsPartList (exampleStore.removePart 1) none (exampleStore.removePart 1)._parts [0, 2] ∧
    ((exampleStore.removePart 1).links 1)._next = none ∧
    ((exampleStore.removePart 1).links 1)._prev = none ∧
    (exampleStore.removePart 1).getActivePart 2 3 = some none ∧
    (exampleStore.removePart 0)._parts = some 1 :=
  have h := removePart_unlinks exampleStore [0, 1, 2] 1 (by decide) (by decide)
  ⟨by decide, by decide, h.1, h.2.2.2.1, h.2.2.2.2.1, (h.2.2.2.2.2.2 2).1, by decide⟩

/-! ## Start parameters -/

/-- C22: `loadStartParameters` with no secondary header chunk, with a chunk of
size 0, or with a chunk whose priority, volume and speed bytes are all zero
sets the engine defaults: priority 0x40 on the new scale and 0x80 on the legacy
scale, volume 127, pan, transpose and detune 0 (and the volume channel 0xFFFF
with its effective volume), and changes nothing else, the speed included.  In
every other case priority, volume, pan, transpose and detune are the bytes 2..6
of the chunk data (pan and transpose as signed bytes), and the result is that
of `setSpeed` with byte 7. -/
theorem loadStartParameters_cases (env : Env) (p : Player) (sound : Int) :
    (env.findMDhd sound = none →
      p.loadStartParameters env sound =
        { p with _priority := if env.newSystem then 64 else 128, _volume := 127,
                 _vol_chan := 65535,
                 _vol_eff := (env.get_channel_volume 65535 * 128 / 128) % 256,
                 _pan := 0, _transpose := 0, _detune := 0 }) ∧
    (∀ ptr, env.findMDhd sound = some ptr →
      (readBE32 ptr 4 = 0 ∨ (ptr.getD 10 0 = 0 ∧ ptr.getD 11 0 = 0 ∧ ptr.getD 15 0 = 0)) →
      p.loadStartParameters env sound =
        { p with _priority := if env.newSystem then 64 else 128, _volume := 127,
                 _vol_chan := 65535,
                 _vol_eff := (env.get_channel_volume 65535 * 128 / 128) % 256,
                 _pan := 0, _transpose := 0, _detune := 0 }) ∧
    (∀ ptr, env.findMDhd sound = some ptr → readBE32 ptr 4 ≠ 0 →
      ¬ (ptr.getD 10 0 = 0 ∧ ptr.getD 11 0 = 0 ∧ ptr.getD 15 0 = 0) →
      p.loadStartParameters env sound =
        Player.setSpeed env
          { p with _priority := ptr.getD 10 0, _volume := ptr.getD 11 0,
                   _vol_chan := 65535,
                   _vol_eff := (env.get_channel_volume 65535 * 128 / 128) % 256,
                   _pan := toInt8 (ptr.getD 12 0), _transpose := toInt8 (ptr.getD 13 0),
                   _detune := ptr.getD 14 0 }
          (ptr.getD 15 0)) := by
  refine ⟨?_, ?_, ?_⟩
  · intro h
    unfold Player.loadStartParameters
    simp only [h]
  · intro ptr h hz
    unfold Player.loadStartParameters
    simp only [h]
    rw [if_neg]
    intro hh
    rcases hz with hz | hz
    · exact hh.1 hz
    · exact hh.2 hz
  · intro ptr h hs hb
    unfold Player.loadStartParameters
    simp only [h]
    rw [if_pos ⟨hs, hb⟩]

theorem loadStartParameters_cases_witness :
    (examplePlayer.loadStartParameters (exampleEnv 16) 9)._priority = 128 ∧
    (examplePlayer.loadStartParameters (exampleEnv 16) 8)._volume = 127 ∧
    (examplePlayer.loadStartParameters (exampleEnv 16) 8)._speed = examplePlayer._speed ∧
    examplePlayer.loadStartParameters (exampleEnv 16) 7 =
      Player.setSpeed (exampleEnv 16)
        { examplePlayer with _priority := 1, _volume := 50, _vol_chan := 65535, _vol_eff := 127,
                             _pan := -56, _transpose := -5, _detune := 3 } 200 :=
  have h := loadStartParameters_cases (exampleEnv 16) examplePlayer 7
  ⟨by decide, by decide, by decide,
    h.2.2 [77, 68, 104, 100, 0, 0, 0, 8, 0, 0, 1, 50, 200, 251, 3, 200] rfl (by decide)
      (by decide)⟩

/-! ## Calls that touch the part list only -/

theorem getPart_only_parts (env : Env) (p : Player) (chan : Nat) :
    (p.getPart env chan).1 = { p with _parts := (p.getPart env chan).1._parts } := by
  unfold Player.getPart
  cases p.getActivePart chan with
  | some i => rfl
  | none =>
    cases env.allocate_part p._priority p._midi with
    | none => rfl
    | some part => rfl

theorem updatePart_only_parts (p : Player) (i : Nat) (f : Player → Part → Part) :
    p.updatePart i f = { p with _parts := (p.updatePart i f)._parts } := by
  unfold Player.updatePart
  cases p._parts[i]? with
  | some part => rfl
  | none => rfl

theorem withPart_only_parts (env : Env) (p : Player) (chan : Nat) (f : Player → Part → Part) :
    p.withPart env chan f = { p with _parts := (p.withPart env chan f)._parts } := by
  unfold Player.withPart
  cases h : (p.getPart env chan).2 with
  | some i =>
    simp only
    rw [updatePart_only_parts, getPart_only_parts]
  | none =>
    simp only
    rw [getPart_only_parts]

theorem controlChange_cases (env : Env) (p : Player) (chan param1 param2 : Nat)
    (P : Player → Prop)
    (h1 : P (if param1 = 123 then (p, p.getActivePart chan) else p.getPart env chan).1)
    (h2 : ∀ i f,
      P ((if param1 = 123 then (p, p.getActivePart chan) else p.getPart env chan).1.updatePart
        i f)) :
    P (p.controlChange env chan param1 param2).1 := by
  unfold Player.controlChange
  simp only []
  generalize (if param1 = 123 then (p, p.getActivePart chan) else p.getPart env chan) = r
    at h1 h2 ⊢
  split
  · exact h1
  · by_cases c0 : param1 = 0
    · rw [if_pos c0]; exact h1
    rw [if_neg c0]
    by_cases c1 : param1 = 1
    · rw [if_pos c1]; exact h2 _ _
    rw [if_neg c1]
    by_cases c7 : param1 = 7
    · rw [if_pos c7]; exact h2 _ (fun q part => env.partVolume q part param2)
    rw [if_neg c7]
    by_cases c10 : param1 = 10
    · rw [if_pos c10]; exact h2 _ _
    rw [if_neg c10]
    by_cases c16 : param1 = 16
    · rw [if_pos c16]; exact h2 _ _
    rw [if_neg c16]
    by_cases c17 : param1 = 17
    · rw [if_pos c17]; by_cases hn : env.newSystem = true
      · rw [if_pos hn]; exact h2 _ _
      · rw [if_neg hn]; exact h2 _ (fun q part => env.partSetDetune q part ((param2 : Int) - 64))
    rw [if_neg c17]
    by_cases c18 : param1 = 18
    · rw [if_pos c18]; exact h2 _ _
    rw [if_neg c18]
    by_cases c64 : param1 = 64
    · rw [if_pos c64]; exact h2 _ (fun q part => env.partSustain q part (decide (param2 ≠ 0)))
    rw [if_neg c64]
    by_cases c91 : param1 = 91
    · rw [if_pos c91]; exact h2 _ _
    rw [if_neg c91]
    by_cases c93 : param1 = 93
    · rw [if_pos c93]; exact h2 _ _
    rw [if_neg c93]
    by_cases c116 : param1 = 116
    · rw [if_pos c116]; exact h1
    rw [if_neg c116]
    by_cases c117 : param1 = 117
    · rw [if_pos c117]; exact h1
    rw [if_neg c117]
    by_cases c123 : param1 = 123
    · rw [if_pos c123]; exact h2 _ _
    rw [if_neg c123]
    exact h1

theorem controlChange_only_parts (env : Env) (p : Player) (chan param1 param2 : Nat) :
    ∃ parts, (p.controlChange env chan param1 param2).1 = { p with _parts := parts } := by
  have h0 : ∃ parts,
      (if param1 = 123 then (p, p.getActivePart chan) else p.getPart env chan).1 =
        { p with _parts := parts } := by
    split
    · exact ⟨p._parts, rfl⟩
    · exact ⟨_, getPart_only_parts env p chan⟩
  apply controlChange_cases env p chan param1 param2
    (fun q => ∃ parts, q = { p with _parts := parts })
  · exact h0
  · intro i f
    obtain ⟨parts, hp⟩ := h0
    generalize (if param1 = 123 then (p, p.getActivePart chan) else p.getPart env chan).1 = q
      at hp
    subst hp
    exact ⟨_, updatePart_only_parts _ i f⟩

/-! ## Events that are rejected or ignored -/

/-- C25: for an event whose status top nibble is in 0..7, `send` outside scanning
mode calls `error()`, which does not return: the `clear()` written after it is
never reached, so the player is the one of the call, not the one `clear()`
leaves (an active player is still active and keeps its parts); in scanning mode
nothing changes and no error is raised; for the top nibbles 0xA, 0xD and 0xF
nothing changes and no error is raised in either mode.  The note bitmap is
unchanged in all these cases. -/
theorem send_other_nibbles (env : Env) (p : Player) (notes : List Nat) (b : Nat) :
    (b / 16 % 16 ≤ 7 → p._scanning = false →
      p.send env notes b = some ⟨p, notes, true⟩ ∧
      (p._active = true → p ≠ p.clear env ∧ (p.clear env)._active = false ∧
        (p.clear env)._parts = [])) ∧
    (b / 16 % 16 ≤ 7 → p._scanning = true → p.send env notes b = some ⟨p, notes, false⟩) ∧
    ((b / 16 % 16 = 10 ∨ b / 16 % 16 = 13 ∨ b / 16 % 16 = 15) →
      p.send env notes b = some ⟨p, notes, false⟩) := by
  refine ⟨?_, ?_, ?_⟩
  · intro h hs
    refine ⟨?_, ?_⟩
    · unfold Player.send
      simp only
      rw [if_neg (by omega), if_neg (by omega), if_neg (by omega), if_neg (by omega),
        if_neg (by omega), if_neg (by omega)]
      simp [hs]
    · intro ha
      have hc : (p.clear env)._active = false ∧ (p.clear env)._parts = [] := by
        simp [Player.clear, ha]
      refine ⟨fun e => ?_, hc⟩
      rw [← e, ha] at hc
      exact absurd hc.1 (by decide)
  · intro h hs
    unfold Player.send
    simp only
    rw [if_neg (by omega), if_neg (by omega), if_neg (by omega), if_neg (by omega),
      if_neg (by omega), if_neg (by omega)]
    simp [hs]
  · intro h
    unfold Player.send
    simp only
    rw [if_neg (by omega), if_neg (by omega), if_neg (by omega), if_neg (by omega),
      if_neg (by omega), if_pos h]

theorem send_other_nibbles_witness :
    (exampleWithParts._active = true ∧ exampleWithParts._scanning = false ∧
      exampleWithParts._parts ≠ []) ∧
    exampleWithParts.send (exampleEnv 16) (List.replicate 128 0) 0x50 =
      some ⟨exampleWithParts, List.replicate 128 0, true⟩ ∧
    exampleWithParts ≠ exampleWithParts.clear (exampleEnv 16) ∧
    exampleWithParts.send (exampleEnv 16) (List.replicate 128 0) 0x4030D1 =
      some ⟨exampleWithParts, List.replicate 128 0, false⟩ :=
  have h := send_other_nibbles (exampleEnv 16) exampleWithParts (List.replicate 128 0) 0x50
  have h2 := send_other_nibbles (exampleEnv 16) exampleWithParts (List.replicate 128 0) 0x4030D1
  ⟨⟨by decide, by decide, by decide⟩, (h.1 (by decide) (by decide)).1,
    ((h.1 (by decide) (by decide)).2 (by decide)).1, h2.2.2 (by decide)⟩

/-- The controller numbers that `send` knows. -/
theorem controlChange_unknown (env : Env) (p : Player) (chan param1 param2 : Nat)
    (h : param1 ∉ [0, 1, 7, 10, 16, 17, 18, 64, 91, 93, 116, 117, 123]) :
    p.controlChange env chan param1 param2 =
      ((p.getPart env chan).1, (p.getPart env chan).2.isSome) := by
  simp only [List.mem_cons, List.mem_singleton, List.not_mem_nil, or_false, not_or] at h
  obtain ⟨h0, h1, h7, h10, h16, h17, h18, h64, h91, h93, h116, h117, h123⟩ := h
  unfold Player.controlChange
  simp only [if_neg h123]
  cases (p.getPart env chan).2 with
  | none => rfl
  | some i =>
    simp only
    rw [if_neg h0, if_neg h1, if_neg h7, if_neg h10, if_neg h16, if_neg h17, if_neg h18,
      if_neg h64, if_neg h91, if_neg h93, if_neg h116, if_neg h117]
    rfl

/-- C24 (amended): a control-change event whose controller number is none of
0, 1, 7, 10, 16, 17, 18, 64, 91, 93, 116, 117, 123 is handled alike in
scanning mode and outside it: `send` asks `getPart` for the part of the
channel; the player afterwards is the one `getPart` leaves (a part handed out
by the pool is linked in, nothing else changes), and `error()` is called
exactly when a part came back, that is, when the player owned a part on the
channel or the pool handed one out.  The note bitmap is unchanged. -/
theorem send_unknown_controller (env : Env) (p : Player) (notes : List Nat) (b : Nat)
    (htop : b / 16 % 16 = 11)
    (hctl : b / 256 % 256 ∉ [0, 1, 7, 10, 16, 17, 18, 64, 91, 93, 116, 117, 123]) :
    p.send env notes b =
      some ⟨(p.getPart env (b % 16)).1, notes, (p.getPart env (b % 16)).2.isSome⟩ ∧
    ((p.getPart env (b % 16)).2.isSome = true ↔
      (p.getActivePart (b % 16) ≠ none ∨ env.allocate_part p._priority p._midi ≠ none)) ∧
    (p.getPart env (b % 16)).1 = { p with _parts := (p.getPart env (b % 16)).1._parts } ∧
    ((p.getPart env (b % 16)).2 = none → (p.getPart env (b % 16)).1 = p) := by
  refine ⟨?_, ?_, getPart_only_parts env p _, ?_⟩
  · unfold Player.send
    simp only
    rw [if_neg (by omega), if_neg (by omega), if_pos htop,
      controlChange_unknown env p _ _ _ hctl]
  · unfold Player.getPart
    cases p.getActivePart (b % 16) with
    | some i => simp
    | none =>
      cases env.allocate_part p._priority p._midi with
      | none => simp
      | some part => simp
  · unfold Player.getPart
    cases p.getActivePart (b % 16) with
    | some i => simp
    | none =>
      cases env.allocate_part p._priority p._midi with
      | none => simp
      | some part => simp

theorem send_unknown_controller_witness :
    (0x4002B7 / 16 % 16 = 11 ∧ 0x4002B7 / 256 % 256 = 2) ∧
    (exampleScanning.send (exampleEnv 16) (List.replicate 128 0) 0x4002B7).map
      (fun r => (r.player._parts.length, r.error)) = some (3, true) :=
  have h := send_unknown_controller (exampleEnv 16) exampleScanning (List.replicate 128 0)
    0x4002B7 (by decide) (by decide)
  ⟨by decide, by rw [h.1]; decide⟩

/-- C24 as stated fails: a scanning player that owns a part on channel 4 gets a
control change of the unknown controller 2 on that channel, and `error()` is
called as it is outside scanning mode. -/
theorem send_unknown_controller_scanning_errors :
    exampleScanning._scanning = true ∧
    exampleScanning.send (exampleEnv 16) (List.replicate 128 0) 0x4002B4 =
      some ⟨exampleScanning, List.replicate 128 0, true⟩ ∧
    ({ exampleScanning with _scanning := false }).send (exampleEnv 16) (List.replicate 128 0)
        0x4002B4 =
      some ⟨{ exampleScanning with _scanning := false }, List.replicate 128 0, true⟩ := by
  decide

/-! ## Notes while scanning -/

theorem testBit_or_two_pow_self (x c : Nat) : (x ||| 2 ^ c).testBit c = true := by
  rw [Nat.testBit_or, Nat.testBit_two_pow_self, Bool.or_true]

theorem testBit_and_not_two_pow_self (x c : Nat) (hc : c < 16) :
    (x &&& (65535 ^^^ 2 ^ c)).testBit c = false := by
  have h : (65535 : Nat).testBit c = true := by
    have := Nat.testBit_two_pow_sub_one 16 c
    simpa [hc] using this
  rw [Nat.testBit_and, Nat.testBit_xor, Nat.testBit_two_pow_self, h]
  simp

theorem getD_set_self_of_lt (l : List Nat) (i v : Nat) (h : i < l.length) :
    (l.set i v).getD i 0 = v := by
  simp [List.getD_eq_getElem?_getD, List.getElem?_set_self h]

theorem getD_set_of_ne (l : List Nat) (i j v : Nat) (h : i ≠ j) :
    (l.set i v).getD j 0 = l.getD j 0 := by
  simp [List.getD_eq_getElem?_getD, List.getElem?_set_ne h]

/-- C27: in scanning mode a note-on for channel `c` and key `k` sets bit `c` of the
entry `(byte)(k + _note_offset)` of the note bitmap, while the note-off for
`(c, k)` clears bit `c` of the entry `k`: the note-off does not add the note
offset.  Both leave the player as it is.  When the offset moves the key
(`(byte)(k + _note_offset) ≠ k`, the entry being inside the array), the bit the
note-on set is still set after the note-off, so `play_active_notes` replays
that note; when the offset leaves the key in place, the bit is clear. -/
theorem scan_note_on_off (env : Env) (p : Player) (notes : List Nat) (c k v1 v2 : Nat)
    (hs : p._scanning = true) (hc : c < 16) (hk : k < 128) (hlen : notes.length = 128)
    (hk2 : toByte (k + p._note_offset) < 128) :
    ∃ r1 r2,
      p.send env notes (144 + c + 256 * k + 65536 * v1) = some r1 ∧
      r1.player.send env r1.notes (128 + c + 256 * k + 65536 * v2) = some r2 ∧
      r1.player = p ∧ r2.player = p ∧ r1.error = false ∧ r2.error = false ∧
      (r1.notes.getD (toByte (k + p._note_offset)) 0).testBit c = true ∧
      (toByte (k + p._note_offset) = k → (r2.notes.getD k 0).testBit c = false) ∧
      (toByte (k + p._note_offset) ≠ k →
        (r2.notes.getD (toByte (k + p._note_offset)) 0).testBit c = true) := by
  have e1 : (144 + c + 256 * k + 65536 * v1) / 16 % 16 = 9 := by omega
  have e2 : (144 + c + 256 * k + 65536 * v1) % 16 = c := by omega
  have e3 : (144 + c + 256 * k + 65536 * v1) / 256 % 256 = k := by omega
  have f1 : (128 + c + 256 * k + 65536 * v2) / 16 % 16 = 8 := by omega
  have f2 : (128 + c + 256 * k + 65536 * v2) % 16 = c := by omega
  have f3 : (128 + c + 256 * k + 65536 * v2) / 256 % 256 = k := by omega
  have hon : p.send env notes (144 + c + 256 * k + 65536 * v1) =
      some ⟨p, notes.set (toByte (k + p._note_offset))
        (notes.getD (toByte (k + p._note_offset)) 0 ||| 2 ^ c), false⟩ := by
    unfold Player.send
    simp only [e1, e2, e3]
    simp [hs, hk2]
  have hoff : ∀ ns : List Nat, p.send env ns (128 + c + 256 * k + 65536 * v2) =
      some ⟨p, ns.set k (ns.getD k 0 &&& (65535 ^^^ 2 ^ c)), false⟩ := by
    intro ns
    unfold Player.send
    simp only [f1, f2, f3]
    simp [hs, hk]
  refine ⟨_, _, hon, hoff _, rfl, rfl, rfl, rfl, ?_, ?_, ?_⟩
  · simp only
    rw [getD_set_self_of_lt _ _ _ (by omega)]
    exact testBit_or_two_pow_self _ _
  · intro he
    simp only
    rw [getD_set_self_of_lt _ _ _ (by rw [List.length_set]; omega)]
    exact testBit_and_not_two_pow_self _ _ hc
  · intro hne
    simp only
    rw [getD_set_of_ne _ _ _ _ (fun e => hne e.symm), getD_set_self_of_lt _ _ _ (by omega)]
    exact testBit_or_two_pow_self _ _

theorem scan_note_on_off_witness :
    (exampleOffset._scanning = true ∧ toByte (60 + exampleOffset._note_offset) = 61) ∧
    ∃ r1 r2,
      exampleOffset.send (exampleEnv 16) (List.replicate 128 0) 0x503C90 = some r1 ∧
      r1.player.send (exampleEnv 16) r1.notes 0x003C80 = some r2 ∧
      (r2.notes.getD 61 0).testBit 0 = true :=
  have h := scan_note_on_off (exampleEnv 16) exampleOffset (List.replicate 128 0) 0 60 80 0
    (by decide) (by decide) (by decide) (List.length_replicate _ _) (by decide)
  ⟨by decide,
    h.elim fun r1 h1 => h1.elim fun r2 h2 =>
      ⟨r1, r2, h2.1, h2.2.1, h2.2.2.2.2.2.2.2.2 (by decide)⟩⟩

/-! ## Stopping -/

theorem uninitLoop_terminates (env : Env)
    (huninit : ∀ q, env.partUninit q = { q with _parts := q._parts.tail }) :
    ∀ (n : Nat) (p : Player), p._parts.length ≤ n →
      uninitLoop env n p = some { p with _parts := [] } := by
  intro n
  induction n with
  | zero =>
    intro p hp
    have : p._parts = [] := List.eq_nil_of_length_eq_zero (by omega)
    unfold uninitLoop
    rw [if_pos this]
    cases p
    simp only at this
    subst this
    rfl
  | succ n ih =>
    intro p hp
    unfold uninitLoop
    by_cases h : p._parts = []
    · rw [if_pos h]
      cases p
      simp only at h
      subst h
      rfl
    · rw [if_neg h]
      simp only
      rw [ih (env.partUninit p) (by rw [huninit]; simp; omega), huninit]

/-- C29: `clear()` on an active player leaves it inactive with an empty part list,
id 0, note offset 0 and the speed 64 on the new scale, 128 on the legacy
scale; on an inactive player it changes nothing.  `metaEvent` is `clear()` for
the meta type 0x2F and changes nothing for every other type, so it stops an
active player exactly for the type 0x2F.  The loop of `uninit_parts`
(`Part::uninit` unlinking the head of the list) ends within as many steps as
the player owns parts, with the empty list and nothing else changed. -/
theorem clear_stops (env : Env) (p : Player) (type : Nat) :
    (p._active = true →
      (p.clear env)._active = false ∧ (p.clear env)._parts = [] ∧ (p.clear env)._id = 0 ∧
      (p.clear env)._note_offset = 0 ∧
      (p.clear env)._speed = (if env.newSystem then 64 else 128) ∧
      ((p.metaEvent env type)._active = false ↔ type = 47)) ∧
    (p._active = false → p.clear env = p) ∧
    p.metaEvent env 47 = p.clear env ∧
    (type ≠ 47 → p.metaEvent env type = p) ∧
    ((∀ q, env.partUninit q = { q with _parts := q._parts.tail }) →
      p.uninit_parts env p._parts.length = some { p with _parts := [] }) := by
  refine ⟨?_, ?_, ?_, ?_, ?_⟩
  · intro ha
    have hc : (p.clear env)._active = false := by simp [Player.clear, ha]
    refine ⟨hc, by simp [Player.clear, ha], by simp [Player.clear, ha],
      by simp [Player.clear, ha], by simp [Player.clear, ha], ?_⟩
    unfold Player.metaEvent
    by_cases ht : type = 47
    · rw [if_pos ht]
      exact ⟨fun _ => ht, fun _ => hc⟩
    · rw [if_neg ht]
      exact ⟨fun h => absurd (ha.symm.trans h) (by decide), fun h => absurd h ht⟩
  · intro ha
    simp [Player.clear, ha]
  · simp [Player.metaEvent]
  · intro ht
    simp [Player.metaEvent, ht]
  · intro hu
    exact uninitLoop_terminates env hu _ p (Nat.le_refl _)

theorem clear_stops_witness :
    exampleWithParts._active = true ∧
    (exampleWithParts.clear (exampleEnv 16))._active = false ∧
    (exampleWithParts.clear (exampleEnv 16))._parts = [] ∧
    (exampleWithParts.clear (exampleEnv 16))._speed = 128 ∧
    ((exampleWithParts.metaEvent (exampleEnv 16) 81)._active = false ↔ 81 = 47) ∧
    exampleWithParts.uninit_parts (exampleEnv 16) 2 = some { exampleWithParts with _parts := [] } :=
  have h := clear_stops (exampleEnv 16) exampleWithParts 81
  ⟨by decide, (h.1 (by decide)).1, (h.1 (by decide)).2.1, (h.1 (by decide)).2.2.2.2.1,
    (h.1 (by decide)).2.2.2.2.2, h.2.2.2.2 (fun _ => rfl)⟩

/-! ## The delay after a system-exclusive message -/

theorem sysEx_flags (env : Env) (p : Player) (msg : List Nat) (len : Nat)
    (hkeep : ∀ handler, env.sysex = some handler → ∀ q m l,
      (handler q m l)._isMT32 = q._isMT32 ∧ (handler q m l)._scanning = q._scanning) :
    (p.sysEx env msg len)._isMT32 = p._isMT32 ∧ (p.sysEx env msg len)._scanning = p._scanning := by
  unfold Player.sysEx
  simp only []
  by_cases ha : msg.getD 0 0 ≠ 125
  · rw [if_pos ha]
    by_cases hr : msg.getD 0 0 = 65
    · rw [if_pos hr]
      by_cases hm : (p._isMIDI = true ∧ ¬ env.soundTypeAmiga = true) ∨ p._isMT32 = true
      · rw [if_pos hm, withPart_only_parts]
        exact ⟨rfl, rfl⟩
      · rw [if_neg hm]
        exact ⟨rfl, rfl⟩
    · rw [if_neg hr]
      exact ⟨rfl, rfl⟩
  · rw [if_neg ha]
    by_cases hl : ((len + 65535) % 65536 + 65535) % 65536 ≥ 128
    · rw [if_pos hl]
      exact ⟨rfl, rfl⟩
    · rw [if_neg hl]
      cases hh : env.sysex with
      | none => exact ⟨rfl, rfl⟩
      | some handler => exact hkeep handler hh _ _ _

/-- C23: `sysExNoDelay` returns 0 whenever the player is scanning or the sequence
is not of the MT-32 class, for every message; for an MT-32 sequence outside
scanning mode it returns 70 when `length >= 25` and 20 otherwise for a message
whose first byte is 0x41, or whose first byte is 0x7D and second byte 0, and 0
for every other message.  The flags are read after the call of `sysEx`; the
engine's handler `_se->_sysex` is taken to leave the two flags as they are. -/
theorem sysExNoDelay_delay (env : Env) (p : Player) (msg : List Nat) (length : Nat)
    (hkeep : ∀ handler, env.sysex = some handler → ∀ q m l,
      (handler q m l)._isMT32 = q._isMT32 ∧ (handler q m l)._scanning = q._scanning) :
    ((p._scanning = true ∨ p._isMT32 = false) → (p.sysExNoDelay env msg length).2 = 0) ∧
    (p._isMT32 = true → p._scanning = false →
      (msg.getD 0 0 = 65 ∨ (msg.getD 0 0 = 125 ∧ msg.getD 1 0 = 0)) →
      (p.sysExNoDelay env msg length).2 = if length ≥ 25 then 70 else 20) ∧
    (p._isMT32 = true → p._scanning = false →
      ¬ (msg.getD 0 0 = 65 ∨ (msg.getD 0 0 = 125 ∧ msg.getD 1 0 = 0)) →
      (p.sysExNoDelay env msg length).2 = 0) ∧
    (p.sysExNoDelay env msg length).1 = p.sysEx env msg length := by
  have hf := sysEx_flags env p msg length hkeep
  refine ⟨?_, ?_, ?_, ?_⟩
  · intro h
    unfold Player.sysExNoDelay
    simp only []
    rw [if_neg]
    rw [hf.1, hf.2]
    rintro ⟨h1, h2, _⟩
    rcases h with h | h
    · exact h2 h
    · rw [h] at h1
      exact absurd h1 (by decide)
  · intro h1 h2 hm
    unfold Player.sysExNoDelay
    simp only []
    rw [if_pos]
    rw [hf.1, hf.2]
    refine ⟨h1, by rw [h2]; decide, ?_⟩
    rcases hm with hm | hm
    · exact Or.inr hm
    · exact Or.inl hm
  · intro h1 h2 hm
    unfold Player.sysExNoDelay
    simp only []
    rw [if_neg]
    rintro ⟨_, _, h3⟩
    apply hm
    rcases h3 with h3 | h3
    · exact Or.inr h3
    · exact Or.inl h3
  · unfold Player.sysExNoDelay
    simp only []
    split <;> rfl

theorem sysExNoDelay_delay_witness :
    (exampleMT32.sysExNoDelay (exampleEnv 16) [125, 0, 3] 30).2 = 70 ∧
    (exampleMT32.sysExNoDelay (exampleEnv 16) [65, 16] 24).2 = 20 ∧
    (exampleMT32.sysExNoDelay (exampleEnv 16) [125, 1, 3] 30).2 = 0 ∧
    (({ exampleMT32 with _scanning := true }).sysExNoDelay (exampleEnv 16) [65, 16] 24).2 = 0 :=
  have hk : ∀ handler, (exampleEnv 16).sysex = some handler → ∀ q m l,
      (handler q m l)._isMT32 = q._isMT32 ∧ (handler q m l)._scanning = q._scanning := by
    intro handler hh q m l
    have : handler = fun p _ _ => { p with _music_tick := p._music_tick + 1 } :=
      (Option.some.inj hh).symm
    subst this
    exact ⟨rfl, rfl⟩
  ⟨by decide,
    ((sysExNoDelay_delay (exampleEnv 16) exampleMT32 [65, 16] 24 hk).2.1 (by decide) (by decide)
      (Or.inl (by decide))).trans (by decide),
    (sysExNoDelay_delay (exampleEnv 16) exampleMT32 [125, 1, 3] 30 hk).2.2.1 (by decide)
      (by decide) (by decide),
    (sysExNoDelay_delay (exampleEnv 16) { exampleMT32 with _scanning := true } [65, 16] 24
      hk).1 (Or.inl (by decide))⟩

/-! ## Scanning -/

/-- Whatever event `send` takes, it leaves the track index and the loop counter
of the player alone. -/
theorem send_position (env : Env) (p : Player) (notes : List Nat) (b : Nat) (r : SendResult)
    (h : p.send env notes b = some r) :
    r.player._track_index = p._track_index ∧ r.player._loop_counter = p._loop_counter := by
  have hw : ∀ chan f, (p.withPart env chan f)._track_index = p._track_index ∧
      (p.withPart env chan f)._loop_counter = p._loop_counter := by
    intro chan f
    rw [withPart_only_parts]
    exact ⟨rfl, rfl⟩
  have hg : ∀ chan, (p.getPart env chan).1._track_index = p._track_index ∧
      (p.getPart env chan).1._loop_counter = p._loop_counter := by
    intro chan
    rw [getPart_only_parts]
    exact ⟨rfl, rfl⟩
  have hcc : ∀ chan a c, (p.controlChange env chan a c).1._track_index = p._track_index ∧
      (p.controlChange env chan a c).1._loop_counter = p._loop_counter := by
    intro chan a c
    obtain ⟨parts, hp⟩ := controlChange_only_parts env p chan a c
    rw [hp]
    exact ⟨rfl, rfl⟩
  unfold Player.send at h
  simp only [] at h
  by_cases t8 : b / 16 % 16 = 8
  · rw [if_pos t8] at h
    by_cases hs : (!p._scanning) = true
    · rw [if_pos hs] at h
      cases h
      exact hw _ _
    · rw [if_neg hs] at h
      by_cases hk : b / 256 % 256 < 128
      · rw [if_pos hk] at h
        cases h
        exact ⟨rfl, rfl⟩
      · rw [if_neg hk] at h
        exact absurd h (by simp)
  rw [if_neg t8] at h
  by_cases t9 : b / 16 % 16 = 9
  · rw [if_pos t9] at h
    by_cases hs : (!p._scanning) = true
    · rw [if_pos hs] at h
      cases h
      exact hw _ _
    · rw [if_neg hs] at h
      by_cases hk : toByte (↑(b / 256 % 256) + p._note_offset) < 128
      · rw [if_pos hk] at h
        cases h
        exact ⟨rfl, rfl⟩
      · rw [if_neg hk] at h
        exact absurd h (by simp)
  rw [if_neg t9] at h
  by_cases t11 : b / 16 % 16 = 11
  · rw [if_pos t11] at h
    cases h
    exact hcc _ _ _
  rw [if_neg t11] at h
  by_cases t12 : b / 16 % 16 = 12
  · rw [if_pos t12] at h
    by_cases hm : p._isMIDI = true
    · rw [if_pos hm] at h
      by_cases hk : b / 256 % 256 < 128
      · rw [if_pos hk] at h
        cases h
        exact hw _ _
      · rw [if_neg hk] at h
        cases h
        exact hg _
    · rw [if_neg hm] at h
      by_cases hk : b / 256 % 256 < 32
      · rw [if_pos hk] at h
        cases h
        exact hw _ _
      · rw [if_neg hk] at h
        cases h
        exact hg _
  rw [if_neg t12] at h
  by_cases t14 : b / 16 % 16 = 14
  · rw [if_pos t14] at h
    cases h
    exact hw _ _
  rw [if_neg t14] at h
  by_cases t10 : b / 16 % 16 = 10 ∨ b / 16 % 16 = 13 ∨ b / 16 % 16 = 15
  · rw [if_pos t10] at h
    cases h
    exact ⟨rfl, rfl⟩
  rw [if_neg t10] at h
  by_cases hs : (!p._scanning) = true
  · rw [if_pos hs] at h
    cases h
    exact ⟨rfl, rfl⟩
  · rw [if_neg hs] at h
    cases h
    exact ⟨rfl, rfl⟩

theorem deliver_position (env : Env) (st : Player × List Nat) (b : Nat) :
    (deliver env st b).1._track_index = st.1._track_index ∧
    (deliver env st b).1._loop_counter = st.1._loop_counter := by
  unfold deliver
  cases h : st.1.send env st.2 b with
  | none => exact ⟨rfl, rfl⟩
  | some r => exact send_position env st.1 st.2 b r h

theorem setSpeed_fields (env : Env) (p : Player) (speed : Nat) :
    (p.setSpeed env speed)._speed = (if env.newSystem ∧ speed > 127 then p._speed else speed) ∧
    (p.setSpeed env speed)._volume = p._volume ∧
    (p.setSpeed env speed)._vol_chan = p._vol_chan ∧
    (p.setSpeed env speed)._vol_eff = p._vol_eff ∧
    (p.setSpeed env speed)._active = p._active := by
  unfold Player.setSpeed
  simp only []
  by_cases h : env.newSystem = true ∧ speed > 127
  · rw [if_pos h, if_pos h]
    exact ⟨rfl, rfl, rfl, rfl, rfl⟩
  · rw [if_neg h, if_neg h]
    cases p._parserPtr with
    | none => exact ⟨rfl, rfl, rfl, rfl, rfl⟩
    | some ps => exact ⟨rfl, rfl, rfl, rfl, rfl⟩

theorem parserTypeOf_ne_none (ptr : List Nat) : parserTypeOf ptr ≠ ParserType.kParserTypeNone := by
  unfold parserTypeOf
  split_ifs <;> decide

/-- When the resource is found and a parser is at hand (the player holds one, or
its parser kind differs from the one wanted, so that one is created),
`start_seq_sound` with `reset_vars` returns 0; the volume fields and the active
flag are untouched and the speed is the one `setSpeed` leaves. -/
theorem start_seq_sound_found (env : Env) (p : Player) (sound : Int) (res : List Nat)
    (hres : env.findStartOfSound sound = some res)
    (hparser : p._parserType = parserTypeOf res → p._parserPtr ≠ none) :
    ∃ q, p.start_seq_sound env sound true = some (q, 0) ∧
      q._speed = (if env.newSystem ∧ p.startSpeed env sound true % 256 > 127 then p._speed
        else p.startSpeed env sound true % 256) ∧
      q._volume = p._volume ∧ q._vol_chan = p._vol_chan ∧ q._vol_eff = p._vol_eff ∧
      q._active = p._active := by
  have hst : ∀ q : Player, q.startSpeed env sound true = p.startSpeed env sound true := by
    intro q
    unfold Player.startSpeed
    simp
  unfold Player.start_seq_sound
  simp only [hres, if_true]
  by_cases hty : p._parserType ≠ parserTypeOf res
  · rw [if_pos hty]
    simp only []
    refine ⟨_, rfl, ?_⟩
    have h := setSpeed_fields env
      { p with _loop_to_beat := 1, _loop_from_beat := 1, _track_index := 0, _loop_counter := 0,
               _loop_to_tick := 0, _loop_from_tick := 0,
               _parserPtr := some (env.parserSetTrack
                 (env.parserLoadMusic (env.createParser (parserTypeOf res)) res) 0).1,
               _parserType := parserTypeOf res }
      (p.startSpeed env sound true % 256)
    rw [hst]
    exact h
  · rw [if_neg hty]
    have hne := hparser (by simpa using hty)
    cases hp : p._parserPtr with
    | none => exact absurd hp hne
    | some ps =>
      simp only []
      refine ⟨_, rfl, ?_⟩
      have h := setSpeed_fields env
        { p with _loop_to_beat := 1, _loop_from_beat := 1, _track_index := 0, _loop_counter := 0,
                 _loop_to_tick := 0, _loop_from_tick := 0,
                 _parserPtr := some (env.parserSetTrack (env.parserLoadMusic ps res) 0).1 }
        (p.startSpeed env sound true % 256)
      rw [hst]
      exact h


theorem setSpeed_parserPtr (env : Env) (p : Player) (speed : Nat) :
    (p.setSpeed env speed)._parserType = p._parserType ∧
    ((p.setSpeed env speed)._parserPtr = none ↔ p._parserPtr = none) := by
  unfold Player.setSpeed
  simp only []
  by_cases h : env.newSystem = true ∧ speed > 127
  · rw [if_pos h]
    exact ⟨rfl, Iff.rfl⟩
  · rw [if_neg h]
    cases hp : p._parserPtr with
    | none => exact ⟨rfl, by simp [hp]⟩
    | some ps => exact ⟨rfl, by simp⟩

theorem loadStartParameters_default (env : Env) (p : Player) (sound : Int)
    (h : ∀ ptr, env.findMDhd sound = some ptr →
      readBE32 ptr 4 = 0 ∨ (ptr.getD 10 0 = 0 ∧ ptr.getD 11 0 = 0 ∧ ptr.getD 15 0 = 0)) :
    p.loadStartParameters env sound =
      { p with _priority := if env.newSystem then 64 else 128, _volume := 127,
               _vol_chan := 65535,
               _vol_eff := (env.get_channel_volume 65535 * 128 / 128) % 256,
               _pan := 0, _transpose := 0, _detune := 0 } := by
  unfold Player.loadStartParameters
  cases hm : env.findMDhd sound with
  | none => rfl
  | some ptr =>
    simp only []
    rw [if_neg]
    intro hh
    rcases h ptr hm with hz | hz
    · exact hh.1 hz
    · exact hh.2 hz

theorem loadStartParameters_header (env : Env) (p : Player) (sound : Int) (ptr : List Nat)
    (hm : env.findMDhd sound = some ptr) (hs : readBE32 ptr 4 ≠ 0)
    (hb : ¬ (ptr.getD 10 0 = 0 ∧ ptr.getD 11 0 = 0 ∧ ptr.getD 15 0 = 0)) :
    p.loadStartParameters env sound =
      Player.setSpeed env
        { p with _priority := ptr.getD 10 0, _volume := ptr.getD 11 0,
                 _vol_chan := 65535,
                 _vol_eff := (env.get_channel_volume 65535 * 128 / 128) % 256,
                 _pan := toInt8 (ptr.getD 12 0), _transpose := toInt8 (ptr.getD 13 0),
                 _detune := ptr.getD 14 0 }
        (ptr.getD 15 0) := by
  unfold Player.loadStartParameters
  simp only [hm]
  rw [if_pos ⟨hs, hb⟩]

theorem loadStartParameters_header_fields (env : Env) (p : Player) (sound : Int)
    (ptr : List Nat) (hm : env.findMDhd sound = some ptr) (hs : readBE32 ptr 4 ≠ 0)
    (hb : ¬ (ptr.getD 10 0 = 0 ∧ ptr.getD 11 0 = 0 ∧ ptr.getD 15 0 = 0)) :
    (p.loadStartParameters env sound)._volume = ptr.getD 11 0 ∧
    (p.loadStartParameters env sound)._vol_chan = 65535 ∧
    (p.loadStartParameters env sound)._vol_eff =
      (env.get_channel_volume 65535 * 128 / 128) % 256 ∧
    (p.loadStartParameters env sound)._active = p._active ∧
    (p.loadStartParameters env sound)._speed =
      (if env.newSystem ∧ ptr.getD 15 0 > 127 then p._speed else ptr.getD 15 0) ∧
    (p.loadStartParameters env sound)._parserType = p._parserType ∧
    ((p.loadStartParameters env sound)._parserPtr = none ↔ p._parserPtr = none) := by
  rw [loadStartParameters_header env p sound ptr hm hs hb]
  exact ⟨(setSpeed_fields env _ _).2.1, (setSpeed_fields env _ _).2.2.1,
    (setSpeed_fields env _ _).2.2.2.1, (setSpeed_fields env _ _).2.2.2.2,
    (setSpeed_fields env _ _).1, (setSpeed_parserPtr env _ _).1, (setSpeed_parserPtr env _ _).2⟩

/-- The state in which `startSound` calls `start_seq_sound` when the secondary
header chunk is used. -/
theorem startInit_header (env : Env) (p : Player) (sound : Int) (midi : Bool) (ptr : List Nat)
    (hm : env.findMDhd sound = some ptr) (hs : readBE32 ptr 4 ≠ 0)
    (hb : ¬ (ptr.getD 10 0 = 0 ∧ ptr.getD 11 0 = 0 ∧ ptr.getD 15 0 = 0)) :
    (p.startInit env sound midi)._volume = ptr.getD 11 0 ∧
    (p.startInit env sound midi)._vol_chan = 65535 ∧
    (p.startInit env sound midi)._vol_eff = (env.get_channel_volume 65535 * 128 / 128) % 256 ∧
    (p.startInit env sound midi)._active = true ∧
    (p.startInit env sound midi)._speed =
      (if env.newSystem ∧ ptr.getD 15 0 > 127 then p._speed else ptr.getD 15 0) ∧
    (p.startInit env sound midi)._parserType = p._parserType ∧
    ((p.startInit env sound midi)._parserPtr = none ↔ p._parserPtr = none) := by
  unfold Player.startInit
  exact loadStartParameters_header_fields env _ sound ptr hm hs hb

theorem startSound_header (env : Env) (p : Player) (sound : Int) (midi : Bool)
    (res ptr : List Nat) (hres : env.findStartOfSound sound = some res)
    (hparser : p._parserType = parserTypeOf res → p._parserPtr ≠ none)
    (hm : env.findMDhd sound = some ptr) (hs : readBE32 ptr 4 ≠ 0)
    (hb : ¬ (ptr.getD 10 0 = 0 ∧ ptr.getD 11 0 = 0 ∧ ptr.getD 15 0 = 0)) :
    ∃ q, p.startSound env sound midi = some (q, true) ∧
      q._volume = ptr.getD 11 0 ∧ q._vol_chan = 65535 ∧
      q._vol_eff = (env.get_channel_volume 65535 * 128 / 128) % 256 ∧
      q._active = true ∧
      q._speed =
        (if env.newSystem ∧ (p.startInit env sound midi).startSpeed env sound true % 256 > 127
          then (if env.newSystem ∧ ptr.getD 15 0 > 127 then p._speed else ptr.getD 15 0)
          else (p.startInit env sound midi).startSpeed env sound true % 256) := by
  have hi := startInit_header env p sound midi ptr hm hs hb
  obtain ⟨q, hq, h1, h2, h3, h4, h5⟩ := start_seq_sound_found env (p.startInit env sound midi)
    sound res hres (fun e => fun hn => hparser (hi.2.2.2.2.2.1 ▸ e) (hi.2.2.2.2.2.2.mp hn))
  refine ⟨q, ?_, ?_, ?_, ?_, ?_, ?_⟩
  · unfold Player.startSound
    simp only [hres, hq]
    rfl
  · rw [h2, hi.1]
  · rw [h3, hi.2.1]
  · rw [h4, hi.2.2.1]
  · rw [h5, hi.2.2.2.1]
  · rw [h1, hi.2.2.2.2.1]

/-- C30: when the secondary header chunk is used (its size is not 0 and its
priority, volume and speed bytes are not all 0), `startSound` succeeds with
the volume of the header, the volume channel 0xFFFF, and the effective volume
that was computed for the default volume 127 before the header was read:
`(channelVolume(0xFFFF) << 7) >> 7`, whatever the volume of the header is.  The
effective volume is not recomputed from the volume taken from the header. -/
theorem startSound_vol_eff_stale (env : Env) (p : Player) (sound : Int) (midi : Bool)
    (res ptr : List Nat) (hres : env.findStartOfSound sound = some res)
    (hparser : p._parserType = parserTypeOf res → p._parserPtr ≠ none)
    (hm : env.findMDhd sound = some ptr) (hs : readBE32 ptr 4 ≠ 0)
    (hb : ¬ (ptr.getD 10 0 = 0 ∧ ptr.getD 11 0 = 0 ∧ ptr.getD 15 0 = 0)) :
    ∃ q, p.startSound env sound midi = some (q, true) ∧ q._active = true ∧
      q._volume = ptr.getD 11 0 ∧ q._vol_chan = 65535 ∧
      q._vol_eff = (env.get_channel_volume 65535 * 128 / 128) % 256 := by
  obtain ⟨q, h, h1, h2, h3, h4, _⟩ := startSound_header env p sound midi res ptr hres hparser
    hm hs hb
  exact ⟨q, h, h4, h1, h2, h3⟩

theorem startSound_vol_eff_stale_witness :
    ∃ q, Player.new.startSound (exampleEnv 16) 7 true = some (q, true) ∧
      q._volume = 50 ∧ q._vol_eff = 127 ∧
      (exampleEnv 16).get_channel_volume q._vol_chan * (q._volume + 1) / 128 = 50 :=
  (startSound_vol_eff_stale (exampleEnv 16) Player.new 7 true [77, 84, 104, 100]
    [77, 68, 104, 100, 0, 0, 0, 8, 0, 0, 1, 50, 200, 251, 3, 200] rfl
    (fun e => absurd e (by decide)) rfl (by decide) (by decide)).elim
    fun q h => ⟨q, h.1, h.2.2.1, h.2.2.2.2.trans (by decide),
      by rw [h.2.2.1, h.2.2.2.1]; decide⟩

/-- C21: on the new parameter scale, `startSound` on a freshly constructed player
with a secondary header chunk whose speed byte is above 127 succeeds and
leaves the speed at 128, the value of the constructor: both calls of
`setSpeed` (in `loadStartParameters` and in `start_seq_sound`) reject the
byte and store nothing. -/
theorem startSound_speed_stuck (env : Env) (sound : Int) (midi : Bool) (res ptr : List Nat)
    (hnew : env.newSystem = true) (hres : env.findStartOfSound sound = some res)
    (hm : env.findMDhd sound = some ptr) (hs : readBE32 ptr 4 ≠ 0)
    (hspeed : 127 < ptr.getD 15 0) (hbyte : ptr.getD 15 0 < 256) :
    ∃ q, Player.new.startSound env sound midi = some (q, true) ∧ q._active = true ∧
      q._speed = 128 := by
  have hb : ¬ (ptr.getD 10 0 = 0 ∧ ptr.getD 11 0 = 0 ∧ ptr.getD 15 0 = 0) := by
    intro h
    omega
  obtain ⟨q, h, _, _, _, h4, h5⟩ := startSound_header env Player.new sound midi res ptr hres
    (fun e => absurd e.symm (parserTypeOf_ne_none res)) hm hs hb
  refine ⟨q, h, h4, ?_⟩
  have hsp : (Player.new.startInit env sound midi).startSpeed env sound true = ptr.getD 15 0 := by
    unfold Player.startSpeed
    simp only [hm, if_true]
    rw [if_pos ⟨hs, by omega⟩]
  rw [h5, hsp, Nat.mod_eq_of_lt hbyte, if_pos ⟨hnew, hspeed⟩, if_pos ⟨hnew, hspeed⟩]
  rfl

theorem startSound_speed_stuck_witness :
    exampleNewEnv.newSystem = true ∧
    ∃ q, Player.new.startSound exampleNewEnv 7 true = some (q, true) ∧ q._active = true ∧
      q._speed = 128 :=
  ⟨rfl, startSound_speed_stuck exampleNewEnv 7 true [77, 84, 104, 100]
    [77, 68, 104, 100, 0, 0, 0, 8, 0, 0, 1, 50, 200, 251, 3, 200] rfl rfl rfl (by decide)
    (by decide) (by decide)⟩

/-- On the legacy scale `setSpeed` stores every value it is given. -/
theorem setSpeed_legacy_stores (env : Env) (p : Player) (speed : Nat)
    (h : env.newSystem = false) : (p.setSpeed env speed)._speed = speed := by
  rw [(setSpeed_fields env p speed).1, if_neg]
  intro hh
  rw [h] at hh
  exact absurd hh.1 (by decide)

/-- On the new scale `setSpeed` keeps a speed that is at most 127 at most 127. -/
theorem setSpeed_new_le (env : Env) (p : Player) (speed : Nat) (h : env.newSystem = true)
    (hp : p._speed ≤ 127) : (p.setSpeed env speed)._speed ≤ 127 := by
  rw [(setSpeed_fields env p speed).1]
  split
  · exact hp
  · rename_i hh
    have : ¬ speed > 127 := fun hgt => hh ⟨h, hgt⟩
    omega

/-- After an accepted `setVolume` the effective volume is
`(channelVolume(_vol_chan) * (volume + 1)) >> 7` for the new volume; for a
channel volume up to 127 it is at most the channel volume and equal to it at
volume 127. -/
theorem setVolume_vol_eff (env : Env) (p : Player) (vol : Nat) (h : vol ≤ 127) :
    (p.setVolume env vol).1._volume = vol ∧
    (p.setVolume env vol).1._vol_eff =
      (env.get_channel_volume (p.setVolume env vol).1._vol_chan *
        ((p.setVolume env vol).1._volume + 1) / 128) % 256 ∧
    (env.get_channel_volume p._vol_chan ≤ 127 →
      (p.setVolume env vol).1._vol_eff ≤ env.get_channel_volume p._vol_chan ∧
      (vol = 127 → (p.setVolume env vol).1._vol_eff = env.get_channel_volume p._vol_chan)) := by
  unfold Player.setVolume
  rw [if_neg (by omega)]
  refine ⟨rfl, rfl, ?_⟩
  intro hcv
  simp only []
  generalize env.get_channel_volume p._vol_chan = cv at hcv
  have h1 : cv * (vol + 1) / 128 ≤ cv := by
    apply Nat.div_le_of_le_mul
    nlinarith
  refine ⟨by omega, ?_⟩
  intro hv
  subst hv
  omega

/-! ## Save and load: the primitives -/

theorem leBytes_length (w x : Nat) : (leBytes w x).length = w := by
  induction w generalizing x with
  | zero => rfl
  | succ w ih => simp [leBytes, ih]

theorem leValue_leBytes (w x : Nat) : leValue (leBytes w x) = x % 256 ^ w := by
  induction w generalizing x with
  | zero => simp [leBytes, leValue, Nat.mod_one]
  | succ w ih =>
    simp only [leBytes, leValue, ih, Nat.mod_mod]
    rw [pow_succ, Nat.mul_comm (256 ^ w) 256, Nat.mod_mul]

theorem take_leBytes_append (w x : Nat) (rest : List Nat) :
    (leBytes w x ++ rest).take w = leBytes w x := by
  rw [List.take_left' (leBytes_length w x)]

theorem drop_leBytes_append (w x : Nat) (rest : List Nat) :
    (leBytes w x ++ rest).drop w = rest := by
  rw [List.drop_left' (leBytes_length w x)]

theorem syncAs_save {α : Type} (ver : Nat) (bs : List Nat) (w : Nat) (enc : α → Nat)
    (dec : Nat → α) (x : α) (minVer maxVer : Nat) (h1 : minVer ≤ ver) (h2 : ver ≤ maxVer) :
    Serializer.syncAs { saving := true, version := ver, bytes := bs } w enc dec x minVer maxVer =
      ({ saving := true, version := ver, bytes := bs ++ leBytes w (enc x) }, x) := by
  unfold Serializer.syncAs
  rw [if_neg (by simp only []; omega)]
  rfl

theorem syncAs_load {α : Type} (ver : Nat) (rest : List Nat) (w n : Nat) (enc : α → Nat)
    (dec : Nat → α) (y : α) (minVer maxVer : Nat) (h1 : minVer ≤ ver) (h2 : ver ≤ maxVer) :
    Serializer.syncAs { saving := false, version := ver, bytes := leBytes w n ++ rest } w enc dec y
        minVer maxVer =
      ({ saving := false, version := ver, bytes := rest }, dec (n % 256 ^ w)) := by
  unfold Serializer.syncAs
  rw [if_neg (by simp only []; omega)]
  simp only [take_leBytes_append, drop_leBytes_append, leValue_leBytes]
  rfl

theorem syncAs_skipped {α : Type} (s : Serializer) (w : Nat) (enc : α → Nat)
    (dec : Nat → α) (x : α) (minVer maxVer : Nat) (h : maxVer < s.version) :
    s.syncAs w enc dec x minVer maxVer = (s, x) := by
  unfold Serializer.syncAs
  rw [if_pos (Or.inr h)]

theorem skip_skipped (s : Serializer) (size minVer maxVer : Nat) (h : maxVer < s.version) :
    s.skip size minVer maxVer = s := by
  unfold Serializer.skip
  rw [if_pos (Or.inr h)]

theorem range_map_getD_mod (l : List Nat) (h : IsByteArray16 l) :
    (List.range 16).map (fun i => l.getD i 0 % 256) = l := by
  obtain ⟨hl, hb⟩ := h
  apply List.ext_getElem
  · simp [hl]
  · intro i h1 h2
    simp only [List.getElem_map, List.getElem_range]
    have hi : i < l.length := h2
    rw [List.getD_eq_getElem _ _ hi]
    exact Nat.mod_eq_of_lt (hb _ (List.getElem_mem hi))

theorem syncBytes_save (ver : Nat) (bs buf : List Nat) (size minVer maxVer : Nat)
    (h1 : minVer ≤ ver) (h2 : ver ≤ maxVer) :
    Serializer.syncBytes { saving := true, version := ver, bytes := bs } buf size minVer maxVer =
      ({ saving := true, version := ver,
         bytes := bs ++ (List.range size).map (fun i => buf.getD i 0 % 256) }, buf) := by
  unfold Serializer.syncBytes
  rw [if_neg (by simp only []; omega)]
  rfl

theorem syncBytes_load (ver : Nat) (rest buf old : List Nat) (minVer maxVer : Nat)
    (h1 : minVer ≤ ver) (h2 : ver ≤ maxVer) (hb : IsByteArray16 buf) :
    Serializer.syncBytes
        { saving := false, version := ver,
          bytes := (List.range 16).map (fun i => buf.getD i 0 % 256) ++ rest } old 16
        minVer maxVer =
      ({ saving := false, version := ver, bytes := rest }, buf) := by
  unfold Serializer.syncBytes
  rw [if_neg (by simp only []; omega)]
  have hlen : ((List.range 16).map (fun i => buf.getD i 0 % 256)).length = 16 := by simp
  simp only [Bool.false_eq_true, if_false]
  rw [List.take_left' hlen, List.drop_left' hlen, range_map_getD_mod buf hb]
  have : buf.map (fun b => b % 256) = buf := by
    conv_rhs => rw [← List.map_id buf]
    apply List.map_congr_left
    intro b hbm
    exact Nat.mod_eq_of_lt (hb.2 b hbm)
  rw [this]

/-! ### The decoders undo the encoders on values that fit -/

theorem dec_bool (b : Bool) : decide ((if b then 1 else 0) % 256 ^ 1 ≠ 0) = b := by
  cases b <;> decide

theorem dec_uint16_int (x : Int) (h : 0 ≤ x ∧ x < 65536) :
    ((toUint16 x % 256 ^ 2 : Nat) : Int) = x := by
  unfold toUint16
  have : (256 : Nat) ^ 2 = 65536 := by norm_num
  rw [this]
  omega

theorem dec_byte (x : Nat) (h : x < 256) : id (x % 256 ^ 1) = x := by
  simp only [id, pow_one]
  omega

theorem dec_u16 (x : Nat) (h : x < 65536) : id (x % 256 ^ 2) = x := by
  have : (256 : Nat) ^ 2 = 65536 := by norm_num
  simp only [id, this]
  omega

theorem dec_u32 (x : Nat) (h : x < 4294967296) : id (x % 256 ^ 4) = x := by
  have : (256 : Nat) ^ 4 = 4294967296 := by norm_num
  simp only [id, this]
  omega

theorem dec_int8 (x : Int) (h : -128 ≤ x ∧ x < 128) :
    toInt8 ((toByte x % 256 ^ 1 : Nat) : Int) = x := by
  unfold toInt8 toByte
  simp only [pow_one]
  omega

theorem dec_int16 (x : Int) (h : -32768 ≤ x ∧ x < 32768) :
    toInt16 ((toUint16 x % 256 ^ 2 : Nat) : Int) = x := by
  unfold toInt16 toUint16
  have : (256 : Nat) ^ 2 = 65536 := by norm_num
  rw [this]
  omega

theorem dec_loopField (env : Env) (x : Nat) (hw : 16 ≤ env.loopFieldBits) (h : x < 65536) :
    toLoopField env (x % 256 ^ 2) = x := by
  have : (256 : Nat) ^ 2 = 65536 := by norm_num
  simp only [id, this]
  rw [Nat.mod_eq_of_lt h]
  exact toLoopField_of_lt env x (lt_two_pow_of_lt_65536 _ _ hw h)


/-! ## Save and load: the parts of `saveLoadWithSerializer` -/

theorem syncWithSerializer_save (ver : Nat) (bs : List Nat) (f : ParameterFader)
    (hv : 117 ≤ ver) (hk : ver ≤ kLastVersion) :
    syncWithSerializer { saving := true, version := ver, bytes := bs } f =
      ({ saving := true, version := ver, bytes := bs ++ encFader f }, f) := by
  have S17 : ∀ {α : Type} (bs : List Nat) (w : Nat) (enc : α → Nat) (dec : Nat → α) (x : α),
      Serializer.syncAs { saving := true, version := ver, bytes := bs } w enc dec x 17
        kLastVersion =
      ({ saving := true, version := ver, bytes := bs ++ leBytes w (enc x) }, x) :=
    fun bs w enc dec x => syncAs_save ver bs w enc dec x 17 kLastVersion (by omega) hk
  have S116 : ∀ {α : Type} (bs : List Nat) (w : Nat) (enc : α → Nat) (dec : Nat → α) (x : α),
      Serializer.syncAs { saving := true, version := ver, bytes := bs } w enc dec x 116
        kLastVersion =
      ({ saving := true, version := ver, bytes := bs ++ leBytes w (enc x) }, x) :=
    fun bs w enc dec x => syncAs_save ver bs w enc dec x 116 kLastVersion (by omega) hk
  unfold syncWithSerializer
  simp only [S17, S116, Bool.not_true, Bool.false_eq_true, false_and, if_false, encFader,
    List.append_assoc, id]

theorem syncWithSerializer_load (ver : Nat) (rest : List Nat) (f g : ParameterFader)
    (hv : 117 ≤ ver) (hk : ver ≤ kLastVersion) (hf : FaderFits f) :
    syncWithSerializer { saving := false, version := ver, bytes := encFader f ++ rest } g =
      ({ saving := false, version := ver, bytes := rest }, f) := by
  have L17 : ∀ {α : Type} (rest : List Nat) (w n : Nat) (enc : α → Nat) (dec : Nat → α)
      (y : α),
      Serializer.syncAs { saving := false, version := ver, bytes := leBytes w n ++ rest } w enc
        dec y 17 kLastVersion =
      ({ saving := false, version := ver, bytes := rest }, dec (n % 256 ^ w)) :=
    fun rest w n enc dec y => syncAs_load ver rest w n enc dec y 17 kLastVersion (by omega) hk
  have L116 : ∀ {α : Type} (rest : List Nat) (w n : Nat) (enc : α → Nat) (dec : Nat → α)
      (y : α),
      Serializer.syncAs { saving := false, version := ver, bytes := leBytes w n ++ rest } w enc
        dec y 116 kLastVersion =
      ({ saving := false, version := ver, bytes := rest }, dec (n % 256 ^ w)) :=
    fun rest w n enc dec y => syncAs_load ver rest w n enc dec y 116 kLastVersion (by omega) hk
  have h116 : ¬ ver < 116 := by omega
  obtain ⟨h1, h2, h3, h4, h5, h6, h7, h8⟩ := hf
  unfold syncWithSerializer
  simp only [encFader, List.append_assoc, L17, L116, Bool.not_false, true_and, h116, if_false,
    dec_int16 _ h1, dec_int8 _ h2, dec_int16 _ h3, dec_u16 _ h4, dec_u16 _ h5, dec_u16 _ h6,
    dec_u16 _ h7, dec_int16 _ h8]

theorem syncArray_save (ver : Nat) (hv : 117 ≤ ver) (hk : ver ≤ kLastVersion) :
    ∀ (fs : List ParameterFader) (bs : List Nat),
      Serializer.syncArray syncWithSerializer { saving := true, version := ver, bytes := bs } fs =
        ({ saving := true, version := ver, bytes := bs ++ encFaders fs }, fs) := by
  intro fs
  induction fs with
  | nil => intro bs; simp [Serializer.syncArray, encFaders]
  | cons f fs ih =>
    intro bs
    simp only [Serializer.syncArray, syncWithSerializer_save ver _ f hv hk, ih, encFaders,
      List.append_assoc]

theorem syncArray_load (ver : Nat) (hv : 117 ≤ ver) (hk : ver ≤ kLastVersion) :
    ∀ (fs gs : List ParameterFader) (rest : List Nat), gs.length = fs.length →
      (∀ f, f ∈ fs → FaderFits f) →
      Serializer.syncArray syncWithSerializer
          { saving := false, version := ver, bytes := encFaders fs ++ rest } gs =
        ({ saving := false, version := ver, bytes := rest }, fs) := by
  intro fs
  induction fs with
  | nil =>
    intro gs rest hl _
    have : gs = [] := List.eq_nil_of_length_eq_zero hl
    subst this
    simp [Serializer.syncArray, encFaders]
  | cons f fs ih =>
    intro gs rest hl hfit
    cases gs with
    | nil => simp at hl
    | cons g gs =>
      simp only [Serializer.syncArray, encFaders, List.append_assoc,
        syncWithSerializer_load ver _ f g hv hk (hfit f (List.mem_cons_self _ _))]
      rw [ih gs rest (by simpa using hl) (fun x hx => hfit x (List.mem_cons_of_mem _ hx))]

theorem syncParams_save (ver : Nat) (bs : List Nat) (p : Player)
    (hv : 117 ≤ ver) (hk : ver ≤ kLastVersion) :
    p.syncParams { saving := true, version := ver, bytes := bs } =
      ({ saving := true, version := ver, bytes := bs ++ encParams p }, p) := by
  have S8 : ∀ {α : Type} (bs : List Nat) (w : Nat) (enc : α → Nat) (dec : Nat → α) (x : α),
      Serializer.syncAs { saving := true, version := ver, bytes := bs } w enc dec x 8
        kLastVersion =
      ({ saving := true, version := ver, bytes := bs ++ leBytes w (enc x) }, x) :=
    fun bs w enc dec x => syncAs_save ver bs w enc dec x 8 kLastVersion (by omega) hk
  have S116 : ∀ {α : Type} (bs : List Nat) (w : Nat) (enc : α → Nat) (dec : Nat → α) (x : α),
      Serializer.syncAs { saving := true, version := ver, bytes := bs } w enc dec x 116
        kLastVersion =
      ({ saving := true, version := ver, bytes := bs ++ leBytes w (enc x) }, x) :=
    fun bs w enc dec x => syncAs_save ver bs w enc dec x 116 kLastVersion (by omega) hk
  have K : ∀ {α : Type} (bs : List Nat) (w : Nat) (enc : α → Nat) (dec : Nat → α) (x : α),
      Serializer.syncAs { saving := true, version := ver, bytes := bs } w enc dec x 8 115 =
      ({ saving := true, version := ver, bytes := bs }, x) :=
    fun bs w enc dec x => syncAs_skipped _ w enc dec x 8 115 (by simp only []; omega)
  unfold Player.syncParams
  simp only [S8, S116, K, encParams, List.append_assoc, id]

theorem syncParams_load (ver : Nat) (rest : List Nat) (p q : Player)
    (hv : 117 ≤ ver) (hk : ver ≤ kLastVersion) (hp : Persistable p) :
    q.syncParams { saving := false, version := ver, bytes := encParams p ++ rest } =
      ({ saving := false, version := ver, bytes := rest },
        { q with _active := p._active, _id := p._id, _priority := p._priority,
                 _volume := p._volume, _pan := p._pan, _transpose := p._transpose,
                 _detune := p._detune, _vol_chan := p._vol_chan, _vol_eff := p._vol_eff,
                 _speed := p._speed }) := by
  have L8 : ∀ {α : Type} (rest : List Nat) (w n : Nat) (enc : α → Nat) (dec : Nat → α)
      (y : α),
      Serializer.syncAs { saving := false, version := ver, bytes := leBytes w n ++ rest } w enc
        dec y 8 kLastVersion =
      ({ saving := false, version := ver, bytes := rest }, dec (n % 256 ^ w)) :=
    fun rest w n enc dec y => syncAs_load ver rest w n enc dec y 8 kLastVersion (by omega) hk
  have L116 : ∀ {α : Type} (rest : List Nat) (w n : Nat) (enc : α → Nat) (dec : Nat → α)
      (y : α),
      Serializer.syncAs { saving := false, version := ver, bytes := leBytes w n ++ rest } w enc
        dec y 116 kLastVersion =
      ({ saving := false, version := ver, bytes := rest }, dec (n % 256 ^ w)) :=
    fun rest w n enc dec y => syncAs_load ver rest w n enc dec y 116 kLastVersion (by omega) hk
  have K : ∀ {α : Type} (bs : List Nat) (w : Nat) (enc : α → Nat) (dec : Nat → α) (x : α),
      Serializer.syncAs { saving := false, version := ver, bytes := bs } w enc dec x 8 115 =
      ({ saving := false, version := ver, bytes := bs }, x) :=
    fun bs w enc dec x => syncAs_skipped _ w enc dec x 8 115 (by simp only []; omega)
  obtain ⟨h1, h2, h3, h4, h5, h6, h7, h8, h9, _, _, _⟩ := hp
  unfold Player.syncParams
  simp only [encParams, List.append_assoc, L8, L116, K, dec_bool, dec_uint16_int _ h1, dec_byte _ h2,
    dec_byte _ h3, dec_int8 _ h4, dec_int8 _ h5, dec_int16 _ h6, dec_u16 _ h7, dec_byte _ h8,
    dec_byte _ h9]


theorem syncPosition_save (env : Env) (ver : Nat) (bs : List Nat) (p : Player)
    (hv : 117 ≤ ver) (hk : ver ≤ kLastVersion) :
    p.syncPosition env { saving := true, version := ver, bytes := bs } =
      ({ saving := true, version := ver, bytes := bs ++ encPosition p }, p) := by
  have S8 : ∀ {α : Type} (bs : List Nat) (w : Nat) (enc : α → Nat) (dec : Nat → α) (x : α),
      Serializer.syncAs { saving := true, version := ver, bytes := bs } w enc dec x 8
        kLastVersion =
      ({ saving := true, version := ver, bytes := bs ++ leBytes w (enc x) }, x) :=
    fun bs w enc dec x => syncAs_save ver bs w enc dec x 8 kLastVersion (by omega) hk
  have S19 : ∀ {α : Type} (bs : List Nat) (w : Nat) (enc : α → Nat) (dec : Nat → α) (x : α),
      Serializer.syncAs { saving := true, version := ver, bytes := bs } w enc dec x 19
        kLastVersion =
      ({ saving := true, version := ver, bytes := bs ++ leBytes w (enc x) }, x) :=
    fun bs w enc dec x => syncAs_save ver bs w enc dec x 19 kLastVersion (by omega) hk
  have K19 : ∀ (bs : List Nat) (size : Nat),
      Serializer.skip { saving := true, version := ver, bytes := bs } size 8 19 =
        { saving := true, version := ver, bytes := bs } :=
    fun bs size => skip_skipped _ size 8 19 (by simp only []; omega)
  have K17 : ∀ (bs : List Nat) (size : Nat),
      Serializer.skip { saving := true, version := ver, bytes := bs } size 8 17 =
        { saving := true, version := ver, bytes := bs } :=
    fun bs size => skip_skipped _ size 8 17 (by simp only []; omega)
  unfold Player.syncPosition
  simp only [S8, S19, K19, K17, encPosition, List.append_assoc, id]

theorem syncPosition_load (env : Env) (ver : Nat) (rest : List Nat) (p q : Player)
    (hv : 117 ≤ ver) (hk : ver ≤ kLastVersion) (hw : 16 ≤ env.loopFieldBits)
    (hp : Persistable p) (ht : p._music_tick < 4294967296) :
    q.syncPosition env { saving := false, version := ver, bytes := encPosition p ++ rest } =
      ({ saving := false, version := ver, bytes := rest },
        { q with _track_index := p._track_index, _loop_to_beat := p._loop_to_beat,
                 _loop_from_beat := p._loop_from_beat, _loop_counter := p._loop_counter,
                 _loop_to_tick := p._loop_to_tick, _loop_from_tick := p._loop_from_tick,
                 _music_tick := p._music_tick }) := by
  have L8 : ∀ {α : Type} (rest : List Nat) (w n : Nat) (enc : α → Nat) (dec : Nat → α)
      (y : α),
      Serializer.syncAs { saving := false, version := ver, bytes := leBytes w n ++ rest } w enc
        dec y 8 kLastVersion =
      ({ saving := false, version := ver, bytes := rest }, dec (n % 256 ^ w)) :=
    fun rest w n enc dec y => syncAs_load ver rest w n enc dec y 8 kLastVersion (by omega) hk
  have L19 : ∀ {α : Type} (rest : List Nat) (w n : Nat) (enc : α → Nat) (dec : Nat → α)
      (y : α),
      Serializer.syncAs { saving := false, version := ver, bytes := leBytes w n ++ rest } w enc
        dec y 19 kLastVersion =
      ({ saving := false, version := ver, bytes := rest }, dec (n % 256 ^ w)) :=
    fun rest w n enc dec y => syncAs_load ver rest w n enc dec y 19 kLastVersion (by omega) hk
  have K19 : ∀ (bs : List Nat) (size : Nat),
      Serializer.skip { saving := false, version := ver, bytes := bs } size 8 19 =
        { saving := false, version := ver, bytes := bs } :=
    fun bs size => skip_skipped _ size 8 19 (by simp only []; omega)
  have K17 : ∀ (bs : List Nat) (size : Nat),
      Serializer.skip { saving := false, version := ver, bytes := bs } size 8 17 =
        { saving := false, version := ver, bytes := bs } :=
    fun bs size => skip_skipped _ size 8 17 (by simp only []; omega)
  obtain ⟨_, _, _, _, _, _, _, _, _, ⟨h1, h2, h3, h4, h5, h6⟩, _, _⟩ := hp
  unfold Player.syncPosition
  simp only [encPosition, List.append_assoc, L8, L19, K19, K17, dec_loopField env _ hw h1,
    dec_loopField env _ hw h2, dec_loopField env _ hw h3, dec_loopField env _ hw h4,
    dec_loopField env _ hw h5, dec_loopField env _ hw h6, dec_u32 _ ht]

theorem syncHook_save (ver : Nat) (bs : List Nat) (p : Player)
    (hv : 117 ≤ ver) (hk : ver ≤ kLastVersion) :
    p.syncHook { saving := true, version := ver, bytes := bs } =
      ({ saving := true, version := ver, bytes := bs ++ encHook p._hook }, p) := by
  have S8 : ∀ {α : Type} (bs : List Nat) (w : Nat) (enc : α → Nat) (dec : Nat → α) (x : α),
      Serializer.syncAs { saving := true, version := ver, bytes := bs } w enc dec x 8
        kLastVersion =
      ({ saving := true, version := ver, bytes := bs ++ leBytes w (enc x) }, x) :=
    fun bs w enc dec x => syncAs_save ver bs w enc dec x 8 kLastVersion (by omega) hk
  have B : ∀ (bs buf : List Nat),
      Serializer.syncBytes { saving := true, version := ver, bytes := bs } buf 16 8
        kLastVersion =
      ({ saving := true, version := ver,
         bytes := bs ++ (List.range 16).map (fun i => buf.getD i 0 % 256) }, buf) :=
    fun bs buf => syncBytes_save ver bs buf 16 8 kLastVersion (by omega) hk
  unfold Player.syncHook
  simp only [S8, B, encHook, List.append_assoc, id]

theorem syncHook_load (ver : Nat) (rest : List Nat) (p q : Player)
    (hv : 117 ≤ ver) (hk : ver ≤ kLastVersion) (hp : Persistable p) :
    q.syncHook { saving := false, version := ver, bytes := encHook p._hook ++ rest } =
      ({ saving := false, version := ver, bytes := rest },
        { q with _hook := { q._hook with _jump0 := p._hook._jump0,
                                         _transpose := p._hook._transpose,
                                         _part_onoff := p._hook._part_onoff,
                                         _part_volume := p._hook._part_volume,
                                         _part_program := p._hook._part_program,
                                         _part_transpose := p._hook._part_transpose } }) := by
  have L8 : ∀ {α : Type} (rest : List Nat) (w n : Nat) (enc : α → Nat) (dec : Nat → α)
      (y : α),
      Serializer.syncAs { saving := false, version := ver, bytes := leBytes w n ++ rest } w enc
        dec y 8 kLastVersion =
      ({ saving := false, version := ver, bytes := rest }, dec (n % 256 ^ w)) :=
    fun rest w n enc dec y => syncAs_load ver rest w n enc dec y 8 kLastVersion (by omega) hk
  obtain ⟨_, _, _, _, _, _, _, _, _, _, ⟨h1, h2, h3, h4, h5, h6⟩, _⟩ := hp
  unfold Player.syncHook
  simp only [encHook, List.append_assoc, L8, dec_byte _ h1, dec_byte _ h2,
    syncBytes_load ver _ _ _ 8 kLastVersion (by omega) hk h3,
    syncBytes_load ver _ _ _ 8 kLastVersion (by omega) hk h4,
    syncBytes_load ver _ _ _ 8 kLastVersion (by omega) hk h5,
    syncBytes_load ver _ _ _ 8 kLastVersion (by omega) hk h6]

theorem syncHead_save (env : Env) (ver : Nat) (bs : List Nat) (p : Player)
    (hk : ver ≤ kLastVersion) :
    p.syncHead env { saving := true, version := ver, bytes := bs } =
      ({ saving := true, version := ver, bytes := bs ++ leBytes 2 (p.headNum env) },
        { p with _music_tick := p.savedTick }) := by
  unfold Player.syncHead Player.savedTick
  simp only [Bool.not_true, Bool.false_eq_true, false_and, if_false, if_true,
    syncAs_save ver bs 2 id id _ 0 kLastVersion (Nat.zero_le _) hk, id]
  rfl

theorem syncHead_load_new (env : Env) (ver : Nat) (rest : List Nat) (num : Nat)
    (hk : ver ≤ kLastVersion) :
    Player.new.syncHead env { saving := false, version := ver, bytes := leBytes 2 num ++ rest } =
      ({ saving := false, version := ver, bytes := rest },
        { Player.new with
          _parts := if num % 256 ^ 2 ≠ 0 then env.partsFrom (num % 256 ^ 2 - 1) else [] }) := by
  unfold Player.syncHead
  simp only [Player.new, syncAs_load ver rest 2 num id id _ 0 kLastVersion (Nat.zero_le _) hk,
    Bool.not_false, ne_eq, not_true_eq_false, and_false, if_false, Bool.false_eq_true, id]


/-! ## Save and load: the round trip -/

theorem saveLoad_save (env : Env) (ver : Nat) (bs : List Nat) (p : Player)
    (hv : 117 ≤ ver) (hk : ver ≤ kLastVersion) :
    p.saveLoadWithSerializer env { saving := true, version := ver, bytes := bs } =
      ({ saving := true, version := ver,
         bytes := bs ++ Player.encode env { p with _music_tick := p.savedTick } },
        { p with _music_tick := p.savedTick }) := by
  unfold Player.saveLoadWithSerializer
  rw [syncHead_save env ver bs p hk]
  dsimp only []
  rw [syncParams_save ver _ _ hv hk]
  dsimp only []
  rw [syncPosition_save env ver _ _ hv hk]
  dsimp only []
  rw [syncHook_save ver _ _ hv hk]
  dsimp only []
  rw [syncArray_save ver hv hk]
  dsimp only []
  rw [if_neg (by simp)]
  simp only [List.append_assoc, Player.encode]
  rfl

theorem persistable_savedTick (p : Player) (hp : Persistable p) :
    Persistable { p with _music_tick := p.savedTick } := hp

theorem savedTick_lt (p : Player) : p.savedTick < 4294967296 := by
  unfold Player.savedTick
  cases p._parserPtr with
  | none => decide
  | some ps => exact Nat.mod_lt _ (by decide)

theorem saveLoad_load_new (env : Env) (ver : Nat) (rest : List Nat) (p : Player)
    (hv : 117 ≤ ver) (hk : ver ≤ kLastVersion) (hw : 16 ≤ env.loopFieldBits)
    (hp : Persistable p) (ht : p._music_tick < 4294967296) :
    Player.new.saveLoadWithSerializer env
        { saving := false, version := ver, bytes := Player.encode env p ++ rest } =
      ({ saving := false, version := ver, bytes := rest },
        { Player.new with
          _parts := if p.headNum env % 256 ^ 2 ≠ 0 then env.partsFrom (p.headNum env % 256 ^ 2 - 1) else [],
          _active := p._active, _id := p._id, _priority := p._priority, _volume := p._volume,
          _pan := p._pan, _transpose := p._transpose, _detune := p._detune,
          _vol_chan := p._vol_chan, _vol_eff := p._vol_eff, _speed := p._speed,
          _track_index := p._track_index, _loop_to_beat := p._loop_to_beat,
          _loop_from_beat := p._loop_from_beat, _loop_counter := p._loop_counter,
          _loop_to_tick := p._loop_to_tick, _loop_from_tick := p._loop_from_tick,
          _music_tick := p._music_tick,
          _hook := { HookDatas.reset with _jump0 := p._hook._jump0, _transpose := p._hook._transpose, _part_onoff := p._hook._part_onoff, _part_volume := p._hook._part_volume, _part_program := p._hook._part_program, _part_transpose := p._hook._part_transpose },
          _parameterFaders := p._parameterFaders }) := by
  have hlen : Player.new._parameterFaders.length = p._parameterFaders.length := by
    rw [hp.2.2.2.2.2.2.2.2.2.2.2.1]
    rfl
  unfold Player.saveLoadWithSerializer Player.encode
  rw [List.append_assoc, List.append_assoc, List.append_assoc, List.append_assoc,
    syncHead_load_new env ver _ _ hk]
  dsimp only []
  rw [syncParams_load ver _ p _ hv hk hp]
  dsimp only []
  rw [syncPosition_load env ver _ p _ hv hk hw hp ht]
  dsimp only []
  rw [syncHook_load ver _ p _ hv hk hp]
  dsimp only []
  rw [syncArray_load ver hv hk p._parameterFaders Player.new._parameterFaders rest hlen
    hp.2.2.2.2.2.2.2.2.2.2.2.2]
  dsimp only []
  rw [if_neg (by omega)]
  rfl

/-- What a save followed by a load into a fresh player gives back. -/
theorem roundTrip_player (env : Env) (ver : Nat) (p : Player)
    (hv : 117 ≤ ver) (hk : ver ≤ kLastVersion) (hw : 16 ≤ env.loopFieldBits)
    (hp : Persistable p) :
    roundTrip env ver p =
      ({ saving := false, version := ver, bytes := [] },
        { Player.new with
          _parts := if p.headNum env % 256 ^ 2 ≠ 0 then env.partsFrom (p.headNum env % 256 ^ 2 - 1) else [],
          _active := p._active, _id := p._id, _priority := p._priority, _volume := p._volume,
          _pan := p._pan, _transpose := p._transpose, _detune := p._detune,
          _vol_chan := p._vol_chan, _vol_eff := p._vol_eff, _speed := p._speed,
          _track_index := p._track_index, _loop_to_beat := p._loop_to_beat,
          _loop_from_beat := p._loop_from_beat, _loop_counter := p._loop_counter,
          _loop_to_tick := p._loop_to_tick, _loop_from_tick := p._loop_from_tick,
          _music_tick := p.savedTick,
          _hook := { HookDatas.reset with _jump0 := p._hook._jump0, _transpose := p._hook._transpose, _part_onoff := p._hook._part_onoff, _part_volume := p._hook._part_volume, _part_program := p._hook._part_program, _part_transpose := p._hook._part_transpose },
          _parameterFaders := p._parameterFaders }) := by
  have h := saveLoad_load_new env ver [] { p with _music_tick := p.savedTick } hv hk hw
    (persistable_savedTick p hp) (savedTick_lt p)
  unfold roundTrip
  rw [saveLoad_save env ver [] p hv hk]
  simp only [List.nil_append]
  rw [List.append_nil] at h
  rw [h]
  rfl

/-- C28 (amended): for a player whose persisted fields hold values of the widths
they are stored with, saving with `saveLoadWithSerializer` at a version from
117 on and loading the bytes into a freshly constructed player consumes all
the bytes and restores the active flag, id, priority, volume, pan, transpose,
detune, volume channel, effective volume, speed, track index, the five loop
fields, the first jump hook, the transpose hook, the four per-channel hook
arrays and every fader slot.  The music tick comes back as the position of the
saving player's parser (0 without a parser).  The second jump hook
`_hook._jump[1]` is not stored: it is 0 after the load. -/
theorem save_load_restores (env : Env) (ver : Nat) (p : Player)
    (hv : 117 ≤ ver) (hk : ver ≤ kLastVersion) (hw : 16 ≤ env.loopFieldBits)
    (hp : Persistable p) :
    (roundTrip env ver p).1.bytes = [] ∧
    (roundTrip env ver p).2._active = p._active ∧ (roundTrip env ver p).2._id = p._id ∧
    (roundTrip env ver p).2._priority = p._priority ∧
    (roundTrip env ver p).2._volume = p._volume ∧ (roundTrip env ver p).2._pan = p._pan ∧
    (roundTrip env ver p).2._transpose = p._transpose ∧
    (roundTrip env ver p).2._detune = p._detune ∧
    (roundTrip env ver p).2._vol_chan = p._vol_chan ∧
    (roundTrip env ver p).2._vol_eff = p._vol_eff ∧ (roundTrip env ver p).2._speed = p._speed ∧
    (roundTrip env ver p).2._track_index = p._track_index ∧
    (roundTrip env ver p).2._loop_to_beat = p._loop_to_beat ∧
    (roundTrip env ver p).2._loop_from_beat = p._loop_from_beat ∧
    (roundTrip env ver p).2._loop_counter = p._loop_counter ∧
    (roundTrip env ver p).2._loop_to_tick = p._loop_to_tick ∧
    (roundTrip env ver p).2._loop_from_tick = p._loop_from_tick ∧
    (roundTrip env ver p).2._music_tick = p.savedTick ∧
    (roundTrip env ver p).2._hook = { p._hook with _jump1 := 0 } ∧
    (roundTrip env ver p).2._parameterFaders = p._parameterFaders := by
  rw [roundTrip_player env ver p hv hk hw hp]
  exact ⟨rfl, rfl, rfl, rfl, rfl, rfl, rfl, rfl, rfl, rfl, rfl, rfl, rfl, rfl, rfl, rfl, rfl, rfl,
    rfl, rfl⟩

theorem save_load_restores_witness :
    (117 ≤ 117 ∧ 16 ≤ (exampleEnv 16).loopFieldBits ∧ Persistable exampleArmed) ∧
    (roundTrip (exampleEnv 16) 117 exampleArmed).2._volume = 100 ∧
    (roundTrip (exampleEnv 16) 117 exampleArmed).2._hook = exampleArmed._hook ∧
    (roundTrip (exampleEnv 16) 117 exampleArmed).2._parameterFaders =
      exampleArmed._parameterFaders :=
  have h := save_load_restores (exampleEnv 16) 117 exampleArmed (by decide) (by decide)
    (by decide) (by decide)
  ⟨⟨by decide, by decide, by decide⟩, h.2.2.2.2.1, h.2.2.2.2.2.2.2.2.2.2.2.2.2.2.2.2.2.2.1,
    h.2.2.2.2.2.2.2.2.2.2.2.2.2.2.2.2.2.2.2⟩

/-- C28 as stated fails for the second jump hook: a player with 7 queued in
`_hook._jump[1]` comes back from a save and load with 0 there. -/
theorem save_load_drops_queued_jump :
    Persistable exampleHooked ∧ exampleHooked._hook._jump1 = 7 ∧
    (roundTrip (exampleEnv 16) 117 exampleHooked).2._hook._jump1 = 0 := by
  refine ⟨by decide, by decide, ?_⟩
  rw [roundTrip_player (exampleEnv 16) 117 exampleHooked (by decide) (by decide) (by decide)
    (by decide)]
  rfl

/-! ## The index of a note-on while scanning -/

/-- C33: while scanning, the note-on for key `k` in 0..127 on channel `c` in
0..15 updates the entry `(byte)(k + _note_offset)` of the 128-entry note bitmap
without a check of that index: where the index is below 128 `send` sets bit `c`
of that entry, and where it is 128..255 the update lies outside the array and
`send` has no defined result.  The index is not within 0..127 for every offset. -/
theorem send_note_on_index (env : Env) (p : Player) (notes : List Nat) (c k v : Nat)
    (hs : p._scanning = true) (hc : c < 16) (hk : k < 128) :
    (toByte (k + p._note_offset) < 128 →
      p.send env notes (144 + c + 256 * k + 65536 * v) =
        some ⟨p, notes.set (toByte (k + p._note_offset))
          (notes.getD (toByte (k + p._note_offset)) 0 ||| 2 ^ c), false⟩) ∧
    (128 ≤ toByte (k + p._note_offset) →
      p.send env notes (144 + c + 256 * k + 65536 * v) = none) := by
  have e1 : (144 + c + 256 * k + 65536 * v) / 16 % 16 = 9 := by omega
  have e2 : (144 + c + 256 * k + 65536 * v) % 16 = c := by omega
  have e3 : (144 + c + 256 * k + 65536 * v) / 256 % 256 = k := by omega
  constructor
  · intro h
    unfold Player.send
    simp only [e1, e2, e3]
    simp [hs, h]
  · intro h
    unfold Player.send
    simp only [e1, e2, e3]
    simp [hs, h]

theorem send_note_on_index_witness :
    exampleOffset = { examplePlayer.setOffsetNote 1 with _scanning := true } ∧
    toByte (127 + exampleOffset._note_offset) = 128 ∧
    exampleOffset.send (exampleEnv 16) (List.replicate 128 0) 0x507F90 = none :=
  ⟨rfl, by decide,
    (send_note_on_index (exampleEnv 16) exampleOffset (List.replicate 128 0) 0 127 80
      (by decide) (by decide) (by decide)).2 (by decide)⟩

/-! ## A slot for every fade -/

/-- A search that finds no slot has passed no free slot. -/
theorem findFaderSlot_none_free (param : Int) (fs : List ParameterFader) :
    ∀ (i : Nat) (best : Option Nat), findFaderSlot param i best fs = none →
      ∀ f, f ∈ fs → f.param ≠ 0 := by
  induction fs with
  | nil =>
    intro i best _ f hf
    simp at hf
  | cons g fs ih =>
    intro i best h
    simp only [findFaderSlot] at h
    split_ifs at h with h1 h2
    · exact absurd (findFaderSlot_none param fs (i + 1) (some i) h).1 (by simp)
    · intro f hf
      rcases List.mem_cons.mp hf with rfl | hf
      · exact h2
      · exact ih (i + 1) best h f hf

/-- Four slots that satisfy the invariant always offer a slot: three fadeable
ids cannot fill four slots without a repetition. -/
theorem findFaderSlot_of_four (fs : List ParameterFader) (hok : FadersOk fs)
    (hlen : fs.length = 4) (param : Int) : findFaderSlot param 0 none fs ≠ none := by
  intro hnone
  have hfree := findFaderSlot_none_free param fs 0 none hnone
  match fs, hlen with
  | [a, b, c, d], _ =>
    have ha := hfree a (by simp)
    have hb := hfree b (by simp)
    have hc := hfree c (by simp)
    have hd := hfree d (by simp)
    have oa := hok.2 0
    have ob := hok.2 1
    have oc := hok.2 2
    have od := hok.2 3
    have n01 := hok.1 0 1 (by simp) (by simp) (by decide)
    have n02 := hok.1 0 2 (by simp) (by simp) (by decide)
    have n03 := hok.1 0 3 (by simp) (by simp) (by decide)
    have n12 := hok.1 1 2 (by simp) (by simp) (by decide)
    have n13 := hok.1 1 3 (by simp) (by simp) (by decide)
    have n23 := hok.1 2 3 (by simp) (by simp) (by decide)
    simp only [List.getD_cons_zero, List.getD_cons_succ, FadeableOrFree,
      ParameterFader.pfVolume, ParameterFader.pfTranspose, ParameterFader.pfSpeed] at *
    have m01 := n01 ha
    have m02 := n02 ha
    have m03 := n03 ha
    have m12 := n12 hb
    have m13 := n13 hb
    have m23 := n23 hc
    omega

theorem transitionParameters_length (env : Env) (p : Player) :
    (p.transitionParameters env)._parameterFaders.length = p._parameterFaders.length :=
  (transitionParameters_paramsFade env p).1

theorem addParameterFader_length (env : Env) (p q : Player) (param target time r : Int)
    (h : p.addParameterFader env param target time = some (q, r)) :
    q._parameterFaders.length = p._parameterFaders.length := by
  rcases addParameterFader_cases env p q param target time r h with
    ⟨hq, -⟩ | ⟨j, -, -, hq, -⟩ | ⟨-, hq, -⟩
  · rw [hq]
  · rw [hq, List.length_set]
  · rw [hq, List.length_map]

/-- The number of slots of every player reached by fades is that of the slots
the run started from; from four free slots it stays four. -/
theorem faderReach_length (env : Env) (p : Player) (h : FaderReach env p) :
    ∃ p0 : Player, (∀ f, f ∈ p0._parameterFaders → f.param = 0) ∧
      p._parameterFaders.length = p0._parameterFaders.length := by
  induction h with
  | free p h => exact ⟨p, h, rfl⟩
  | add p q param target time r _ h ih =>
    obtain ⟨p0, h0, hl⟩ := ih
    exact ⟨p0, h0, (addParameterFader_length env p q _ _ _ _ h).trans hl⟩
  | transition p _ ih =>
    obtain ⟨p0, h0, hl⟩ := ih
    exact ⟨p0, h0, (transitionParameters_length env p).trans hl⟩

/-- A call of `addParameterFader` with a non-zero time and a difference that
fits an `int` returns, whatever the parameter id. -/
theorem addParameterFader_returns (env : Env) (p : Player) (param target time : Int)
    (ht : time ≠ 0)
    (hd : -2147483647 ≤ target - p.faderStart param ∧ target - p.faderStart param ≤ 2147483647) :
    ∃ q r, p.addParameterFader env param target time = some (q, r) := by
  by_cases hp : param = ParameterFader.pfVolume ∨ param = ParameterFader.pfTranspose ∨
      param = ParameterFader.pfSpeed
  · cases hj : findFaderSlot param 0 none p._parameterFaders with
    | some j => exact ⟨_, _, addParameterFader_alloc env p param target time j hp ht hd hj⟩
    | none =>
      refine ⟨p, -1, ?_⟩
      unfold Player.addParameterFader
      simp only [hj]
      rcases hp with h | h | h
      · rw [if_pos h, if_neg ht]
      · subst h
        rw [if_neg (by decide), if_pos rfl, if_neg ht]
      · subst h
        rw [if_neg (by decide), if_neg (by decide), if_pos rfl]
  · have h1 : param ≠ ParameterFader.pfVolume := fun h => hp (Or.inl h)
    have h2 : param ≠ ParameterFader.pfTranspose := fun h => hp (Or.inr (Or.inl h))
    have h3 : param ≠ ParameterFader.pfSpeed := fun h => hp (Or.inr (Or.inr h))
    unfold Player.addParameterFader
    simp only
    rw [if_neg h1, if_neg h2, if_neg h3]
    split_ifs
    · exact ⟨_, _, rfl⟩
    · exact ⟨_, _, rfl⟩

/-- C32: in every player reached from free fader slots by calls of
`addParameterFader` and `transitionParameters`, with four slots, the slot
search finds a matching or free slot for every parameter id; so a call of
`addParameterFader` that returns does not return -1 (it returns 0), and with a
time other than 0 and a difference `target - start` that fits an `int` the call
does return. -/
theorem addParameterFader_never_out_of_slots (env : Env) (p : Player) (h : FaderReach env p)
    (hlen : p._parameterFaders.length = 4) (param target time : Int) :
    findFaderSlot param 0 none p._parameterFaders ≠ none ∧
    (∀ q r, p.addParameterFader env param target time = some (q, r) → r = 0) ∧
    (time ≠ 0 → -2147483647 ≤ target - p.faderStart param →
      target - p.faderStart param ≤ 2147483647 →
      ∃ q, p.addParameterFader env param target time = some (q, 0)) := by
  have hok := fadersOk_of_reach env p h
  have hslot := findFaderSlot_of_four p._parameterFaders hok hlen param
  have hr : ∀ q r, p.addParameterFader env param target time = some (q, r) → r = 0 := by
    intro q r hadd
    rcases addParameterFader_cases env p q param target time r hadd with
      ⟨-, hr | ⟨-, hnone⟩⟩ | ⟨j, -, -, -, hr⟩ | ⟨-, -, hr⟩
    · exact hr
    · exact absurd hnone hslot
    · exact hr
    · exact hr
  refine ⟨hslot, hr, ?_⟩
  intro ht hd1 hd2
  obtain ⟨q, r, hadd⟩ := addParameterFader_returns env p param target time ht ⟨hd1, hd2⟩
  have := hr q r hadd
  subst this
  exact ⟨q, hadd⟩

theorem exampleThreeFades_reach : FaderReach (exampleEnv 16) exampleThreeFades :=
  FaderReach.add _ _ ParameterFader.pfSpeed 64 50 0
    (FaderReach.add _ ((examplePlayer.setFader 3 (newFader ParameterFader.pfVolume 100 0 50)).setFader
        2 (newFader ParameterFader.pfTranspose 0 100 50)) ParameterFader.pfTranspose 100 50 0
      (FaderReach.add examplePlayer (examplePlayer.setFader 3
          (newFader ParameterFader.pfVolume 100 0 50)) ParameterFader.pfVolume 0 50 0
        (FaderReach.free examplePlayer (by decide)) (by decide))
      (by decide))
    (by decide)

theorem addParameterFader_never_out_of_slots_witness :
    (FaderReach (exampleEnv 16) exampleThreeFades ∧
      exampleThreeFades._parameterFaders.length = 4 ∧
      exampleThreeFades._parameterFaders.map (fun f => f.param) = [0, 4, 3, 1]) ∧
    findFaderSlot ParameterFader.pfSpeed 0 none exampleThreeFades._parameterFaders ≠ none ∧
    ∃ q, exampleThreeFades.addParameterFader (exampleEnv 16) ParameterFader.pfSpeed 100 20 =
      some (q, 0) :=
  have h := addParameterFader_never_out_of_slots (exampleEnv 16) exampleThreeFades
    exampleThreeFades_reach (by decide) ParameterFader.pfSpeed 100 20
  ⟨⟨exampleThreeFades_reach, by decide, by decide⟩, h.1,
    h.2.2 (by decide) (by decide) (by decide)⟩

/-! ## The fade-out query during a volume fade -/

theorem volume_setDetune (env : Env) (p : Player) (d : Int) :
    (p.setDetune env d)._volume = p._volume := rfl

theorem volume_setSpeed (env : Env) (p : Player) (s : Nat) :
    (p.setSpeed env s)._volume = p._volume := by
  unfold Player.setSpeed
  dsimp only
  split
  · rfl
  · split <;> rfl

theorem volume_clear (env : Env) (p : Player) : (p.clear env)._volume = p._volume := by
  unfold Player.clear
  split <;> rfl

theorem volume_setVolume (env : Env) (p : Player) (vol : Nat) (h : vol ≤ 127) :
    (p.setVolume env vol).1._volume = vol := by
  unfold Player.setVolume
  rw [if_neg (by omega)]

theorem toByte_le (x : Int) (h0 : 0 ≤ x) (h1 : x ≤ 127) : toByte x ≤ 127 := by
  unfold toByte
  omega

/-- The volume after one slot of the loop. -/
theorem stepFader_volume (env : Env) (p : Player) (f : ParameterFader) :
    (stepFader env p f).1._volume = volStep p._volume f := by
  by_cases hc : f.param = ParameterFader.pfVolume ∧ f.mod ≠ 0 ∧ 0 ≤ f.advance.state ∧
      f.advance.state ≤ 127
  · have hstep : volStep p._volume f = toByte f.advance.state := if_pos hc
    obtain ⟨hv, hm, hr⟩ := hc
    have h0 : f.param ≠ 0 := by rw [hv]; decide
    have hb := toByte_le _ hr.1 hr.2
    rw [hstep]
    unfold stepFader
    dsimp only
    rw [if_neg h0, if_neg hm, advance_param, if_pos hv, if_pos hr]
    split_ifs
    · exact (volume_clear _ _).trans (volume_setVolume _ _ _ hb)
    · exact volume_setVolume _ _ _ hb
  · have hstep : volStep p._volume f = p._volume := if_neg hc
    rw [hstep]
    unfold stepFader
    dsimp only
    rw [advance_param]
    split_ifs <;>
      first
      | rfl
      | exact volume_setDetune _ _ _
      | exact volume_setSpeed _ _ _
      | (exfalso; apply hc; refine ⟨?_, ?_, ?_⟩ <;> assumption)

theorem volStep_of_ne (v : Nat) (f : ParameterFader) (h : f.param ≠ ParameterFader.pfVolume) :
    volStep v f = v := by
  unfold volStep
  rw [if_neg (fun c => h c.1)]

/-- The volume after a quantum in which no slot stops the player. -/
theorem stepFaders_volume (env : Env) (fs : List ParameterFader) (p : Player)
    (h : fs.any ParameterFader.stops = false) :
    (stepFaders env p fs).1._volume = fs.foldl volStep p._volume := by
  induction fs generalizing p with
  | nil => rfl
  | cons f fs ih =>
    rw [List.any_cons, Bool.or_eq_false_iff] at h
    rw [stepFaders_cons, stepFader_stop, h.1]
    simp only [Bool.false_eq_true, if_false, List.foldl_cons]
    rw [ih _ h.2, stepFader_volume]

theorem foldl_volStep_none (fs : List ParameterFader) (v : Nat)
    (h : ∀ g, g ∈ fs → g.param ≠ ParameterFader.pfVolume) : fs.foldl volStep v = v := by
  induction fs generalizing v with
  | nil => rfl
  | cons f fs ih =>
    rw [List.foldl_cons, volStep_of_ne v f (h f (by simp))]
    exact ih v (fun g hg => h g (List.mem_cons_of_mem _ hg))

/-- With the volume in slot `j` only, the quantum moves the volume as slot `j` says. -/
theorem foldl_volStep_one (fs : List ParameterFader) :
    ∀ (j v : Nat), (∀ i g, i ≠ j → fs[i]? = some g → g.param ≠ ParameterFader.pfVolume) →
      fs.foldl volStep v = volStep v (fs.getD j ParameterFader.zero) := by
  induction fs with
  | nil =>
    intro j v _
    simp only [List.foldl_nil, List.getD_nil]
    exact (volStep_of_ne v _ (by decide)).symm
  | cons f fs ih =>
    intro j v h
    cases j with
    | zero =>
      rw [List.foldl_cons, List.getD_cons_zero]
      apply foldl_volStep_none
      intro g hg
      obtain ⟨i, hi⟩ := List.mem_iff_getElem?.mp hg
      exact h (i + 1) g (by omega) (by simpa using hi)
    | succ j =>
      rw [List.foldl_cons, List.getD_cons_succ, volStep_of_ne v f (h 0 f (by omega) (by simp))]
      exact ih j v (fun i g hi hg => h (i + 1) g (by omega) (by simpa using hg))

theorem isFadingOutFrom_none (p : Player) (fs : List ParameterFader)
    (h : ∀ g, g ∈ fs → g.param ≠ ParameterFader.pfVolume) : isFadingOutFrom p fs = some false := by
  induction fs with
  | nil => rfl
  | cons f fs ih =>
    unfold isFadingOutFrom
    rw [if_neg (h f (by simp))]
    exact ih (fun g hg => h g (List.mem_cons_of_mem _ hg))

/-- With the volume in slot `j` only, `isFadingOut` is the test of the
projection of slot `j`. -/
theorem isFadingOutFrom_one (p : Player) (x : Int) (fs : List ParameterFader) :
    ∀ (j : Nat), (fs.getD j ParameterFader.zero).param = ParameterFader.pfVolume →
      p.fadeProjection (fs.getD j ParameterFader.zero) = some x →
      (∀ i g, i ≠ j → fs[i]? = some g → g.param ≠ ParameterFader.pfVolume) →
      isFadingOutFrom p fs = some (decide (x = 0)) := by
  induction fs with
  | nil =>
    intro j hp _ _
    simp only [List.getD_nil] at hp
    exact absurd hp (by decide)
  | cons f fs ih =>
    intro j hp hx h
    cases j with
    | zero =>
      rw [List.getD_cons_zero] at hp hx
      unfold isFadingOutFrom
      rw [if_pos hp, hx]
      simp only
      have hrest : isFadingOutFrom p fs = some false := by
        apply isFadingOutFrom_none
        intro g hg
        obtain ⟨i, hi⟩ := List.mem_iff_getElem?.mp hg
        exact h (i + 1) g (by omega) (by simpa using hi)
      rw [hrest]
      by_cases h0 : x = 0
      · simp [h0]
      · simp [h0]
    | succ j =>
      rw [List.getD_cons_succ] at hp hx
      unfold isFadingOutFrom
      rw [if_neg (h 0 f (by omega) (by simp))]
      exact ih j hp hx (fun i g hi hg => h (i + 1) g (by omega) (by simpa using hg))

/-- C31 as stated fails for a time that does not fit the 16-bit `ttime`: a fade
of the volume from 100 to 0 over 65536 quanta returns 0 and stores the time 0,
and `isFadingOut` then divides by that `ttime`. -/
theorem isFadingOut_divides_by_zero :
    examplePlayer.addParameterFader (exampleEnv 16) ParameterFader.pfVolume 0 65536 =
        some (examplePlayer.setFader 3 (newFader ParameterFader.pfVolume 100 0 65536), 0) ∧
    ((examplePlayer.setFader 3 (newFader ParameterFader.pfVolume 100 0 65536))._parameterFaders.getD
      3 ParameterFader.zero).ttime = 0 ∧
    (examplePlayer.setFader 3 (newFader ParameterFader.pfVolume 100 0 65536)).isFadingOut = none := by
  refine ⟨by decide, by decide, by decide⟩

/-! ## The projection of a volume fade -/

theorem newFader_isVolumeFade (v t T : Nat) (hv : v ≤ 127) (ht : t ≤ 127) (hT : 0 < T)
    (hT2 : T ≤ 65535) :
    (newFader ParameterFader.pfVolume v t T).IsVolumeFade v ((t : Int) - v).natAbs T
      (if (t : Int) - v ≥ 0 then 1 else -1) := by
  have hn : ((t : Int) - v).natAbs ≤ 127 := by omega
  have hdiv : ((t : Int) - v).natAbs / T ≤ ((t : Int) - v).natAbs := Nat.div_le_self _ _
  have hmod : ((t : Int) - v).natAbs % T < T := Nat.mod_lt _ hT
  have h1 : toInt16 (v : Int) = v := toInt16_of_range _ (by omega) (by omega)
  have h2 : toUint16 (T : Int) = T := toUint16_natCast _ (by omega)
  have h4 : toUint16 (Int.tmod ((((t : Int) - v).natAbs : Nat) : Int) T) =
      ((t : Int) - v).natAbs % T := by
    rw [← Int.ofNat_tmod, toUint16_natCast _ (by omega)]
  have h5 : toInt16 (Int.tdiv ((t : Int) - v) T) =
      (if (t : Int) - v ≥ 0 then 1 else -1) * ((((t : Int) - v).natAbs / T : Nat) : Int) := by
    rw [tdiv_natAbs]
    generalize ((t : Int) - v).natAbs / T = q at hdiv
    apply toInt16_of_range
    · split_ifs <;> omega
    · split_ifs <;> omega
  unfold ParameterFader.IsVolumeFade newFader
  dsimp only
  rw [h1, h2, h4, h5]
  exact ⟨rfl, rfl, rfl, rfl, rfl, rfl, rfl, rfl⟩

theorem natAbs_sign (v t : Nat) :
    (t : Int) = v + (if (t : Int) - v ≥ 0 then 1 else -1) * ((((t : Int) - v).natAbs : Nat) : Int) := by
  split_ifs <;> omega

theorem div_split (k n T : Nat) (hT : 0 < T) : k * n / T = k * (n / T) + k * (n % T) / T := by
  have : k * n = T * (k * (n / T)) + k * (n % T) := by
    conv_lhs => rw [← Nat.div_add_mod n T]
    ring
  rw [this, Nat.mul_add_div hT]

/-- The state of a volume fade after `k ≤ T` ordinary steps. -/
theorem isVolumeFade_state (f : ParameterFader) (v n T k : Nat) (s : Int)
    (hf : f.IsVolumeFade v n T s) (hs : s = 1 ∨ s = -1) (hT : 0 < T) (hk : k ≤ T)
    (hlo : 0 ≤ (v : Int) + s * n) (hhi : (v : Int) + s * n ≤ 127) (hv : v ≤ 127) :
    (f.at k).state = v + s * ((k * n / T : Nat) : Int) := by
  obtain ⟨-, h1, h2, -, h3, h4, h5, -⟩ := hf
  have hle : k * n / T ≤ n := by
    apply Nat.div_le_of_le_mul
    exact Nat.mul_le_mul_right n hk
  have hcast : ((k * (n / T) + k * (n % T) / T : Nat) : Int) =
      (k : Int) * ((n / T : Nat) : Int) + ((k * (n % T) / T : Nat) : Int) := by
    rw [Nat.cast_add, Nat.cast_mul]
  have hval : (v : Int) + (k : Int) * (s * ((n / T : Nat) : Int)) +
      s * ((k * (n % T) / T : Nat) : Int) = v + s * ((k * n / T : Nat) : Int) := by
    rw [div_split k n T hT, hcast]
    ring
  unfold ParameterFader.at
  dsimp only
  rw [h1, h2, h3, h4, h5, hval]
  clear hval hcast
  generalize k * n / T = x at hle ⊢
  apply toInt16_of_range
  · rcases hs with rfl | rfl <;> omega
  · rcases hs with rfl | rfl <;> omega

theorem isVolumeFade_state_range (f : ParameterFader) (v n T k : Nat) (s : Int)
    (hf : f.IsVolumeFade v n T s) (hs : s = 1 ∨ s = -1) (hT : 0 < T) (hk : k ≤ T)
    (hlo : 0 ≤ (v : Int) + s * n) (hhi : (v : Int) + s * n ≤ 127) (hv : v ≤ 127) :
    0 ≤ (f.at k).state ∧ (f.at k).state ≤ 127 := by
  have hle : k * n / T ≤ n := by
    apply Nat.div_le_of_le_mul
    exact Nat.mul_le_mul_right n hk
  rw [isVolumeFade_state f v n T k s hf hs hT hk hlo hhi hv]
  generalize k * n / T = x at hle ⊢
  rcases hs with rfl | rfl <;> omega

theorem isVolumeFade_premises (f : ParameterFader) (v n T : Nat) (s : Int)
    (hf : f.IsVolumeFade v n T s) (hT : 0 < T) (hb : T + n ≤ 65536) (hv : v ≤ 127) :
    f.ifrac < f.ttime ∧ f.ttime + f.ifrac ≤ 65536 ∧ f.irem = 0 ∧ f.cntdwn = f.ttime ∧
      toInt16 f.state = f.state := by
  obtain ⟨-, h1, h2, h3, -, -, h5, h6⟩ := hf
  have hmod : n % T < T := Nat.mod_lt _ hT
  have hmn : n % T ≤ n := Nat.mod_le _ _
  rw [h1, h2, h3, h5]
  exact ⟨hmod, by omega, h6, rfl, toInt16_of_range _ (by omega) (by omega)⟩

/-- A volume fade does not stop the player before its last quantum. -/
theorem isVolumeFade_no_stop (f : ParameterFader) (v n T k : Nat) (s : Int)
    (hf : f.IsVolumeFade v n T s) (hs : s = 1 ∨ s = -1) (hT : 0 < T) (hb : T + n ≤ 65536)
    (hk : k + 1 < T)
    (hlo : 0 ≤ (v : Int) + s * n) (hhi : (v : Int) + s * n ≤ 127) (hv : v ≤ 127) :
    (f.at k).stops = false := by
  obtain ⟨hr, hov, -, -, -⟩ := isVolumeFade_premises f v n T s hf hT hb hv
  have h0 := isVolumeFade_state f v n T k s hf hs hT (by omega) hlo hhi hv
  have h1 := isVolumeFade_state f v n T (k + 1) s hf hs hT (by omega) hlo hhi hv
  have hsucc := at_state_succ f k hr hov
  have hmod := at_mod f k hr hov
  have hmono : k * n / T ≤ (k + 1) * n / T :=
    Nat.div_le_div_right (Nat.mul_le_mul_right n (Nat.le_succ k))
  have hle : (k + 1) * n / T ≤ n := by
    apply Nat.div_le_of_le_mul
    exact Nat.mul_le_mul_right n (by omega)
  have hlt : 0 < n → (k + 1) * n / T < n := by
    intro hn
    apply Nat.div_lt_of_lt_mul
    exact Nat.mul_lt_mul_of_pos_right (by omega) hn
  have hinc : f.incr = s * ((n / T : Nat) : Int) := hf.2.2.2.2.2.1
  have hdir : f.dir = s := hf.2.2.2.2.1
  have hq : n / T ≤ n := Nat.div_le_self _ _
  have hsmall : -128 ≤ (f.at k).mod ∧ (f.at k).mod ≤ 128 := by
    rw [hmod, hinc, hdir]
    generalize n / T = q at hq
    rcases hs with rfl | rfl <;> split_ifs <;> omega
  have hadv : (f.at k).advance.state = (f.at (k + 1)).state := hsucc.symm
  unfold ParameterFader.stops
  rw [hadv]
  simp only [decide_eq_false_iff_not, not_and]
  intro _ hm _ hz
  apply hm
  generalize (f.at k).mod = m at hsmall hsucc ⊢
  generalize k * n / T = x0 at h0 hmono
  generalize (k + 1) * n / T = x1 at h1 hmono hle hlt
  have hrange : -32768 ≤ (f.at k).state + m ∧ (f.at k).state + m ≤ 32767 := by
    rw [h0]
    rcases hs with rfl | rfl <;> omega
  rw [toInt16_of_range _ hrange.1 hrange.2, h0] at hsucc
  rw [h1] at hsucc hz
  rcases hs with rfl | rfl
  · omega
  · by_cases hn : 0 < n
    · have := hlt hn
      omega
    · omega

theorem isVolumeFade_iterate (f : ParameterFader) (v n T k : Nat) (s : Int)
    (hf : f.IsVolumeFade v n T s) (hT : 0 < T) (hb : T + n ≤ 65536) (hv : v ≤ 127)
    (hk : k ≤ T) : ParameterFader.next^[k] f = f.at k := by
  obtain ⟨hr, hov, hi, hc, hst⟩ := isVolumeFade_premises f v n T s hf hT hb hv
  exact iterate_next_eq_at f (Or.inl hf.1) hr hov hi hc hst k (by rw [hf.2.2.1]; exact hk)

theorem others_stay_non_volume (fs : List ParameterFader) (j : Nat) (f0 : ParameterFader)
    (k : Nat)
    (hoth : ∀ i g, i ≠ j → fs[i]? = some g → g.param ≠ ParameterFader.pfVolume) :
    ∀ i g, i ≠ j → ((fs.set j f0).map (fun f => ParameterFader.next^[k] f))[i]? = some g →
      g.param ≠ ParameterFader.pfVolume := by
  intro i g hi hg
  rw [List.getElem?_map, Option.map_eq_some'] at hg
  obtain ⟨g0, hg0, rfl⟩ := hg
  rcases getElem?_set_cases fs j f0 i g0 hg0 with ⟨h1, -⟩ | ⟨-, h2⟩
  · exact absurd h1 hi
  · exact iterate_next_param_ne g0 k (hoth i g0 hi h2)

theorem toByte_cast_of_range (x : Int) (h0 : 0 ≤ x) (h1 : x ≤ 127) : ((toByte x : Nat) : Int) = x := by
  unfold toByte
  omega

/-- The run of a volume fade before its last quantum: the player's volume is
the state of the fade's slot, and every slot takes its ordinary steps. -/
theorem volume_track_run (env : Env) (p1 : Player) (fs : List ParameterFader)
    (f0 : ParameterFader) (j v n T : Nat) (s : Int)
    (hf : f0.IsVolumeFade v n T s) (hs : s = 1 ∨ s = -1) (hT : 0 < T) (hb : T + n ≤ 65536)
    (hlo : 0 ≤ (v : Int) + s * n) (hhi : (v : Int) + s * n ≤ 127) (hv : v ≤ 127)
    (hvol : p1._volume = v) (hjl : j < fs.length)
    (hfs : p1._parameterFaders = fs.set j f0)
    (hoth : ∀ i g, i ≠ j → fs[i]? = some g → g.param ≠ ParameterFader.pfVolume)
    (k : Nat) (hk : k < T) :
    ((runQuanta env k p1)._volume : Int) = (f0.at k).state ∧
      (runQuanta env k p1)._parameterFaders =
        (fs.set j f0).map (fun f => ParameterFader.next^[k] f) := by
  induction k with
  | zero =>
    refine ⟨?_, by simp [runQuanta, hfs]⟩
    rw [isVolumeFade_state f0 v n T 0 s hf hs hT (Nat.zero_le _) hlo hhi hv]
    simp [runQuanta, hvol]
  | succ k ih =>
    obtain ⟨iv, ifs⟩ := ih (Nat.lt_of_succ_lt hk)
    obtain ⟨hr, hov, -, -, -⟩ := isVolumeFade_premises f0 v n T s hf hT hb hv
    have hoth2 := others_stay_non_volume fs j f0 k hoth
    have hslot : ((fs.set j f0).map (fun f => ParameterFader.next^[k] f)).getD j
        ParameterFader.zero = f0.at k := by
      rw [getD_set_map_self _ _ _ _ hjl]
      exact isVolumeFade_iterate f0 v n T k s hf hT hb hv (by omega)
    have hany : (runQuanta env k p1)._parameterFaders.any ParameterFader.stops = false := by
      rw [List.any_eq_false, ifs]
      intro g hg
      obtain ⟨f, hf2, rfl⟩ := List.mem_map.mp hg
      obtain ⟨i, hi⟩ := List.mem_iff_getElem?.mp hf2
      rcases getElem?_set_cases fs j _ i f hi with ⟨-, rfl⟩ | ⟨hne, hfi⟩
      · rw [isVolumeFade_iterate f v n T k s hf hT hb hv (by omega),
          isVolumeFade_no_stop f v n T k s hf hs hT hb hk hlo hhi hv]
        simp
      · rw [stops_of_not_volume _ (iterate_next_param_ne f k (hoth i f hne hfi))]
        simp
    constructor
    · have hq : (fadeQuantum env (runQuanta env k p1)).1._volume =
          (stepFaders env (runQuanta env k p1) (runQuanta env k p1)._parameterFaders).1._volume :=
        rfl
      rw [runQuanta_succ_last, hq, stepFaders_volume env _ _ hany, ifs,
        foldl_volStep_one _ j _ hoth2, hslot]
      have hsucc := at_state_succ f0 k hr hov
      have hrange := isVolumeFade_state_range f0 v n T (k + 1) s hf hs hT (by omega) hlo hhi hv
      have hadv : (f0.at k).advance.state = (f0.at (k + 1)).state := hsucc.symm
      unfold volStep
      by_cases hm : (f0.at k).mod = 0
      · rw [if_neg (fun h => h.2.1 hm), iv, hsucc, hm, add_zero, at_state_idem]
      · have hpar : (f0.at k).param = ParameterFader.pfVolume := by
          rw [at_param_ne f0 k (by rw [hf.2.2.1]; omega)]
          exact hf.1
        rw [if_pos ⟨hpar, hm, by rw [hadv]; exact hrange⟩, hadv]
        exact toByte_cast_of_range _ hrange.1 hrange.2
    · rw [runQuanta_succ_last, fadeQuantum_faders env _ hany, ifs, List.map_map]
      apply List.map_congr_left
      intro f _
      simp only [Function.comp_apply, Function.iterate_succ_apply']

theorem fitsInt_of_range (x : Int) (h1 : -2147483648 ≤ x) (h2 : x ≤ 2147483647) :
    fitsInt x = true := by
  unfold fitsInt
  simp only [decide_eq_true_eq]
  exact ⟨h1, h2⟩

theorem projection_remainder (k r T : Nat) (hk : k ≤ T) :
    k * r % T + (T - k) * r = T * (r - k * r / T) := by
  have h1 := Nat.div_add_mod (k * r) T
  have h2 : k * r ≤ T * r := Nat.mul_le_mul_right r hk
  rw [Nat.sub_mul, Nat.mul_sub]
  generalize T * (k * r / T) = c at h1 ⊢
  generalize k * r % T = e at h1 ⊢
  generalize k * r = a at h1 h2 ⊢
  generalize T * r = b at h2 ⊢
  omega

/-- The projection of `isFadingOut` for the slot of a volume fade after `k ≤ T`
ordinary steps, with the player's volume at the slot's state: it is defined
and equals the target. -/
theorem isVolumeFade_projection (q : Player) (f : ParameterFader) (v n T k : Nat) (s : Int)
    (hf : f.IsVolumeFade v n T s) (hs : s = 1 ∨ s = -1) (hT : 0 < T) (hT2 : T ≤ 65535)
    (hk : k ≤ T)
    (hlo : 0 ≤ (v : Int) + s * n) (hhi : (v : Int) + s * n ≤ 127) (hv : v ≤ 127)
    (hq : (q._volume : Int) = (f.at k).state) :
    q.fadeProjection (f.at k) = some (v + s * n) := by
  have hstate := isVolumeFade_state f v n T k s hf hs hT hk hlo hhi hv
  obtain ⟨-, -, h2, -, h3, h4, h5, -⟩ := hf
  have hn : n ≤ 127 := by rcases hs with rfl | rfl <;> omega
  have hc1 : (f.at k).cntdwn = T - k := by
    unfold ParameterFader.at
    rw [h2]
  have hc2 : (f.at k).incr = s * ((n / T : Nat) : Int) := h4
  have hc3 : (f.at k).ifrac = n % T := h5
  have hc4 : (f.at k).irem = k * (n % T) % T := by
    unfold ParameterFader.at
    rw [h2, h5]
  have hc5 : (f.at k).ttime = T := h2
  have hc6 : (f.at k).dir = s := h3
  -- the operands
  have hmr : k * (n % T) / T ≤ n % T := by
    apply Nat.div_le_of_le_mul
    exact Nat.mul_le_mul_right _ hk
  have hrn : n % T ≤ n := Nat.mod_le _ _
  have hA : (T - k) * (n / T) ≤ n :=
    Nat.le_trans (Nat.mul_le_mul_right _ (Nat.sub_le T k)) (Nat.mul_div_le n T)
  have hB : (T - k) * (n % T) ≤ 65535 * 127 :=
    Nat.mul_le_mul (Nat.le_trans (Nat.sub_le T k) hT2) (Nat.le_trans hrn hn)
  have hE : k * (n % T) % T < T := Nat.mod_lt _ hT
  have ha : ((T - k : Nat) : Int) * (s * ((n / T : Nat) : Int)) =
      s * (((T - k) * (n / T) : Nat) : Int) := by
    push_cast
    ring
  have hbv : ((T - k : Nat) : Int) * ((n % T : Nat) : Int) = (((T - k) * (n % T) : Nat) : Int) := by
    push_cast
    ring
  have hcv : ((k * (n % T) % T : Nat) : Int) + (((T - k) * (n % T) : Nat) : Int) =
      ((T * (n % T - k * (n % T) / T) : Nat) : Int) := by
    rw [← Nat.cast_add, projection_remainder k (n % T) T hk]
  have hdiv : Int.tdiv ((T * (n % T - k * (n % T) / T) : Nat) : Int) (T : Int) =
      ((n % T - k * (n % T) / T : Nat) : Int) := by
    rw [← Int.ofNat_tdiv, Nat.mul_div_cancel_left _ hT]
  have hsum : (v : Int) + s * ((k * n / T : Nat) : Int) + s * (((T - k) * (n / T) : Nat) : Int) +
      ((n % T - k * (n % T) / T : Nat) : Int) * s = v + s * n := by
    have e1 : ((k * n / T : Nat) : Int) =
        (k : Int) * ((n / T : Nat) : Int) + ((k * (n % T) / T : Nat) : Int) := by
      rw [div_split k n T hT, Nat.cast_add, Nat.cast_mul]
    have e2 : (((T - k) * (n / T) : Nat) : Int) = ((T : Int) - k) * ((n / T : Nat) : Int) := by
      rw [Nat.cast_mul, Nat.cast_sub hk]
    have e3 : ((n % T - k * (n % T) / T : Nat) : Int) =
        ((n % T : Nat) : Int) - ((k * (n % T) / T : Nat) : Int) := Nat.cast_sub hmr
    have e4 : (n : Int) = (T : Int) * ((n / T : Nat) : Int) + ((n % T : Nat) : Int) := by
      rw [← Nat.cast_mul, ← Nat.cast_add, Nat.div_add_mod]
    rw [e1, e2, e3]
    conv_rhs => rw [e4]
    ring
  have hTk : (T * (n % T - k * (n % T) / T) : Nat) ≤ 65535 * 127 + 65535 := by
    rw [← projection_remainder k (n % T) T hk]
    omega
  have hM : n % T - k * (n % T) / T ≤ n := Nat.le_trans (Nat.sub_le _ _) hrn
  have hX : k * n / T ≤ n := by
    apply Nat.div_le_of_le_mul
    exact Nat.mul_le_mul_right n hk
  unfold Player.fadeProjection
  dsimp only
  rw [hq, hstate, hc1, hc2, hc3, hc4, hc5, hc6, ha, hbv, hcv, hdiv, hsum]
  have f1 : fitsInt (s * (((T - k) * (n / T) : Nat) : Int)) = true := by
    generalize (T - k) * (n / T) = A at hA
    apply fitsInt_of_range <;> rcases hs with rfl | rfl <;> omega
  have f2 : fitsInt ((((T - k) * (n % T) : Nat) : Nat) : Int) = true := by
    generalize (T - k) * (n % T) = B at hB
    apply fitsInt_of_range <;> omega
  have f3 : fitsInt ((T * (n % T - k * (n % T) / T) : Nat) : Int) = true := by
    generalize T * (n % T - k * (n % T) / T) = C at hTk
    apply fitsInt_of_range <;> omega
  have f4 : fitsInt (((n % T - k * (n % T) / T : Nat) : Int) * s) = true := by
    generalize n % T - k * (n % T) / T = M at hM
    apply fitsInt_of_range <;> rcases hs with rfl | rfl <;> omega
  have f5 : fitsInt ((v : Int) + s * ((k * n / T : Nat) : Int) +
      s * (((T - k) * (n / T) : Nat) : Int)) = true := by
    generalize (T - k) * (n / T) = A at hA
    generalize k * n / T = X at hX
    apply fitsInt_of_range <;> rcases hs with rfl | rfl <;> omega
  have f6 : fitsInt ((v : Int) + s * n) = true := by
    apply fitsInt_of_range <;> omega
  rw [f1, f2, f3, f4, f5, f6]
  rw [if_neg (by simp; omega), if_neg (by simp)]

/-- C31 (amended): a player with volume `v` in 0..127 whose fader slots hold no
parameter twice and offer slot `j` to the volume starts a fade to a target `t`
in 0..127 over `T` quanta, `1 ≤ T ≤ 65535` and `T + |t - v| ≤ 65536`:
`addParameterFader` returns 0, and after each of the first `k < T` quanta the
slot still holds the volume with the time `T`, the projection of `isFadingOut`
for it is defined (no division by zero, no overflow) and equals `t`, and
`isFadingOut` returns true if and only if `t` is 0. -/
theorem isFadingOut_during_fade (env : Env) (p : Player) (t T j : Nat)
    (hv : p._volume ≤ 127) (ht : t ≤ 127) (hT : 0 < T) (hT2 : T ≤ 65535)
    (hb : T + ((t : Int) - p._volume).natAbs ≤ 65536)
    (hnd : NoDupParams p._parameterFaders)
    (hj : findFaderSlot ParameterFader.pfVolume 0 none p._parameterFaders = some j) :
    p.addParameterFader env ParameterFader.pfVolume t T =
        some (p.setFader j (newFader ParameterFader.pfVolume p._volume t T), 0) ∧
    ∀ k, k < T →
      ((runQuanta env k (p.setFader j (newFader ParameterFader.pfVolume p._volume t T))
          )._parameterFaders.getD j ParameterFader.zero).param = ParameterFader.pfVolume ∧
      ((runQuanta env k (p.setFader j (newFader ParameterFader.pfVolume p._volume t T))
          )._parameterFaders.getD j ParameterFader.zero).ttime = T ∧
      (runQuanta env k (p.setFader j (newFader ParameterFader.pfVolume p._volume t T))
          ).fadeProjection
        ((runQuanta env k (p.setFader j (newFader ParameterFader.pfVolume p._volume t T))
          )._parameterFaders.getD j ParameterFader.zero) = some (t : Int) ∧
      (runQuanta env k (p.setFader j (newFader ParameterFader.pfVolume p._volume t T))
          ).isFadingOut = some (decide (t = 0)) := by
  have hjl : j < p._parameterFaders.length := (findFaderSlot_spec _ _ j hj).1
  have hoth : ∀ i g, i ≠ j → p._parameterFaders[i]? = some g →
      g.param ≠ ParameterFader.pfVolume :=
    fun i g => other_slots_ne p._parameterFaders _ j (by decide) hnd hj i g
  have hstart : p.faderStart ParameterFader.pfVolume = p._volume := by
    simp [Player.faderStart]
  have hadd := addParameterFader_alloc env p ParameterFader.pfVolume t T j (Or.inl rfl)
    (by omega) (by rw [hstart]; omega) hj
  rw [hstart] at hadd
  have hf := newFader_isVolumeFade p._volume t T hv ht hT hT2
  have hsign := natAbs_sign p._volume t
  have hs : (if (t : Int) - p._volume ≥ 0 then (1 : Int) else -1) = 1 ∨
      (if (t : Int) - p._volume ≥ 0 then (1 : Int) else -1) = -1 := by
    split_ifs
    · exact Or.inl rfl
    · exact Or.inr rfl
  generalize newFader ParameterFader.pfVolume p._volume t T = f0 at hf hadd ⊢
  generalize (if (t : Int) - p._volume ≥ 0 then (1 : Int) else -1) = s at hf hsign hs
  generalize ((t : Int) - p._volume).natAbs = n at hf hsign hb
  have hlo : 0 ≤ (p._volume : Int) + s * n := by omega
  have hhi : (p._volume : Int) + s * n ≤ 127 := by omega
  refine ⟨hadd, ?_⟩
  intro k hk
  obtain ⟨hvolk, hfsk⟩ := volume_track_run env (p.setFader j f0) p._parameterFaders f0 j
    p._volume n T s hf hs hT hb hlo hhi hv rfl hjl rfl hoth k hk
  have hslot : (runQuanta env k (p.setFader j f0))._parameterFaders.getD j ParameterFader.zero =
      f0.at k := by
    rw [hfsk, getD_set_map_self _ _ _ _ hjl]
    exact isVolumeFade_iterate f0 p._volume n T k s hf hT hb hv (Nat.le_of_lt hk)
  have hpar : (f0.at k).param = ParameterFader.pfVolume := by
    rw [at_param_ne f0 k (by rw [hf.2.2.1]; exact hk)]
    exact hf.1
  have hproj := isVolumeFade_projection (runQuanta env k (p.setFader j f0)) f0 p._volume n T k s
    hf hs hT hT2 (Nat.le_of_lt hk) hlo hhi hv hvolk
  rw [← hsign] at hproj
  rw [hslot]
  refine ⟨hpar, hf.2.2.1, hproj, ?_⟩
  unfold Player.isFadingOut
  have hone := isFadingOutFrom_one (runQuanta env k (p.setFader j f0)) (t : Int)
    (runQuanta env k (p.setFader j f0))._parameterFaders j (by rw [hslot]; exact hpar)
    (by rw [hslot]; exact hproj)
    (by rw [hfsk]; exact others_stay_non_volume p._parameterFaders j f0 k hoth)
  rw [hone]
  simp

theorem isFadingOut_during_fade_witness :
    (examplePlayer._volume = 100 ∧
      findFaderSlot ParameterFader.pfVolume 0 none examplePlayer._parameterFaders = some 3) ∧
    (runQuanta (exampleEnv 16) 20 (examplePlayer.setFader 3
        (newFader ParameterFader.pfVolume examplePlayer._volume (0 : Nat) (50 : Nat)))).isFadingOut =
      some true ∧
    (runQuanta (exampleEnv 16) 20 (examplePlayer.setFader 3
        (newFader ParameterFader.pfVolume examplePlayer._volume (64 : Nat) (50 : Nat)))).isFadingOut =
      some false :=
  ⟨⟨by decide, by decide⟩,
    ((isFadingOut_during_fade (exampleEnv 16) examplePlayer 0 50 3 (by decide) (by decide)
      (by decide) (by decide) (by decide) (noDupParams_of_all_free _ (by decide))
      (by decide)).2 20 (by decide)).2.2.2,
    ((isFadingOut_during_fade (exampleEnv 16) examplePlayer 64 50 3 (by decide) (by decide)
      (by decide) (by decide) (by decide) (noDupParams_of_all_free _ (by decide))
      (by decide)).2 20 (by decide)).2.2.2⟩

/-! ## Upgrading the usage bits -/

theorem land_two_pow_ne_zero (x n : Nat) : x &&& 2 ^ n ≠ 0 ↔ x.testBit n = true := by
  constructor
  · intro h
    obtain ⟨i, hi⟩ := Nat.ne_zero_implies_bit_true h
    rw [Nat.testBit_and, Nat.testBit_two_pow, Bool.and_eq_true, decide_eq_true_eq] at hi
    rw [hi.2]
    exact hi.1
  · intro h e
    have h2 : (x &&& 2 ^ n).testBit n = true := by
      rw [Nat.testBit_and, h, Nat.testBit_two_pow_self]
      rfl
    rw [e] at h2
    simp at h2

theorem withLegacyFlags_testBit (w old b : Nat) :
    (withLegacyFlags w old).testBit b =
      (w.testBit b || (decide (b = 31) && old.testBit 31) || (decide (b = 30) && old.testBit 30)) := by
  have e31 : (0x80000000 : Nat) = 2 ^ 31 := by norm_num
  have e30 : (0x40000000 : Nat) = 2 ^ 30 := by norm_num
  have t31 : (2 ^ 31 : Nat).testBit b = decide (b = 31) := by
    rw [Nat.testBit_two_pow, decide_eq_decide]
    exact eq_comm
  have t30 : (2 ^ 30 : Nat).testBit b = decide (b = 30) := by
    rw [Nat.testBit_two_pow, decide_eq_decide]
    exact eq_comm
  unfold withLegacyFlags
  rw [e31, e30]
  by_cases h1 : old.testBit 31 = true <;> by_cases h2 : old.testBit 30 = true
  · rw [if_pos ((land_two_pow_ne_zero _ _).mpr h2), if_pos ((land_two_pow_ne_zero _ _).mpr h1),
      Nat.testBit_or, Nat.testBit_or, t31, t30, h1, h2, Bool.and_true, Bool.and_true]
  · rw [if_neg (fun h => h2 ((land_two_pow_ne_zero _ _).mp h)),
      if_pos ((land_two_pow_ne_zero _ _).mpr h1), Nat.testBit_or, t31, h1,
      Bool.eq_false_iff.mpr h2, Bool.and_true, Bool.and_false, Bool.or_false]
  · rw [if_pos ((land_two_pow_ne_zero _ _).mpr h2),
      if_neg (fun h => h1 ((land_two_pow_ne_zero _ _).mp h)), Nat.testBit_or, t30, h2,
      Bool.eq_false_iff.mpr h1, Bool.and_true, Bool.and_false, Bool.or_false]
  · rw [if_neg (fun h => h2 ((land_two_pow_ne_zero _ _).mp h)),
      if_neg (fun h => h1 ((land_two_pow_ne_zero _ _).mp h)),
      Bool.eq_false_iff.mpr h1, Bool.eq_false_iff.mpr h2, Bool.and_false, Bool.and_false,
      Bool.or_false, Bool.or_false]

theorem getD_set_words (l : List Nat) (i j v : Nat) (h : i < l.length) :
    (l.set i v).getD j 0 = if j = i then v else l.getD j 0 := by
  by_cases e : j = i
  · rw [if_pos e, e]
    exact getD_set_self_of_lt l i v h
  · rw [if_neg e]
    exact getD_set_of_ne l i j v (fun c => e c.symm)

/-- One call of `setGfxUsageBit` within the array: the word of the bit gets
the bit, the length stays. -/
theorem setGfxUsageBit_eq (g : List Nat) (strip bit : Nat) (hs : strip < g.length / 3)
    (h1 : 1 ≤ bit) (h2 : bit ≤ 96) :
    ScummEngine.setGfxUsageBit g strip bit =
      some (g.set (3 * strip + (bit - 1) / 32)
        (g.getD (3 * strip + (bit - 1) / 32) 0 ||| 2 ^ ((bit - 1) % 32))) := by
  unfold ScummEngine.setGfxUsageBit
  rw [if_pos ⟨hs, h1, h2⟩]

/-- The body of the loop for one strip: word `3 * i` becomes the low 30 bits
of word `i`, word `3 * i + 2` gets the two flags of word `i` or-ed in, and
every other word, `3 * i + 1` among them, stays as it is. -/
theorem upgradeStrip_spec (g : List Nat) (i : Nat) (h : 3 * i + 2 < g.length) :
    ∃ g1, ScummEngine.upgradeStrip g i = some g1 ∧ g1.length = g.length ∧
      ∀ x, g1.getD x 0 =
        if x = 3 * i then g.getD i 0 &&& 0x3FFFFFFF
        else if x = 3 * i + 2 then withLegacyFlags (g.getD (3 * i + 2) 0) (g.getD i 0)
        else g.getD x 0 := by
  have hi : i < g.length := by omega
  have h3 : 3 * i < g.length := by omega
  have hlen1 : (g.set (3 * i) (g.getD i 0 &&& 0x3FFFFFFF)).length = g.length := List.length_set _ _ _
  have hs1 : i < (g.set (3 * i) (g.getD i 0 &&& 0x3FFFFFFF)).length / 3 := by
    rw [hlen1]
    omega
  have hw1 : (g.set (3 * i) (g.getD i 0 &&& 0x3FFFFFFF)).getD (3 * i + 2) 0 =
      g.getD (3 * i + 2) 0 := getD_set_of_ne _ _ _ _ (by omega)
  unfold ScummEngine.upgradeStrip
  rw [if_pos ⟨hi, h3⟩]
  dsimp only
  generalize hg1 : g.set (3 * i) (g.getD i 0 &&& 0x3FFFFFFF) = g1 at hlen1 hs1 hw1
  have hx1 : ∀ x, g1.getD x 0 = if x = 3 * i then g.getD i 0 &&& 0x3FFFFFFF else g.getD x 0 := by
    intro x
    rw [← hg1]
    exact getD_set_words g (3 * i) x _ h3
  have e96 : ScummEngine.setGfxUsageBit g1 i USAGE_BIT_DIRTY =
      some (g1.set (3 * i + 2) (g1.getD (3 * i + 2) 0 ||| 2 ^ 31)) :=
    setGfxUsageBit_eq g1 i 96 hs1 (by decide) (by decide)
  have e95 : ∀ g2 : List Nat, i < g2.length / 3 →
      ScummEngine.setGfxUsageBit g2 i USAGE_BIT_RESTORED =
        some (g2.set (3 * i + 2) (g2.getD (3 * i + 2) 0 ||| 2 ^ 30)) :=
    fun g2 hs2 => setGfxUsageBit_eq g2 i 95 hs2 (by decide) (by decide)
  have h32 : 3 * i + 2 < g1.length := by omega
  have hstrip : ∀ x : Nat, (if x = 3 * i then g.getD i 0 &&& 0x3FFFFFFF
      else if x = 3 * i + 2 then withLegacyFlags (g.getD (3 * i + 2) 0) (g.getD i 0)
      else g.getD x 0) =
      if x = 3 * i + 2 then withLegacyFlags (g1.getD (3 * i + 2) 0) (g.getD i 0)
      else g1.getD x 0 := by
    intro x
    rw [hx1 x, hw1]
    by_cases e1 : x = 3 * i
    · rw [if_pos e1, if_neg (by omega), if_pos e1]
    · rw [if_neg e1, if_neg e1]
  simp only [hstrip]
  by_cases hd : g.getD i 0 &&& 0x80000000 ≠ 0 <;> by_cases hr : g.getD i 0 &&& 0x40000000 ≠ 0
  · rw [decide_eq_true hd, decide_eq_true hr, if_pos rfl, e96]
    dsimp only
    rw [if_pos rfl, e95 _ (by rw [List.length_set]; exact hs1)]
    refine ⟨_, rfl, by rw [List.length_set, List.length_set, hlen1], fun x => ?_⟩
    rw [getD_set_words _ _ _ _ (by rw [List.length_set]; exact h32),
      getD_set_self_of_lt _ _ _ h32, getD_set_words _ _ _ _ h32]
    unfold withLegacyFlags
    rw [if_pos hr, if_pos hd]
    by_cases e2 : x = 3 * i + 2
    · rw [if_pos e2, if_pos e2]
    · rw [if_neg e2, if_neg e2, if_neg e2]
  · rw [decide_eq_true hd, decide_eq_false hr, if_pos rfl, e96]
    dsimp only
    rw [if_neg (by decide)]
    refine ⟨_, rfl, by rw [List.length_set, hlen1], fun x => ?_⟩
    rw [getD_set_words _ _ _ _ h32]
    unfold withLegacyFlags
    rw [if_neg hr, if_pos hd]
  · rw [decide_eq_false hd, decide_eq_true hr, if_neg (by decide)]
    dsimp only
    rw [if_pos rfl, e95 _ hs1]
    refine ⟨_, rfl, by rw [List.length_set, hlen1], fun x => ?_⟩
    rw [getD_set_words _ _ _ _ h32]
    unfold withLegacyFlags
    rw [if_pos hr, if_neg hd]
  · rw [decide_eq_false hd, decide_eq_false hr, if_neg (by decide)]
    dsimp only
    rw [if_neg (by decide)]
    refine ⟨_, rfl, hlen1, fun x => ?_⟩
    unfold withLegacyFlags
    rw [if_neg hr, if_neg hd]
    by_cases e2 : x = 3 * i + 2
    · rw [if_pos e2, e2]
    · rw [if_neg e2]

/-- The loop from strip `i` down to strip 0: the three words of every strip
`j ≤ i` are as the body leaves them, read from the array the loop started
with, and the words from `3 * i + 3` on are untouched. -/
theorem upgradeFrom_spec : ∀ (i : Nat) (g : List Nat), 3 * i + 2 < g.length →
    ∃ g1, ScummEngine.upgradeFrom i g = some g1 ∧ g1.length = g.length ∧
      (∀ j, j ≤ i →
        g1.getD (3 * j) 0 = g.getD j 0 &&& 0x3FFFFFFF ∧
        g1.getD (3 * j + 1) 0 = g.getD (3 * j + 1) 0 ∧
        g1.getD (3 * j + 2) 0 = withLegacyFlags (g.getD (3 * j + 2) 0) (g.getD j 0)) ∧
      ∀ x, 3 * i + 3 ≤ x → g1.getD x 0 = g.getD x 0 := by
  intro i
  induction i with
  | zero =>
    intro g h
    obtain ⟨g1, h1, hl, hx⟩ := upgradeStrip_spec g 0 h
    refine ⟨g1, h1, hl, fun j hj => ?_, fun x hx2 => ?_⟩
    · have hj0 : j = 0 := by omega
      subst hj0
      refine ⟨?_, ?_, ?_⟩
      · rw [hx, if_pos rfl]
      · rw [hx, if_neg (by omega), if_neg (by omega)]
      · rw [hx, if_neg (by omega), if_pos rfl]
    · rw [hx, if_neg (by omega), if_neg (by omega)]
  | succ i ih =>
    intro g h
    obtain ⟨g1, h1, hl, hx⟩ := upgradeStrip_spec g (i + 1) h
    obtain ⟨g2, h2, hl2, hj2, hx2⟩ := ih g1 (by omega)
    refine ⟨g2, ?_, hl2.trans hl, fun j hj => ?_, fun x hx3 => ?_⟩
    · unfold ScummEngine.upgradeFrom
      rw [h1]
      exact h2
    · by_cases hji : j ≤ i
      · obtain ⟨a, b, c⟩ := hj2 j hji
        rw [a, b, c, hx j, hx (3 * j + 1), hx (3 * j + 2)]
        rw [if_neg (by omega), if_neg (by omega), if_neg (by omega), if_neg (by omega),
          if_neg (by omega), if_neg (by omega)]
        exact ⟨rfl, rfl, rfl⟩
      · have hj1 : j = i + 1 := by omega
        subst hj1
        rw [hx2 _ (by omega), hx2 _ (by omega), hx2 _ (by omega), hx, hx, hx]
        rw [if_pos rfl, if_neg (by omega), if_neg (by omega), if_neg (by omega), if_pos rfl]
        exact ⟨rfl, rfl, rfl⟩
    · rw [hx2 x (by omega), hx x, if_neg (by omega), if_neg (by omega)]

theorem mask30_testBit (b : Nat) : (0x3FFFFFFF : Nat).testBit b = decide (b < 30) := by
  have e : (0x3FFFFFFF : Nat) = 2 ^ 30 - 1 := by norm_num
  rw [e, Nat.testBit_two_pow_sub_one]

/-- The bit `setGfxUsageBit` sets is the one `usageBit` reads. -/
theorem usageBit_setGfxUsageBit (g : List Nat) (strip bit : Nat) (hs : strip < g.length / 3)
    (h1 : 1 ≤ bit) (h2 : bit ≤ 96) :
    ∃ g1, ScummEngine.setGfxUsageBit g strip bit = some g1 ∧ usageBit g1 strip bit = true := by
  refine ⟨_, setGfxUsageBit_eq g strip bit hs h1 h2, ?_⟩
  unfold usageBit
  rw [getD_set_self_of_lt _ _ _ (by omega)]
  exact testBit_or_two_pow_self _ _

/-- The bit `clearGfxUsageBit` clears is the one `usageBit` reads. -/
theorem usageBit_clearGfxUsageBit (g : List Nat) (strip bit : Nat) (hs : strip < g.length / 3)
    (h1 : 1 ≤ bit) (h2 : bit ≤ 96) :
    ∃ g1, ScummEngine.clearGfxUsageBit g strip bit = some g1 ∧ usageBit g1 strip bit = false := by
  refine ⟨g.set (3 * strip + (bit - 1) / 32)
      (g.getD (3 * strip + (bit - 1) / 32) 0 &&& (0xFFFFFFFF ^^^ 2 ^ ((bit - 1) % 32))), ?_, ?_⟩
  · unfold ScummEngine.clearGfxUsageBit
    rw [if_pos ⟨hs, h1, h2⟩]
  · unfold usageBit
    rw [getD_set_self_of_lt _ _ _ (by omega)]
    have e : (0xFFFFFFFF : Nat) = 2 ^ 32 - 1 := by norm_num
    rw [Nat.testBit_and, Nat.testBit_xor, Nat.testBit_two_pow_self, e,
      Nat.testBit_two_pow_sub_one]
    have : (bit - 1) % 32 < 32 := Nat.mod_lt _ (by decide)
    simp [this]

/-- The usage bits of every strip after `upgradeGfxUsageBits`, from the words
of the array it started with. -/
theorem upgradeGfxUsageBits_bits (g : List Nat) (hlen : g.length = 1230) :
    ∃ g1, ScummEngine.upgradeGfxUsageBits g = some g1 ∧ g1.length = 1230 ∧
      ∀ i, i ≤ 409 →
        g1.getD (3 * i + 1) 0 = g.getD (3 * i + 1) 0 ∧
        (∀ b, 1 ≤ b → b ≤ 30 → usageBit g1 i b = (g.getD i 0).testBit (b - 1)) ∧
        usageBit g1 i 31 = false ∧ usageBit g1 i 32 = false ∧
        (∀ b, 33 ≤ b → b ≤ 64 → usageBit g1 i b = (g.getD (3 * i + 1) 0).testBit (b - 33)) ∧
        (∀ b, 65 ≤ b → b ≤ 94 → usageBit g1 i b = (g.getD (3 * i + 2) 0).testBit (b - 65)) ∧
        usageBit g1 i USAGE_BIT_RESTORED =
          ((g.getD (3 * i + 2) 0).testBit 30 || (g.getD i 0).testBit 30) ∧
        usageBit g1 i USAGE_BIT_DIRTY =
          ((g.getD (3 * i + 2) 0).testBit 31 || (g.getD i 0).testBit 31) := by
  obtain ⟨g1, h1, hl, hj, -⟩ := upgradeFrom_spec 409 g (by omega)
  refine ⟨g1, h1, hl.trans hlen, fun i hi => ?_⟩
  obtain ⟨w0, w1, w2⟩ := hj i hi
  refine ⟨w1, ?_, ?_, ?_, ?_, ?_, ?_, ?_⟩
  · intro b hb1 hb2
    have e1 : (b - 1) / 32 = 0 := by omega
    have e2 : (b - 1) % 32 = b - 1 := by omega
    unfold usageBit
    rw [e1, e2, Nat.add_zero, w0, Nat.testBit_and, mask30_testBit]
    have : b - 1 < 30 := by omega
    simp [this]
  · unfold usageBit
    show (g1.getD (3 * i) 0).testBit 30 = false
    rw [w0, Nat.testBit_and, mask30_testBit]
    simp
  · unfold usageBit
    show (g1.getD (3 * i) 0).testBit 31 = false
    rw [w0, Nat.testBit_and, mask30_testBit]
    simp
  · intro b hb1 hb2
    have e1 : (b - 1) / 32 = 1 := by omega
    have e2 : (b - 1) % 32 = b - 33 := by omega
    unfold usageBit
    rw [e1, e2, w1]
  · intro b hb1 hb2
    have e1 : (b - 1) / 32 = 2 := by omega
    have e2 : (b - 1) % 32 = b - 65 := by omega
    have e3 : b - 65 ≠ 31 := by omega
    have e4 : b - 65 ≠ 30 := by omega
    unfold usageBit
    rw [e1, e2, w2, withLegacyFlags_testBit]
    simp [e3, e4]
  · unfold usageBit
    show (g1.getD (3 * i + 2) 0).testBit 30 = _
    rw [w2, withLegacyFlags_testBit]
    simp
  · unfold usageBit
    show (g1.getD (3 * i + 2) 0).testBit 31 = _
    rw [w2, withLegacyFlags_testBit]
    simp

theorem testGfxAnyUsageBits_of_middle (g : List Nat) (strip : Nat) (hs : strip < g.length / 3)
    (hw : g.getD (3 * strip + 1) 0 &&& 0xFFFFFFFF ≠ 0) :
    ScummEngine.testGfxAnyUsageBits g strip = some true := by
  unfold ScummEngine.testGfxAnyUsageBits
  rw [if_pos hs, decide_eq_true hw]
  simp

theorem exampleLegacy_zero_above (j : Nat) (hj : 410 ≤ j) : exampleLegacy.getD j 0 = 0 := by
  match j, hj with
  | j + 2, _ =>
    unfold exampleLegacy
    rw [List.getD_cons_succ, List.getD_cons_succ, List.getD_eq_getElem?_getD,
      List.getElem?_replicate]
    split_ifs <;> rfl

theorem exampleLegacy_length : exampleLegacy.length = 1230 := by
  unfold exampleLegacy
  rw [List.length_cons, List.length_cons, List.length_replicate]

/-- C34: for a legacy array of 1230 words with one word per strip in the
entries 0..409 and zeroes above, `upgradeGfxUsageBits` returns, and for every
strip `i` in 0..409 the usage bits 1..30 are the low 30 bits of its old word
and the bits 31 and 32 are clear; but the word `3 * i + 1` is never written and
the word `3 * i + 2` is only or-ed into, so the usage bits 33..64 are the bits
of the legacy word still stored at index `3 * i + 1`, the bits 65..94 those of
the legacy word at index `3 * i + 2`, and `USAGE_BIT_RESTORED` and
`USAGE_BIT_DIRTY` are set when bit 30 and bit 31 of the strip's old word or of
the legacy word at index `3 * i + 2` are set.  Only for the strips 137..409,
whose second and third word lie above the legacy entries, are the bits 33..94
clear and the two flags those of the strip's old word. -/
theorem upgradeGfxUsageBits_stale_words (g : List Nat) (hlen : g.length = 1230)
    (hz : ∀ j, 410 ≤ j → g.getD j 0 = 0) :
    ∃ g1, ScummEngine.upgradeGfxUsageBits g = some g1 ∧ g1.length = 1230 ∧
      (∀ i, i ≤ 409 →
        g1.getD (3 * i + 1) 0 = g.getD (3 * i + 1) 0 ∧
        (∀ b, 1 ≤ b → b ≤ 30 → usageBit g1 i b = (g.getD i 0).testBit (b - 1)) ∧
        usageBit g1 i 31 = false ∧ usageBit g1 i 32 = false ∧
        (∀ b, 33 ≤ b → b ≤ 64 → usageBit g1 i b = (g.getD (3 * i + 1) 0).testBit (b - 33)) ∧
        (∀ b, 65 ≤ b → b ≤ 94 → usageBit g1 i b = (g.getD (3 * i + 2) 0).testBit (b - 65)) ∧
        usageBit g1 i USAGE_BIT_RESTORED =
          ((g.getD (3 * i + 2) 0).testBit 30 || (g.getD i 0).testBit 30) ∧
        usageBit g1 i USAGE_BIT_DIRTY =
          ((g.getD (3 * i + 2) 0).testBit 31 || (g.getD i 0).testBit 31)) ∧
      (∀ i, 137 ≤ i → i ≤ 409 →
        (∀ b, 31 ≤ b → b ≤ 94 → usageBit g1 i b = false) ∧
        usageBit g1 i USAGE_BIT_RESTORED = (g.getD i 0).testBit 30 ∧
        usageBit g1 i USAGE_BIT_DIRTY = (g.getD i 0).testBit 31) := by
  obtain ⟨g1, h1, hl, hbits⟩ := upgradeGfxUsageBits_bits g hlen
  refine ⟨g1, h1, hl, hbits, fun i hi1 hi2 => ?_⟩
  obtain ⟨-, -, b31, b32, bmid, bhigh, br, bd⟩ := hbits i hi2
  have z1 : g.getD (3 * i + 1) 0 = 0 := hz _ (by omega)
  have z2 : g.getD (3 * i + 2) 0 = 0 := hz _ (by omega)
  refine ⟨fun b hb1 hb2 => ?_, ?_, ?_⟩
  · by_cases c1 : b = 31
    · rw [c1]; exact b31
    · by_cases c2 : b = 32
      · rw [c2]; exact b32
      · by_cases c3 : b ≤ 64
        · rw [bmid b (by omega) c3, z1, Nat.zero_testBit]
        · rw [bhigh b (by omega) hb2, z2, Nat.zero_testBit]
  · rw [br, z2, Nat.zero_testBit, Bool.false_or]
  · rw [bd, z2, Nat.zero_testBit, Bool.false_or]

theorem upgradeGfxUsageBits_stale_words_witness :
    (exampleLegacy.length = 1230 ∧ exampleLegacy.getD 0 0 = 0 ∧ exampleLegacy.getD 1 0 = 1) ∧
    ∃ g1, ScummEngine.upgradeGfxUsageBits exampleLegacy = some g1 ∧
      usageBit g1 0 33 = true ∧ ScummEngine.testGfxAnyUsageBits g1 0 = some true :=
  (upgradeGfxUsageBits_stale_words exampleLegacy exampleLegacy_length
    exampleLegacy_zero_above).elim fun g1 h =>
    ⟨⟨exampleLegacy_length, rfl, rfl⟩, g1, h.1,
      ((h.2.2.1 0 (by decide)).2.2.2.2.1 33 (by decide) (by decide)).trans (by decide),
      testGfxAnyUsageBits_of_middle g1 0 (by rw [h.2.1]; decide)
        (by rw [(h.2.2.1 0 (by decide)).1]; decide)⟩

end Scumm
